import Mathlib

/-!
Typed-set attribute adapter.

A shallow embedding of `internal/framework/types/setof.go`: the generic
`setTypeOf[T]` / `SetValueOf[T]` pair that wraps the plugin framework's generic
set value with an element type fixed by the Go type parameter `T` and an
optional validation hook.

Conventions of the embedding.

* The `context.Context` argument is carried through the Go code unused and is
  dropped.
* The Go type parameter `T` is a value `T : TP`, where `TP` is the collection of
  Go types that implement `attr.Value`; Go type identity is equality on `TP`.
* The interfaces `attr.Type` and `attr.Value` are the carrier types `Ty` and
  `Val` with their methods collected in the record `Framework`.
* A validation hook is a Go function value, so it may have effects besides its
  result; it is embedded as a state transformer over an ambient state `σ`, which
  makes "the hook is (not) invoked" a statement about that state.
* The plugin framework itself (`attr`, `diag`, `path`, `xattr`, `basetypes`) is an
  external collaborator of the adapter and not part of this repository; the
  parts the adapter calls are embedded in the namespaces of the same names,
  following the framework's own definitions: `Diagnostics.Append` skips a
  diagnostic that is already present, `NewSetValue` checks the type of each
  element against the element type and falls back to the unknown value, and
  `SetValue.Equal` compares element types, states, lengths and then looks each
  element of the receiver up in the other value.

The second part of the file embeds `ParseTimeout` and `updateInstanceState` of
`internal/service/ec2/ec2_instance_state.go`, with `time.ParseDuration` of the
Go standard library following its definition and the EC2 calls `stopInstance`
and `startInstance` as state-passing parameters.
-/

/-! ## The plugin framework: value states, paths and diagnostics -/

namespace attr

/-- The three states of a framework value (`attr.ValueState`); the zero value of
the Go type is `null`. -/
inductive ValueState where
  | null
  | unknown
  | known
  deriving DecidableEq, Repr

end attr

namespace path

/-- An attribute path (`path.Path`), a sequence of steps. The adapter only hands
paths on to the hook. -/
structure Path where
  steps : List String
  deriving DecidableEq, Repr

end path

namespace diag

/-- The severity of a diagnostic (`diag.Severity`). -/
inductive Severity where
  | invalid
  | error
  | warning
  deriving DecidableEq, Repr

/-- A diagnostic (`diag.Diagnostic`): severity, summary, detail and, for an
attribute diagnostic, the attribute path. -/
structure Diagnostic where
  severity : Severity
  summary : String
  detail : String
  path : Option path.Path
  deriving DecidableEq, Repr

/-- The diagnostics collection (`diag.Diagnostics`), a slice; `nil` is `[]`. -/
abbrev Diagnostics := List Diagnostic

/-- The constructor `diag.NewErrorDiagnostic`. -/
def NewErrorDiagnostic (summary detail : String) : Diagnostic :=
  { severity := Severity.error, summary := summary, detail := detail, path := none }

/-- The method `Diagnostics.Contains`: some member equals the given diagnostic. -/
def Diagnostics.Contains (diags : Diagnostics) (d : Diagnostic) : Bool :=
  diags.any (fun x => decide (x = d))

/-- The method `Diagnostics.Append`: adds the given diagnostics one by one,
skipping each one the collection already contains. -/
def Diagnostics.Append (diags : Diagnostics) (new : List Diagnostic) : Diagnostics :=
  new.foldl (fun acc d => if Diagnostics.Contains acc d then acc else acc ++ [d]) diags

/-- The method `Diagnostics.AddError`: appends a new error diagnostic. -/
def Diagnostics.AddError (diags : Diagnostics) (summary detail : String) : Diagnostics :=
  Diagnostics.Append diags [NewErrorDiagnostic summary detail]

/-- The method `Diagnostics.HasError`: some member has error severity. -/
def Diagnostics.HasError (diags : Diagnostics) : Bool :=
  diags.any (fun d => decide (d.severity = Severity.error))

end diag

/-! ## The interfaces the adapter is generic over -/

/-- The methods of `attr.Type` and `attr.Value` that the adapter and the generic
set value call, over type descriptors `Ty`, element values `Val` and Go type
arguments `TP`. -/
structure Framework (TP Ty Val : Type) where
  /-- The method `attr.Type.Equal`. -/
  typeEqual : Ty → Ty → Bool
  /-- The method `attr.Type.String`. -/
  typeString : Ty → String
  /-- The method `attr.Value.Type`. -/
  typeOf : Val → Ty
  /-- The method `attr.Value.Equal`, between element values. -/
  valEqual : Val → Val → Bool
  /-- Modelled from the spec: `newAttrTypeOf[T](ctx)`, a helper of package
  `types` that is defined outside `setof.go`; it "resolves T's type descriptor
  from context", that is, it gives the element type descriptor of the type
  argument. -/
  newAttrTypeOf : TP → Ty

/-- The hook type `validateAttributeFunc[T]`: called with the path and the element
list, it returns diagnostics; `σ` is the state its call may change. -/
abbrev validateAttributeFunc (σ Val : Type) : Type :=
  path.Path → List Val → σ → diag.Diagnostics × σ

/-! ## The generic set value of the framework -/

namespace basetypes

/-- The generic set type `basetypes.SetType`. -/
structure SetType (Ty : Type) where
  ElemType : Option Ty

/-- The generic set value `basetypes.SetValue`; the zero value has no element
type and is null. -/
structure SetValue (Ty Val : Type) where
  elements : List Val
  elementType : Option Ty
  state : attr.ValueState

variable {TP Ty Val : Type}

/-- The constructor `basetypes.NewSetNull`. -/
def NewSetNull (elementType : Ty) : SetValue Ty Val :=
  { elements := [], elementType := some elementType, state := attr.ValueState.null }

/-- The constructor `basetypes.NewSetUnknown`. -/
def NewSetUnknown (elementType : Ty) : SetValue Ty Val :=
  { elements := [], elementType := some elementType, state := attr.ValueState.unknown }

/-- The error `basetypes.NewSetValue` reports for the element at index `idx`
whose type is not the set's element type. -/
def invalidSetElementDetail (F : Framework TP Ty Val) (elementType : Ty) (idx : Nat)
    (element : Val) : String :=
  "While creating a Set value, an invalid element was detected. " ++
  "A Set must use the single, given element type. " ++
  "This is always an issue with the provider and should be reported to the provider developers.\n\n" ++
  "Set Element Type: " ++ F.typeString elementType ++ "\n" ++
  "Set Index (" ++ toString idx ++ ") Element Type: " ++ F.typeString (F.typeOf element)

/-- The element loop of `basetypes.NewSetValue`, from index `idx` on: one error
is added for each element whose type the element type does not equal. -/
def checkSetElements (F : Framework TP Ty Val) (elementType : Ty) :
    Nat → List Val → diag.Diagnostics → diag.Diagnostics
  | _, [], diags => diags
  | idx, element :: rest, diags =>
    if !F.typeEqual elementType (F.typeOf element) then
      checkSetElements F elementType (idx + 1) rest
        (diag.Diagnostics.AddError diags "Invalid Set Element Type"
          (invalidSetElementDetail F elementType idx element))
    else
      checkSetElements F elementType (idx + 1) rest diags

/-- The constructor `basetypes.NewSetValue`: a known value holding the elements
when every element has the element type, otherwise the unknown value and the
errors. -/
def NewSetValue (F : Framework TP Ty Val) (elementType : Ty) (elements : List Val) :
    SetValue Ty Val × diag.Diagnostics :=
  let diags := checkSetElements F elementType 0 elements []
  if diag.Diagnostics.HasError diags then
    (NewSetUnknown elementType, diags)
  else
    ({ elements := elements, elementType := some elementType,
       state := attr.ValueState.known }, [])

/-- The method `SetValue.IsNull`. -/
def SetValue.IsNull (s : SetValue Ty Val) : Bool :=
  decide (s.state = attr.ValueState.null)

/-- The method `SetValue.IsUnknown`. -/
def SetValue.IsUnknown (s : SetValue Ty Val) : Bool :=
  decide (s.state = attr.ValueState.unknown)

/-- The method `SetValue.Elements`: a copy of the element list. -/
def SetValue.Elements (s : SetValue Ty Val) : List Val :=
  s.elements

/-- The method `SetValue.ElementType`. -/
def SetValue.ElementType (s : SetValue Ty Val) : Option Ty :=
  s.elementType

/-- The helper `SetValue.contains`: some element equals `v`. -/
def SetValue.contains (F : Framework TP Ty Val) (s : SetValue Ty Val) (v : Val) : Bool :=
  s.Elements.any (fun elem => F.valEqual elem v)

end basetypes

/-! ## The adapter: values -/

/-- The Go struct `SetValueOf[T]`: the embedded generic set value and the
optional hook (`none` is the nil function). -/
structure SetValueOf (Ty Val σ : Type) where
  SetValue : basetypes.SetValue Ty Val
  validateAttributeFunc : Option (validateAttributeFunc σ Val)

/-- A value of interface type `attr.Value` as the type assertions of the adapter
see it: its dynamic type is `SetValueOf[T]` for some `T`, the generic
`basetypes.SetValue`, or some other value type. -/
inductive AttrValue (TP Ty Val σ : Type) where
  | setValueOf (T : TP) (v : SetValueOf Ty Val σ)
  | setValue (v : basetypes.SetValue Ty Val)
  | other (v : Val)

namespace basetypes

variable {TP Ty Val σ : Type}

/-- The method `SetValue.Equal`: the other value is a generic set value, both have
an element type and these are equal, the states agree and, for known values,
the lengths agree and every element of the receiver is contained in the
other. -/
def SetValue.Equal (F : Framework TP Ty Val) (s : SetValue Ty Val)
    (o : AttrValue TP Ty Val σ) : Bool :=
  match o with
  | AttrValue.setValue other =>
    match s.elementType, other.elementType with
    | some st, some ot =>
      if !F.typeEqual st ot then false
      else if s.state ≠ other.state then false
      else if s.state ≠ attr.ValueState.known then true
      else if s.elements.length ≠ other.elements.length then false
      else s.elements.all (fun elem => SetValue.contains F other elem)
    | _, _ => false
  | _ => false

end basetypes

section Adapter

variable {TP Ty Val σ : Type}

/-- The method `SetValueOf[T].Equal`: the other value has dynamic type
`SetValueOf[T]` and the embedded generic set values are equal. -/
def SetValueOf.Equal [DecidableEq TP] (F : Framework TP Ty Val) (T : TP)
    (v : SetValueOf Ty Val σ)
    (o : AttrValue TP Ty Val σ) : Bool :=
  match o with
  | AttrValue.setValueOf T' other =>
    if T' = T then
      basetypes.SetValue.Equal F v.SetValue
        (AttrValue.setValue other.SetValue : AttrValue TP Ty Val σ)
    else false
  | _ => false

/-- The constructor `NewSetValueOfNull[T]`. -/
def NewSetValueOfNull (F : Framework TP Ty Val) (T : TP) : SetValueOf Ty Val σ :=
  { SetValue := basetypes.NewSetNull (F.newAttrTypeOf T), validateAttributeFunc := none }

/-- The constructor `NewSetValueOfUnknown[T]`. -/
def NewSetValueOfUnknown (F : Framework TP Ty Val) (T : TP) : SetValueOf Ty Val σ :=
  { SetValue := basetypes.NewSetUnknown (F.newAttrTypeOf T), validateAttributeFunc := none }

/-- The constructor `NewSetValueOf[T]`. -/
def NewSetValueOf (F : Framework TP Ty Val) (T : TP) (elements : List Val) :
    SetValueOf Ty Val σ × diag.Diagnostics :=
  let diags : diag.Diagnostics := []
  let r := basetypes.NewSetValue F (F.newAttrTypeOf T) elements
  let diags := diag.Diagnostics.Append diags r.2
  if diag.Diagnostics.HasError diags then
    (NewSetValueOfUnknown F T, diags)
  else
    ({ SetValue := r.1, validateAttributeFunc := none }, diags)

end Adapter

/-! ## The adapter: type descriptors, conversion and validation -/

/-- The Go struct `setTypeOf[T]`: the embedded generic set type and the optional
hook. -/
structure setTypeOf (Ty Val σ : Type) where
  SetType : basetypes.SetType Ty
  validateAttributeFunc : Option (validateAttributeFunc σ Val)

namespace xattr

/-- The request `xattr.ValidateAttributeRequest`. -/
structure ValidateAttributeRequest where
  Path : path.Path

/-- The response `xattr.ValidateAttributeResponse`, updated in place in Go. -/
structure ValidateAttributeResponse where
  Diagnostics : diag.Diagnostics
  deriving DecidableEq

end xattr

section Adapter

variable {TP Ty Val σ : Type}

/-- The constructor `NewSetTypeOf[T]`. -/
def NewSetTypeOf (F : Framework TP Ty Val) (T : TP) : setTypeOf Ty Val σ :=
  { SetType := { ElemType := some (F.newAttrTypeOf T) }, validateAttributeFunc := none }

/-- The method `setTypeOf[T].ValueFromSet`; the result always has dynamic type
`SetValueOf[T]`. -/
def setTypeOf.ValueFromSet (F : Framework TP Ty Val) (T : TP) (t : setTypeOf Ty Val σ)
    (inp : basetypes.SetValue Ty Val) : SetValueOf Ty Val σ × diag.Diagnostics :=
  let diags : diag.Diagnostics := []
  if inp.IsNull then
    (NewSetValueOfNull F T, diags)
  else if inp.IsUnknown then
    (NewSetValueOfUnknown F T, diags)
  else
    let r := basetypes.NewSetValue F (F.newAttrTypeOf T) inp.Elements
    let diags := diag.Diagnostics.Append diags r.2
    if diag.Diagnostics.HasError diags then
      (NewSetValueOfUnknown F T, diags)
    else
      ({ SetValue := r.1, validateAttributeFunc := t.validateAttributeFunc }, diags)

/-- The method `setTypeOf[T].ValueType`: the zero value of `SetValueOf[T]`. -/
def setTypeOf.ValueType (_t : setTypeOf Ty Val σ) : SetValueOf Ty Val σ :=
  { SetValue := { elements := [], elementType := none, state := attr.ValueState.null },
    validateAttributeFunc := none }

/-- The method `SetValueOf[T].ValidateAttribute`: the response and the ambient
state after the call, from the response and the state before it. -/
def SetValueOf.ValidateAttribute (v : SetValueOf Ty Val σ)
    (req : xattr.ValidateAttributeRequest) (resp : xattr.ValidateAttributeResponse)
    (s : σ) : xattr.ValidateAttributeResponse × σ :=
  if v.SetValue.IsNull || v.SetValue.IsUnknown || v.validateAttributeFunc.isNone then
    (resp, s)
  else
    match v.validateAttributeFunc with
    | none => (resp, s)
    | some f =>
      let r := f req.Path v.SetValue.Elements s
      ({ Diagnostics := diag.Diagnostics.Append resp.Diagnostics r.1 }, r.2)

/-- The method `Equal` of a value of interface type `attr.Value`, dispatched on
the dynamic type of the receiver; a value of another type equals only values of
that type, as the base types of the framework do. -/
def AttrValue.Equal [DecidableEq TP] (F : Framework TP Ty Val)
    (a o : AttrValue TP Ty Val σ) : Bool :=
  match a with
  | AttrValue.setValueOf T v => SetValueOf.Equal F T v o
  | AttrValue.setValue s => basetypes.SetValue.Equal F s o
  | AttrValue.other e =>
    match o with
    | AttrValue.other e' => F.valEqual e e'
    | _ => false

end Adapter

/-! ## Base types of the framework, for concrete instances -/

namespace basetypes

/-- Go value types used as the type argument `T` in the instances below. -/
inductive GoValueType where
  | StringValue
  | BoolValue
  deriving DecidableEq, Repr

/-- The type descriptors `basetypes.StringType` and `basetypes.BoolType`. -/
inductive BaseType where
  | StringType
  | BoolType
  deriving DecidableEq, Repr

/-- The values `basetypes.StringValue` and `basetypes.BoolValue`: a state and,
when known, the Go value. -/
inductive BaseValue where
  | StringValue (state : attr.ValueState) (value : String)
  | BoolValue (state : attr.ValueState) (value : Bool)
  deriving DecidableEq, Repr

/-- The constructor `basetypes.NewStringValue`. -/
def NewStringValue (value : String) : BaseValue :=
  BaseValue.StringValue attr.ValueState.known value

/-- The constructor `basetypes.NewBoolValue`. -/
def NewBoolValue (value : Bool) : BaseValue :=
  BaseValue.BoolValue attr.ValueState.known value

/-- The `Equal` methods of `StringType` and `BoolType`: the other type is the
same Go type. -/
def BaseType.Equal (t o : BaseType) : Bool :=
  decide (t = o)

/-- The `String` methods of `StringType` and `BoolType`. -/
def BaseType.String : BaseType → String
  | BaseType.StringType => "basetypes.StringType"
  | BaseType.BoolType => "basetypes.BoolType"

/-- The `Type` methods of `StringValue` and `BoolValue`. -/
def BaseValue.Type : BaseValue → BaseType
  | BaseValue.StringValue _ _ => BaseType.StringType
  | BaseValue.BoolValue _ _ => BaseType.BoolType

/-- The `Equal` methods of `StringValue` and `BoolValue`: same Go type, same
state and, when known, same value. -/
def BaseValue.Equal : BaseValue → BaseValue → Bool
  | BaseValue.StringValue s v, BaseValue.StringValue s' v' =>
    if s ≠ s' then false else if s ≠ attr.ValueState.known then true else decide (v = v')
  | BaseValue.BoolValue s v, BaseValue.BoolValue s' v' =>
    if s ≠ s' then false else if s ≠ attr.ValueState.known then true else decide (v = v')
  | _, _ => false

/-- The element type descriptor of each type argument. -/
def GoValueType.newAttrTypeOf : GoValueType → BaseType
  | GoValueType.StringValue => BaseType.StringType
  | GoValueType.BoolValue => BaseType.BoolType

/-- The framework interfaces instantiated with the base types above. -/
def baseFramework : Framework GoValueType BaseType BaseValue :=
  { typeEqual := BaseType.Equal
    typeString := BaseType.String
    typeOf := BaseValue.Type
    valEqual := BaseValue.Equal
    newAttrTypeOf := GoValueType.newAttrTypeOf }

end basetypes

/-- The state of the concrete hooks below: the log of the calls made so far. -/
abbrev CallLog : Type := List (path.Path × List basetypes.BaseValue)

/-- The descriptor `SetOfStringType`: a set of strings without a hook. -/
def SetOfStringType : setTypeOf basetypes.BaseType basetypes.BaseValue CallLog :=
  { SetType := { ElemType := some basetypes.BaseType.StringType },
    validateAttributeFunc := none }

/-- A hook that fails on every call: it logs the call and returns one error. -/
def alwaysFailingHook : validateAttributeFunc CallLog basetypes.BaseValue :=
  fun p values log =>
    ([{ severity := diag.Severity.error, summary := "Invalid value",
        detail := "always rejected", path := some p }], log ++ [(p, values)])

/-- A hook that rejects the string "x": it logs the call and returns one error
when the element list contains the known string "x", and nothing otherwise. -/
def rejectXHook : validateAttributeFunc CallLog basetypes.BaseValue :=
  fun p values log =>
    (if values.any (fun v => decide (v = basetypes.NewStringValue "x")) then
      [{ severity := diag.Severity.error, summary := "Invalid String Enum Value",
         detail := "x is not an allowed value", path := some p }]
     else [],
     log ++ [(p, values)])

/-- A set-of-strings descriptor carrying the hook that rejects "x". -/
def setOfStringRejectX : setTypeOf basetypes.BaseType basetypes.BaseValue CallLog :=
  { SetType := { ElemType := some basetypes.BaseType.StringType },
    validateAttributeFunc := some rejectXHook }

/-! ## The adapter: equality of descriptors, wire conversion, raw element slices -/

/-- A value of interface type `attr.Type` as the type assertions of the adapter
see it: its dynamic type is `setTypeOf[T]` for some `T`, the generic
`basetypes.SetType`, or some other type descriptor. -/
inductive AttrType (TP Ty Val σ : Type) where
  | setTypeOf (T : TP) (t : setTypeOf Ty Val σ)
  | setType (t : basetypes.SetType Ty)
  | other (t : Ty)

namespace basetypes

variable {TP Ty Val σ : Type}

/-- The method `SetType.Equal`: the other type is a generic set type and the
element types are equal; a set type whose element type is not set is equal to
no type, and no element type is equal to a missing one. -/
def SetType.Equal (F : Framework TP Ty Val) (st : SetType Ty)
    (o : AttrType TP Ty Val σ) : Bool :=
  match o with
  | AttrType.setType other =>
    match st.ElemType, other.ElemType with
    | some a, some b => F.typeEqual a b
    | _, _ => false
  | _ => false

end basetypes

/-- An `error` value of Go: an error handed on from a callee as it is, or one
made by `fmt.Errorf`, which is its message. -/
inductive GoError (E : Type) where
  | passed (err : E)
  | errorf (message : String)

/-- What `setTypeOf[T].ValueFromTerraform` takes from its surroundings, over wire
values `W` (`tftypes.Value`) and decoder errors `E`: the generic set decoder
`basetypes.SetType.ValueFromTerraform` of the framework and the two formatting
verbs of `fmt` it uses. -/
structure WireDecoding (W E TP Ty Val σ : Type) where
  /-- The method `basetypes.SetType.ValueFromTerraform`. -/
  decodeSet : basetypes.SetType Ty → W → Except E (AttrValue TP Ty Val σ)
  /-- The verb `%T` of `fmt`: the name of the dynamic type of a value. -/
  typeName : AttrValue TP Ty Val σ → String
  /-- The verb `%v` of `fmt` on diagnostics. -/
  showDiagnostics : diag.Diagnostics → String

section Adapter

variable {W E TP Ty Val σ : Type}

/-- The method `setTypeOf[T].Equal`: the other type has dynamic type
`setTypeOf[T]` and the embedded generic set types are equal. -/
def setTypeOf.Equal [DecidableEq TP] (F : Framework TP Ty Val) (T : TP)
    (t : setTypeOf Ty Val σ) (o : AttrType TP Ty Val σ) : Bool :=
  match o with
  | AttrType.setTypeOf T' other =>
    if T' = T then
      basetypes.SetType.Equal F t.SetType
        (AttrType.setType other.SetType : AttrType TP Ty Val σ)
    else false
  | _ => false

/-- The method `setTypeOf[T].ValueFromTerraform`: `Except.error` is the result
`(nil, err)`, `Except.ok` the result `(value, nil)`; the value has dynamic type
`SetValueOf[T]`. -/
def setTypeOf.ValueFromTerraform (D : WireDecoding W E TP Ty Val σ)
    (F : Framework TP Ty Val) (T : TP) (t : setTypeOf Ty Val σ) (inp : W) :
    Except (GoError E) (AttrValue TP Ty Val σ) :=
  match D.decodeSet t.SetType inp with
  | Except.error err => Except.error (GoError.passed err)
  | Except.ok attrValue =>
    match attrValue with
    | AttrValue.setValue setValue =>
      let r := setTypeOf.ValueFromSet F T t setValue
      if diag.Diagnostics.HasError r.2 then
        Except.error (GoError.errorf
          ("unexpected error converting SetValue to SetValuable: " ++ D.showDiagnostics r.2))
      else
        Except.ok (AttrValue.setValueOf T r.1)
    | _ => Except.error (GoError.errorf ("unexpected value type of " ++ D.typeName attrValue))

/-- A run-time panic of a constructor that takes an element slice: the nil-pointer
dereference of a method call on the nil interface value, or a panic of the
helper `fwdiag.Must`, with the value `P` that helper panics with. -/
inductive ConstructorPanic (P : Type) where
  | nilDereference
  | must (p : P)

namespace raw

/-! The constructors take `elements []attr.Value`, and an entry of such a slice can
be the nil interface value, on which no method can be called. `NewSetValue` and
`NewSetValueOf` above are the constructors on slices of non-nil values; the
definitions here are the constructors on every slice, `none` being a nil entry
and `Except.error` a panic. -/

/-- The entries of a slice `[]attr.Value` when none of them is the nil interface
value. -/
def nonNil : List (Option Val) → Option (List Val)
  | [] => some []
  | none :: _ => none
  | some v :: rest =>
    match nonNil rest with
    | some vs => some (v :: vs)
    | none => none

/-- The constructor `basetypes.NewSetValue` on a raw slice: its element loop calls
`element.Type(ctx)` on every entry, which panics on a nil entry; on a slice
without one it goes on as `basetypes.NewSetValue` above. -/
def NewSetValue {P : Type} (F : Framework TP Ty Val) (elementType : Ty)
    (elements : List (Option Val)) :
    Except (ConstructorPanic P) (basetypes.SetValue Ty Val × diag.Diagnostics) :=
  match nonNil elements with
  | none => Except.error ConstructorPanic.nilDereference
  | some values => Except.ok (basetypes.NewSetValue F elementType values)

/-- The constructor `NewSetValueOf[T]` on a raw slice. -/
def NewSetValueOf {P : Type} (F : Framework TP Ty Val) (T : TP)
    (elements : List (Option Val)) :
    Except (ConstructorPanic P) (SetValueOf Ty Val σ × diag.Diagnostics) :=
  let diags : diag.Diagnostics := []
  match (NewSetValue F (F.newAttrTypeOf T) elements :
      Except (ConstructorPanic P) (basetypes.SetValue Ty Val × diag.Diagnostics)) with
  | Except.error p => Except.error p
  | Except.ok r =>
    let diags := diag.Diagnostics.Append diags r.2
    if diag.Diagnostics.HasError diags then
      Except.ok (NewSetValueOfUnknown F T, diags)
    else
      Except.ok ({ SetValue := r.1, validateAttributeFunc := none }, diags)

/-- The constructor `NewSetValueOfMust[T]`, which returns a value and no
diagnostics: the value and the diagnostics of `NewSetValueOf[T]` are the
arguments of `fwdiag.Must`, a helper defined outside `setof.go` that is taken
as the parameter `must`, and its result is returned. -/
def NewSetValueOfMust {P : Type}
    (must : SetValueOf Ty Val σ × diag.Diagnostics → Except P (SetValueOf Ty Val σ))
    (F : Framework TP Ty Val) (T : TP) (elements : List (Option Val)) :
    Except (ConstructorPanic P) (SetValueOf Ty Val σ) :=
  match (NewSetValueOf F T elements :
      Except (ConstructorPanic P) (SetValueOf Ty Val σ × diag.Diagnostics)) with
  | Except.error p => Except.error p
  | Except.ok r =>
    match must r with
    | Except.ok v => Except.ok v
    | Except.error p => Except.error (ConstructorPanic.must p)

end raw

end Adapter

/-- A wire value for the concrete instances: a value the generic set decoder
cannot decode, one it decodes to the given generic set value, or one it decodes
to a string. -/
inductive WireValue where
  | malformed (reason : String)
  | set (v : basetypes.SetValue basetypes.BaseType basetypes.BaseValue)
  | string (value : String)

/-- A decoder for the concrete instances, acting as described at `WireValue`. -/
def wireDecoding :
    WireDecoding WireValue String basetypes.GoValueType basetypes.BaseType
      basetypes.BaseValue CallLog :=
  { decodeSet := fun _ w =>
      match w with
      | WireValue.malformed reason => Except.error reason
      | WireValue.set v => Except.ok (AttrValue.setValue v)
      | WireValue.string value => Except.ok (AttrValue.other (basetypes.NewStringValue value))
    typeName := fun v =>
      match v with
      | AttrValue.setValueOf _ _ => "types.SetValueOf"
      | AttrValue.setValue _ => "basetypes.SetValue"
      | AttrValue.other (basetypes.BaseValue.StringValue _ _) => "basetypes.StringValue"
      | AttrValue.other (basetypes.BaseValue.BoolValue _ _) => "basetypes.BoolValue"
    showDiagnostics := fun diags => String.intercalate "; " (diags.map (fun d => d.summary)) }

/-! ## The standard library: `time.ParseDuration`

`ParseTimeout` of package `ec2` hands its argument to `time.ParseDuration` of
the Go standard library, which is embedded here following its definition. A Go
string is read as its list of characters; the bytes the parser tests for (the
signs, the point, the digits) are ASCII, so reading characters and reading
bytes agree. The unsigned 64-bit accumulators are natural numbers, reduced
modulo `2 ^ 64` where an addition can wrap. The one floating-point expression
of the parser, the nanoseconds of a fraction, is the parameter `fraction`. The
loop over the terms of the string runs on fuel, the length of the string. -/

namespace time

/-- The type `time.Duration`: a signed 64-bit count of nanoseconds. -/
abbrev Duration : Type := Int

/-- The constant `time.Nanosecond`. -/
def Nanosecond : Duration := 1

/-- The constant `time.Microsecond`. -/
def Microsecond : Duration := 1000 * Nanosecond

/-- The constant `time.Millisecond`. -/
def Millisecond : Duration := 1000 * Microsecond

/-- The constant `time.Second`. -/
def Second : Duration := 1000 * Millisecond

/-- The constant `time.Minute`. -/
def Minute : Duration := 60 * Second

/-- The constant `time.Hour`. -/
def Hour : Duration := 60 * Minute

/-- The errors of `time.ParseDuration`, by their message: "time: invalid
duration", "time: missing unit in duration" and "time: unknown unit ... in
duration", each with the quoted original string. -/
inductive ParseError where
  | invalidDuration (orig : String)
  | missingUnit (orig : String)
  | unknownUnit (unit : String) (orig : String)
  deriving DecidableEq, Repr

/-- The byte test `'0' <= c && c <= '9'`. -/
def isDigit (c : Char) : Bool :=
  decide (48 ≤ c.toNat) && decide (c.toNat ≤ 57)

/-- The loop of `leadingInt` from the accumulator `x`: it consumes the leading
digits; `none` is the overflow error `errLeadingInt`. -/
def leadingIntLoop : Nat → List Char → Option (Nat × List Char)
  | x, [] => some (x, [])
  | x, c :: rest =>
    if !isDigit c then some (x, c :: rest)
    else if x > 2 ^ 63 / 10 then none
    else if x * 10 + (c.toNat - 48) > 2 ^ 63 then none
    else leadingIntLoop (x * 10 + (c.toNat - 48)) rest

/-- The function `leadingInt`: the value of the leading `[0-9]*` and the rest. -/
def leadingInt (s : List Char) : Option (Nat × List Char) :=
  leadingIntLoop 0 s

/-- The loop of `leadingFraction` from the accumulator `x`, the scale and the
overflow flag: it consumes the leading digits and stops counting them at
overflow. -/
def leadingFractionLoop : Nat → Nat → Bool → List Char → Nat × Nat × List Char
  | x, scale, _, [] => (x, scale, [])
  | x, scale, overflow, c :: rest =>
    if !isDigit c then (x, scale, c :: rest)
    else if overflow then leadingFractionLoop x scale true rest
    else if x > (2 ^ 63 - 1) / 10 then leadingFractionLoop x scale true rest
    else if x * 10 + (c.toNat - 48) > 2 ^ 63 then leadingFractionLoop x scale true rest
    else leadingFractionLoop (x * 10 + (c.toNat - 48)) (scale * 10) false rest

/-- The function `leadingFraction`: the value of the leading `[0-9]*`, the scale
(a power of ten) and the rest. -/
def leadingFraction (s : List Char) : Nat × Nat × List Char :=
  leadingFractionLoop 0 1 false s

/-- The unit scan: the characters up to the first point or digit, and the rest. -/
def splitUnit : List Char → List Char × List Char
  | [] => ([], [])
  | c :: rest =>
    if c = '.' || isDigit c then ([], c :: rest)
    else ((c :: (splitUnit rest).1), (splitUnit rest).2)

/-- The step of `time.ParseDuration` that consumes the optional fraction, a point
and digits: the fraction digits as a number, the scale, the rest of the string,
and whether a digit was consumed after the point. Without a point, nothing is
consumed. -/
def fractionPart (s1 : List Char) : Nat × Nat × List Char × Bool :=
  match s1 with
  | c1 :: s1' =>
    if c1 = '.' then
      ((leadingFraction s1').1, (leadingFraction s1').2.1, (leadingFraction s1').2.2,
        decide (s1'.length ≠ (leadingFraction s1').2.2.length))
    else (0, 1, s1, false)
  | [] => (0, 1, s1, false)

/-- The table `unitMap`: nanoseconds per unit; the two spellings of the
microsecond use U+00B5 and U+03BC. -/
def unitMap : List (List Char × Nat) :=
  [ (['n', 's'], 1),
    (['u', 's'], 1000),
    ([Char.ofNat 181, 's'], 1000),
    ([Char.ofNat 956, 's'], 1000),
    (['m', 's'], 1000000),
    (['s'], 1000000000),
    (['m'], 60000000000),
    (['h'], 3600000000000) ]

/-- The loop `for s != ""` of `time.ParseDuration` with the accumulator `d`: one
term (number, optional fraction, unit) per round. The outer `none` is fuel
exhaustion. -/
def parseTerms (fraction : Nat → Nat → Nat → Nat) (orig : String) :
    Nat → List Char → Nat → Option (Except ParseError Nat)
  | _, [], d => some (Except.ok d)
  | 0, _ :: _, _ => none
  | fuel + 1, c :: rest, d =>
    if !(c = '.' || isDigit c) then
      some (Except.error (ParseError.invalidDuration orig))
    else
      match leadingInt (c :: rest) with
      | none => some (Except.error (ParseError.invalidDuration orig))
      | some (v, s1) =>
        let pre : Bool := decide ((c :: rest).length ≠ s1.length)
        let frac : Nat × Nat × List Char × Bool := fractionPart s1
        let f := frac.1
        let scale := frac.2.1
        let s2 := frac.2.2.1
        let post := frac.2.2.2
        if !pre && !post then
          some (Except.error (ParseError.invalidDuration orig))
        else
          let u := (splitUnit s2).1
          let s3 := (splitUnit s2).2
          if u = [] then
            some (Except.error (ParseError.missingUnit orig))
          else
            match unitMap.lookup u with
            | none => some (Except.error (ParseError.unknownUnit (String.mk u) orig))
            | some unit =>
              if v > 2 ^ 63 / unit then
                some (Except.error (ParseError.invalidDuration orig))
              else
                let v1 := v * unit
                let v2 := if f > 0 then (v1 + fraction f unit scale) % 2 ^ 64 else v1
                if f > 0 && decide (v2 > 2 ^ 63) then
                  some (Except.error (ParseError.invalidDuration orig))
                else
                  let d1 := (d + v2) % 2 ^ 64
                  if d1 > 2 ^ 63 then
                    some (Except.error (ParseError.invalidDuration orig))
                  else
                    parseTerms fraction orig fuel s3 d1

/-- The conversion `Duration(d)` of an unsigned 64-bit number. -/
def durationOfUint64 (d : Nat) : Duration :=
  if d < 2 ^ 63 then (d : Int) else (d : Int) - 2 ^ 64

/-- The negation of a `Duration`, which wraps at the least value. -/
def negDuration (x : Duration) : Duration :=
  if x = -(2 ^ 63) then x else -x

/-- The function `time.ParseDuration`. The parameter `fraction f unit scale` is
the Go expression `uint64(float64(f) * (float64(unit) / scale))`. -/
def ParseDuration (fraction : Nat → Nat → Nat → Nat) (s : String) :
    Option (Except ParseError Duration) :=
  let sign : Bool × List Char :=
    match s.toList with
    | [] => (false, [])
    | c :: rest =>
      if c = '-' then (true, rest)
      else if c = '+' then (false, rest)
      else (false, c :: rest)
  let neg := sign.1
  let body := sign.2
  if body = ['0'] then
    some (Except.ok 0)
  else if body = [] then
    some (Except.error (ParseError.invalidDuration s))
  else
    match parseTerms fraction s body.length body 0 with
    | none => none
    | some (Except.error e) => some (Except.error e)
    | some (Except.ok d) =>
      if neg then
        some (Except.ok (negDuration (durationOfUint64 d)))
      else if d > 2 ^ 63 - 1 then
        some (Except.error (ParseError.invalidDuration s))
      else
        some (Except.ok (durationOfUint64 d))

/-- The number a string of decimal digits denotes. -/
def decimalValue (ds : List Char) : Nat :=
  ds.foldl (fun acc c => acc * 10 + (c.toNat - 48)) 0

/-- A decimal number with optional fraction: digits, optionally followed by a
point and digits, with at least one digit in all. -/
def isDecimalNumber (n : List Char) : Prop :=
  ∃ i f : List Char, (∀ c ∈ i, isDigit c = true) ∧ (∀ c ∈ f, isDigit c = true) ∧
    ((n = i ∧ i ≠ []) ∨ (n = i ++ '.' :: f ∧ (i ≠ [] ∨ f ≠ [])))

/-- A sequence of decimal numbers, each with optional fraction and a unit suffix
out of "ns", "us" (in both spellings of the micro sign), "ms", "s", "m",
"h". -/
inductive durationTerms : List Char → Prop where
  | nil : durationTerms []
  | cons (n u rest : List Char) : isDecimalNumber n → (unitMap.lookup u).isSome = true →
      durationTerms rest → durationTerms (n ++ u ++ rest)

/-- A duration string as the documentation of `time.ParseDuration` has it: "a
possibly signed sequence of decimal numbers, each with optional fraction and a
unit suffix"; the string "0", possibly signed, is one as well. -/
def validDurationString (s : String) : Prop :=
  ∃ sign body : List Char, s.toList = sign ++ body ∧
    (sign = [] ∨ sign = ['+'] ∨ sign = ['-']) ∧
    (body = ['0'] ∨ (body ≠ [] ∧ durationTerms body))

end time

/-! ## Package ec2: `ParseTimeout` and `updateInstanceState` -/

namespace ec2

/-- The function `ParseTimeout`. -/
def ParseTimeout (fraction : Nat → Nat → Nat → Nat) (timeoutStr : String) :
    Option (Except time.ParseError time.Duration) :=
  time.ParseDuration fraction timeoutStr

/-- The function `parseTimeout`. -/
def parseTimeout (fraction : Nat → Nat → Nat → Nat) (timeoutStr : String) :
    Option (Except time.ParseError time.Duration) :=
  ParseTimeout fraction timeoutStr

/-- The calls `stopInstance` and `startInstance` of package `ec2`, which are
defined outside `ec2_instance_state.go` and act on the EC2 service: each takes
the instance id, the force flag and the timeout, and returns an error or nil
(`none`) and the state of the world `σ` after the call; the connection is part
of that state. -/
structure InstanceCalls (σ Err : Type) where
  stopInstance : String → Bool → time.Duration → σ → Option Err × σ
  startInstance : String → Bool → time.Duration → σ → Option Err × σ

/-- The function `updateInstanceState`: the returned error (`none` is nil) and the
state of the world after it. -/
def updateInstanceState {σ Err : Type} (calls : InstanceCalls σ Err) (id : String)
    (currentState configuredState : String) (force : Bool)
    (stopTimeout startTimeout : time.Duration) (s : σ) : Option Err × σ :=
  if currentState = configuredState then
    (none, s)
  else
    let r1 : Option Err × σ :=
      if configuredState = "stopped" then calls.stopInstance id force stopTimeout s
      else (none, s)
    match r1 with
    | (some err, s1) => (some err, s1)
    | (none, s1) =>
      let r2 : Option Err × σ :=
        if configuredState = "running" then calls.startInstance id false startTimeout s1
        else (none, s1)
      match r2 with
      | (some err, s2) => (some err, s2)
      | (none, s2) => (none, s2)

/-- A call made to the EC2 service, as the recording calls below log it. -/
inductive InstanceCall where
  | stop (id : String) (force : Bool) (timeout : time.Duration)
  | start (id : String) (force : Bool) (timeout : time.Duration)
  deriving DecidableEq, Repr

/-- Calls that record themselves in a log and fail with the given errors, if any:
the state of the world is the log of the calls made so far. -/
def recordingCalls {Err : Type} (stopErr startErr : Option Err) :
    InstanceCalls (List InstanceCall) Err :=
  { stopInstance := fun id force timeout log =>
      (stopErr, log ++ [InstanceCall.stop id force timeout])
    startInstance := fun id force timeout log =>
      (startErr, log ++ [InstanceCall.start id force timeout]) }

end ec2

/-! ## Package ec2: the resource handlers -/

namespace ec2

/-- The resource data `*schema.ResourceData` of `aws_ec2_instance_state`: the ID,
whether the resource is new, the five attributes of the schema with their
schema types, and the create timeout. `d.Get` reads a field, `d.Set` writes
it. -/
structure ResourceData where
  id : String
  isNewResource : Bool
  force : Bool
  instance_id : String
  instance_start_timeout : String
  instance_stop_timeout : String
  state : String
  timeoutCreate : time.Duration
  deriving DecidableEq, Repr

/-- The type `awstypes.InstanceState`, by its name. -/
structure InstanceState where
  Name : String
  deriving DecidableEq, Repr

/-- The type `awstypes.Instance`, by its state, which the waiter returns set. -/
structure Instance where
  State : InstanceState
  deriving DecidableEq, Repr

/-- The error diagnostics the handlers make with `sdkdiag.AppendErrorf` and
`sdkdiag.AppendFromErr`, one constructor for each format string, with its
arguments:
"waiting for EC2 Instance (%s) ready: %s", "invalid instance_stop_timeout: %s",
"invalid instance_start_timeout: %s", the error itself, and
"reading EC2 Instance State (%s): %s". -/
inductive Diagnostic (Err : Type) where
  | waitingReady (id : String) (err : Err)
  | invalidStopTimeout (err : time.ParseError)
  | invalidStartTimeout (err : time.ParseError)
  | fromErr (err : Err)
  | reading (id : String) (err : Err)
  deriving DecidableEq, Repr

/-- The functions of package `ec2` and `tfresource` the handlers call that are
defined outside `ec2_instance_state.go`: the EC2 calls, the waiter
`waitInstanceReady`, the finder `findInstanceStateByID`, and the test
`tfresource.NotFound` on errors. Each call returns its result and the state of
the world after it. -/
structure InstanceStateAPI (σ Err : Type) where
  calls : InstanceCalls σ Err
  waitInstanceReady : String → time.Duration → σ → Except Err Instance × σ
  findInstanceStateByID : String → σ → Except Err InstanceState × σ
  NotFound : Err → Bool

/-- The handler `resourceInstanceStateRead`: the resource data and diagnostics
after the call, and the state of the world. -/
def resourceInstanceStateRead {σ Err : Type} (api : InstanceStateAPI σ Err)
    (d : ResourceData) (s : σ) : (ResourceData × List (Diagnostic Err)) × σ :=
  let diags : List (Diagnostic Err) := []
  match api.findInstanceStateByID d.id s with
  | (Except.error err, s1) =>
    if !d.isNewResource && api.NotFound err then
      (({ d with id := "" }, diags), s1)
    else
      ((d, diags ++ [Diagnostic.reading d.id err]), s1)
  | (Except.ok state, s1) =>
    let d1 := { d with force := d.force }
    let d2 := { d1 with instance_id := d1.id }
    let d3 := { d2 with instance_start_timeout := d2.instance_start_timeout }
    let d4 := { d3 with instance_stop_timeout := d3.instance_stop_timeout }
    let d5 := { d4 with state := state.Name }
    ((d5, diags), s1)

/-- The handler `resourceInstanceStateCreate`; the outer `none` is fuel exhaustion
in the parser of the timeouts. -/
def resourceInstanceStateCreate {σ Err : Type} (fraction : Nat → Nat → Nat → Nat)
    (api : InstanceStateAPI σ Err) (d : ResourceData) (s : σ) :
    Option ((ResourceData × List (Diagnostic Err)) × σ) :=
  let diags : List (Diagnostic Err) := []
  let instanceID := d.instance_id
  match api.waitInstanceReady instanceID d.timeoutCreate s with
  | (Except.error err, s1) =>
    some ((d, diags ++ [Diagnostic.waitingReady instanceID err]), s1)
  | (Except.ok inst, s1) =>
    match parseTimeout fraction d.instance_stop_timeout with
    | none => none
    | some (Except.error err) => some ((d, diags ++ [Diagnostic.invalidStopTimeout err]), s1)
    | some (Except.ok stopTimeout) =>
      match parseTimeout fraction d.instance_start_timeout with
      | none => none
      | some (Except.error err) =>
        some ((d, diags ++ [Diagnostic.invalidStartTimeout err]), s1)
      | some (Except.ok startTimeout) =>
        match updateInstanceState api.calls instanceID inst.State.Name d.state d.force
            stopTimeout startTimeout s1 with
        | (some err, s2) => some ((d, diags ++ [Diagnostic.fromErr err]), s2)
        | (none, s2) =>
          let d1 := { d with id := instanceID }
          let r := resourceInstanceStateRead api d1 s2
          some ((r.1.1, diags ++ r.1.2), r.2)

/-- The handler `resourceInstanceStateUpdate`. Beside the resource data it takes
the value of `state` in the prior state, which `d.GetChange` returns next to
the configured one (`d.HasChange` holds when the two differ), and the update
timeout `d.Timeout(schema.TimeoutUpdate)`; the outer `none` is fuel exhaustion
in the parser of the timeouts. -/
def resourceInstanceStateUpdate {σ Err : Type} (fraction : Nat → Nat → Nat → Nat)
    (api : InstanceStateAPI σ Err) (d : ResourceData) (oldState : String)
    (timeoutUpdate : time.Duration) (s : σ) :
    Option ((ResourceData × List (Diagnostic Err)) × σ) :=
  let diags : List (Diagnostic Err) := []
  match api.waitInstanceReady d.id timeoutUpdate s with
  | (Except.error err, s1) =>
    some ((d, diags ++ [Diagnostic.waitingReady d.id err]), s1)
  | (Except.ok _, s1) =>
    if oldState ≠ d.state then
      match parseTimeout fraction d.instance_stop_timeout with
      | none => none
      | some (Except.error err) => some ((d, diags ++ [Diagnostic.invalidStopTimeout err]), s1)
      | some (Except.ok stopTimeout) =>
        match parseTimeout fraction d.instance_start_timeout with
        | none => none
        | some (Except.error err) =>
          some ((d, diags ++ [Diagnostic.invalidStartTimeout err]), s1)
        | some (Except.ok startTimeout) =>
          match updateInstanceState api.calls d.id oldState d.state d.force
              stopTimeout startTimeout s1 with
          | (some err, s2) => some ((d, diags ++ [Diagnostic.fromErr err]), s2)
          | (none, s2) =>
            let r := resourceInstanceStateRead api d s2
            some ((r.1.1, diags ++ r.1.2), r.2)
    else
      let r := resourceInstanceStateRead api d s1
      some ((r.1.1, diags ++ r.1.2), r.2)

/-- The schema validator of `instance_start_timeout` and `instance_stop_timeout`,
`validation.StringMatch` with the pattern of one or more ASCII digits followed
by one of `s`, `m`, `h`, anchored at both ends: the characters of an accepted
string are a non-empty run of digits and then the unit. -/
def matchesTimeoutPattern (timeoutStr : String) : Bool :=
  match timeoutStr.toList.reverse with
  | [] => false
  | u :: rds =>
    (decide (u = 's') || decide (u = 'm') || decide (u = 'h')) &&
      !rds.isEmpty && rds.all time.isDigit

/-- An API for the concrete instances: the waiter finds the instance running, the
finder finds it in the state last asked for by a call, and the calls are
recorded; the state of the world is the log of the calls. -/
def recordingAPI : InstanceStateAPI (List InstanceCall) String :=
  { calls := recordingCalls none none
    waitInstanceReady := fun _ _ log => (Except.ok { State := { Name := "running" } }, log)
    findInstanceStateByID := fun _ log =>
      match log.getLast? with
      | some (InstanceCall.stop _ _ _) => (Except.ok { Name := "stopped" }, log)
      | _ => (Except.ok { Name := "running" }, log)
    NotFound := fun _ => false }

end ec2

/-! ## Package elasticbeanstalk: the generated pagers -/

namespace aws

/-- The helper `aws.ToString` of the SDK: the string a pointer points to, or the
empty string for nil. -/
def ToString (p : Option String) : String :=
  match p with
  | some s => s
  | none => ""

end aws

namespace elasticbeanstalk

/-- The request `elasticbeanstalk.DescribeApplicationVersionsInput`: the token and
the other fields, which the pager does not touch. -/
structure DescribeApplicationVersionsInput (Req : Type) where
  NextToken : Option String
  request : Req
  deriving DecidableEq, Repr

/-- The response `elasticbeanstalk.DescribeApplicationVersionsOutput`: the token
and the page of application versions. -/
structure DescribeApplicationVersionsOutput (Page : Type) where
  NextToken : Option String
  ApplicationVersions : Page
  deriving DecidableEq, Repr

/-- The request `elasticbeanstalk.DescribeEnvironmentsInput`: the token and the
other fields, which the pager does not touch. -/
structure DescribeEnvironmentsInput (Req : Type) where
  NextToken : Option String
  request : Req
  deriving DecidableEq, Repr

/-- The response `elasticbeanstalk.DescribeEnvironmentsOutput`: the token and the
page of environments. -/
structure DescribeEnvironmentsOutput (Page : Type) where
  NextToken : Option String
  Environments : Page
  deriving DecidableEq, Repr

/-- The body the two generated pagers share, over the request type `Inp` and the
response type `Out` with their token fields: the loop `for { ... }`, one round
per unit of fuel. `call` is the client method with the options applied, `fn`
the callback; both may change the state of the world `σ`. The result is the
returned error (`none` is nil), the input as the loop leaves it (the pager
writes the token into the input of the caller) and the state of the world; the
outer `none` is fuel exhaustion. -/
def pages {Inp Out σ Err : Type} (nextToken : Out → Option String)
    (setNextToken : Inp → Option String → Inp)
    (call : Inp → σ → Except Err Out × σ) (fn : Out → Bool → σ → Bool × σ) :
    Nat → Inp → σ → Option (Option Err × Inp × σ)
  | 0, _, _ => none
  | fuel + 1, input, s =>
    match call input s with
    | (Except.error err, s1) => some (some err, input, s1)
    | (Except.ok output, s1) =>
      let lastPage : Bool := decide (aws.ToString (nextToken output) = "")
      let r := fn output lastPage s1
      if !r.1 || lastPage then
        some (none, input, r.2)
      else
        pages nextToken setNextToken call fn fuel (setNextToken input (nextToken output)) r.2

/-- The function `describeApplicationVersionsPages`. -/
def describeApplicationVersionsPages {Req Page σ Err : Type}
    (call : DescribeApplicationVersionsInput Req → σ →
      Except Err (DescribeApplicationVersionsOutput Page) × σ)
    (fn : DescribeApplicationVersionsOutput Page → Bool → σ → Bool × σ)
    (fuel : Nat) (input : DescribeApplicationVersionsInput Req) (s : σ) :
    Option (Option Err × DescribeApplicationVersionsInput Req × σ) :=
  pages (fun output => output.NextToken) (fun inp token => { inp with NextToken := token })
    call fn fuel input s

/-- The function `describeEnvironmentsPages`. -/
def describeEnvironmentsPages {Req Page σ Err : Type}
    (call : DescribeEnvironmentsInput Req → σ →
      Except Err (DescribeEnvironmentsOutput Page) × σ)
    (fn : DescribeEnvironmentsOutput Page → Bool → σ → Bool × σ)
    (fuel : Nat) (input : DescribeEnvironmentsInput Req) (s : σ) :
    Option (Option Err × DescribeEnvironmentsInput Req × σ) :=
  pages (fun output => output.NextToken) (fun inp token => { inp with NextToken := token })
    call fn fuel input s

/-- A scripted world for a run of a pager: the answers the API will give, call by
call, the answers the callback will give, call by call, and the logs of the
requests made and of the callback's arguments. -/
structure PagerWorld (Inp Out Err : Type) where
  responses : List (Except Err Out)
  verdicts : List Bool
  requests : List Inp
  calls : List (Out × Bool)

/-- The client method of the scripted world: it logs the request and gives the
next scripted answer; `fallback` is the answer once the script is used up. -/
def scriptedCall {Inp Out Err : Type} (fallback : Except Err Out) (input : Inp)
    (w : PagerWorld Inp Out Err) : Except Err Out × PagerWorld Inp Out Err :=
  match w.responses with
  | [] => (fallback, { w with requests := w.requests ++ [input] })
  | r :: rest => (r, { w with responses := rest, requests := w.requests ++ [input] })

/-- The callback of the scripted world: it logs its arguments and gives the next
scripted answer, and `false` once the script is used up. -/
def scriptedFn {Inp Out Err : Type} (output : Out) (lastPage : Bool)
    (w : PagerWorld Inp Out Err) : Bool × PagerWorld Inp Out Err :=
  match w.verdicts with
  | [] => (false, { w with calls := w.calls ++ [(output, lastPage)] })
  | v :: rest => (v, { w with verdicts := rest, calls := w.calls ++ [(output, lastPage)] })

end elasticbeanstalk

/-! ## Package ssmincidents: expanders and flatteners

Values of the empty interface `any` that occur in resource configuration are
the type `Any`. A Go map `map[string]T` is the list of its entries, with
distinct keys, in the order a `range` loop visits them; `m[key]` is
`List.lookup`. A slice that may be nil is an `Option` of a list, `none` being
nil. A type assertion of the single-value form and the dereference of a nil
pointer panic; a function that can panic returns `Except Panic`. -/

namespace names

/-- Modelled from the spec: the constant `names.AttrName` of package `names`,
which is defined outside the embedded sources; it is the attribute name
"name". -/
def AttrName : String := "name"

/-- Modelled from the spec: the constant `names.AttrSNSTopicARN` of package
`names`, which is defined outside the embedded sources; it is the attribute
name "sns_topic_arn". -/
def AttrSNSTopicARN : String := "sns_topic_arn"

end names

namespace ssmincidents

/-- A value of type `any`: nil, a string, an int, a bool, a non-nil `*string`, a
`types.VariableType`, a `[]any`, a `map[string]any`, or a `*schema.Set` given by
the list of its members. -/
inductive Any where
  | nil
  | string (s : String)
  | int (i : Int)
  | bool (b : Bool)
  | stringPtr (s : String)
  | variableType (s : String)
  | list (xs : List Any)
  | map (m : List (String × Any))
  | set (items : List Any)

/-- The run-time panics of the package. -/
inductive Panic where
  | typeAssertion
  | indexOutOfRange
  | nilDereference
  deriving DecidableEq, Repr

/-- The assignment `m[key] = value` on a map. -/
def mapSet {α : Type} (m : List (String × α)) (key : String) (value : α) :
    List (String × α) :=
  if (m.lookup key).isSome then
    m.map (fun p => if p.1 = key then (key, value) else p)
  else
    m ++ [(key, value)]

/-- The union `types.NotificationTargetItem` of the SDK. -/
inductive NotificationTargetItem where
  | SnsTopicArn (Value : String)
  | UnknownUnionMember (tag : String)
  deriving DecidableEq, Repr

/-- The union `types.ChatChannel` of the SDK. -/
inductive ChatChannel where
  | Empty
  | ChatbotSns (Value : List String)
  | UnknownUnionMember (tag : String)
  deriving DecidableEq, Repr

/-- The union `types.DynamicSsmParameterValue` of the SDK. -/
inductive DynamicSsmParameterValue where
  | Variable (Value : String)
  | UnknownUnionMember (tag : String)
  deriving DecidableEq, Repr

/-- The struct `types.PagerDutyIncidentConfiguration` of the SDK. -/
structure PagerDutyIncidentConfiguration where
  ServiceId : Option String
  deriving DecidableEq, Repr

/-- The struct `types.PagerDutyConfiguration` of the SDK; the incident
configuration is a pointer. -/
structure PagerDutyConfiguration where
  Name : Option String
  PagerDutyIncidentConfiguration : Option PagerDutyIncidentConfiguration
  SecretId : Option String
  deriving DecidableEq, Repr

/-- The union `types.Integration` of the SDK. -/
inductive Integration where
  | PagerDutyConfiguration (Value : PagerDutyConfiguration)
  | UnknownUnionMember (tag : String)
  deriving DecidableEq, Repr

/-- The struct `types.IncidentTemplate` of the SDK, by the fields the expander
sets; pointers, the map and the slice are nil (`none`) when unset. -/
structure IncidentTemplate where
  Title : Option String
  Impact : Option Int
  DedupeString : Option String
  IncidentTags : Option (List (String × String))
  Summary : Option String
  NotificationTargets : Option (List NotificationTargetItem)
  deriving DecidableEq, Repr

/-- The conversion `int32(v)` of an int. -/
def toInt32 (v : Int) : Int :=
  (v + 2 ^ 31) % 2 ^ 32 - 2 ^ 31

/-- Modelled from the spec: `flex.ExpandStringValueMap` of `internal/flex`, a
helper defined outside the embedded sources; it maps every value `v` of the map
to `v.(string)`, and so panics on a value that is not a string. -/
def ExpandStringValueMap : List (String × Any) → Except Panic (List (String × String))
  | [] => Except.ok []
  | (key, Any.string s) :: rest =>
    match ExpandStringValueMap rest with
    | Except.ok m => Except.ok ((key, s) :: m)
    | Except.error p => Except.error p
  | _ :: _ => Except.error Panic.typeAssertion

/-- Modelled from the spec: `flex.ExpandStringValueSet` of `internal/flex`, a
helper defined outside the embedded sources; it returns, in the order of the
list of the set, the members of the set that are non-empty strings. -/
def ExpandStringValueSet : List Any → List String
  | [] => []
  | Any.string s :: rest =>
    if s ≠ "" then s :: ExpandStringValueSet rest else ExpandStringValueSet rest
  | _ :: rest => ExpandStringValueSet rest

/-- Modelled from the spec: `flex.FlattenStringValueSet` of `internal/flex`, a
helper defined outside the embedded sources; it makes the set of the given
strings, each string once. -/
def FlattenStringValueSet (list : List String) : List Any :=
  list.dedup.map Any.string

/-- The loop of `expandNotificationTargets`. -/
def expandNotificationTargetsLoop : List Any → Except Panic (List NotificationTargetItem)
  | [] => Except.ok []
  | Any.map targetData :: rest =>
    match targetData.lookup names.AttrSNSTopicARN with
    | some (Any.string arn) =>
      match expandNotificationTargetsLoop rest with
      | Except.ok items => Except.ok (NotificationTargetItem.SnsTopicArn arn :: items)
      | Except.error p => Except.error p
    | _ => Except.error Panic.typeAssertion
  | _ :: _ => Except.error Panic.typeAssertion

/-- The function `expandNotificationTargets`. -/
def expandNotificationTargets (targets : List Any) :
    Except Panic (Option (List NotificationTargetItem)) :=
  if targets.length = 0 then
    Except.ok none
  else
    match expandNotificationTargetsLoop targets with
    | Except.ok items => Except.ok (some items)
    | Except.error p => Except.error p

/-- The loop of `flattenNotificationTargets`. -/
def flattenNotificationTargetsLoop :
    List NotificationTargetItem → Except Panic (List (List (String × Any)))
  | [] => Except.ok []
  | NotificationTargetItem.SnsTopicArn value :: rest =>
    match flattenNotificationTargetsLoop rest with
    | Except.ok maps => Except.ok ([(names.AttrSNSTopicARN, Any.string value)] :: maps)
    | Except.error p => Except.error p
  | _ :: _ => Except.error Panic.typeAssertion

/-- The function `flattenNotificationTargets`. -/
def flattenNotificationTargets (targets : Option (List NotificationTargetItem)) :
    Except Panic (Option (List (List (String × Any)))) :=
  match targets with
  | none => Except.ok none
  | some items =>
    if items.length = 0 then
      Except.ok none
    else
      match flattenNotificationTargetsLoop items with
      | Except.ok maps => Except.ok (some maps)
      | Except.error p => Except.error p

/-- The function `expandIncidentTemplate`. -/
def expandIncidentTemplate (config : List Any) : Except Panic IncidentTemplate :=
  match config with
  | [] => Except.error Panic.indexOutOfRange
  | Any.map templateConfig :: _ =>
    let title : Option String :=
      match templateConfig.lookup "title" with
      | some (Any.string v) => if v ≠ "" then some v else none
      | _ => none
    let impact : Option Int :=
      match templateConfig.lookup "impact" with
      | some (Any.int v) => if v ≠ 0 then some (toInt32 v) else none
      | _ => none
    let dedupeString : Option String :=
      match templateConfig.lookup "dedupe_string" with
      | some (Any.string v) => some v
      | _ => none
    let incidentTags : Except Panic (Option (List (String × String))) :=
      match templateConfig.lookup "incident_tags" with
      | some (Any.map v) =>
        if v.length > 0 then
          match ExpandStringValueMap v with
          | Except.ok m => Except.ok (some m)
          | Except.error p => Except.error p
        else Except.ok none
      | _ => Except.ok none
    match incidentTags with
    | Except.error p => Except.error p
    | Except.ok tags =>
      let summary : Option String :=
        match templateConfig.lookup "summary" with
        | some (Any.string v) => some v
        | _ => none
      let notificationTargets : Except Panic (Option (List NotificationTargetItem)) :=
        match templateConfig.lookup "notification_target" with
        | some (Any.set items) =>
          if items.length > 0 then expandNotificationTargets items else Except.ok none
        | _ => Except.ok none
      match notificationTargets with
      | Except.error p => Except.error p
      | Except.ok targets =>
        Except.ok { Title := title, Impact := impact, DedupeString := dedupeString,
                    IncidentTags := tags, Summary := summary,
                    NotificationTargets := targets }
  | _ :: _ => Except.error Panic.typeAssertion

/-- The function `expandChatChannel`, on the members of the set. -/
def expandChatChannel (chatChannels : List Any) : ChatChannel :=
  let chatChannelList := ExpandStringValueSet chatChannels
  if chatChannelList.length = 0 then
    ChatChannel.Empty
  else
    ChatChannel.ChatbotSns chatChannelList

/-- The function `flattenChatChannel`; the result is the list of members of the
returned set, `none` for the nil pointer. -/
def flattenChatChannel (chatChannel : ChatChannel) : Option (List Any) :=
  match chatChannel with
  | ChatChannel.Empty => some []
  | ChatChannel.ChatbotSns value => some (FlattenStringValueSet value)
  | _ => none

/-- The loop of `expandDynamicParameters` with the map built so far. -/
def expandDynamicParametersLoop :
    List (String × Any) → List (String × DynamicSsmParameterValue) →
    Except Panic (List (String × DynamicSsmParameterValue))
  | [], result => Except.ok result
  | (key, Any.string value) :: rest, result =>
    expandDynamicParametersLoop rest
      (mapSet result key (DynamicSsmParameterValue.Variable value))
  | _ :: _, _ => Except.error Panic.typeAssertion

/-- The function `expandDynamicParameters`. -/
def expandDynamicParameters (parameterMap : List (String × Any)) :
    Except Panic (List (String × DynamicSsmParameterValue)) :=
  expandDynamicParametersLoop parameterMap []

/-- The loop of `flattenDynamicParameters` with the map built so far. -/
def flattenDynamicParametersLoop :
    List (String × DynamicSsmParameterValue) → List (String × Any) →
    Except Panic (List (String × Any))
  | [], result => Except.ok result
  | (key, DynamicSsmParameterValue.Variable value) :: rest, result =>
    flattenDynamicParametersLoop rest (mapSet result key (Any.variableType value))
  | _ :: _, _ => Except.error Panic.typeAssertion

/-- The function `flattenDynamicParameters`. -/
def flattenDynamicParameters (parameterMap : List (String × DynamicSsmParameterValue)) :
    Except Panic (List (String × Any)) :=
  flattenDynamicParametersLoop parameterMap []

/-- The loop of `expandPagerDutyIntegration` over the entries. -/
def expandPagerDutyIntegration : List Any → Except Panic (List Integration)
  | [] => Except.ok []
  | Any.nil :: rest => expandPagerDutyIntegration rest
  | Any.map integrationData :: rest =>
    let name : Option String :=
      match integrationData.lookup names.AttrName with
      | some (Any.string v) => if v ≠ "" then some v else none
      | _ => none
    let incidentConfiguration : Option PagerDutyIncidentConfiguration :=
      match integrationData.lookup "service_id" with
      | some (Any.string v) => if v ≠ "" then some { ServiceId := some v } else none
      | _ => none
    let secretId : Option String :=
      match integrationData.lookup "secret_id" with
      | some (Any.string v) => if v ≠ "" then some v else none
      | _ => none
    match expandPagerDutyIntegration rest with
    | Except.ok result =>
      Except.ok (Integration.PagerDutyConfiguration
        { Name := name, PagerDutyIncidentConfiguration := incidentConfiguration,
          SecretId := secretId } :: result)
    | Except.error p => Except.error p
  | _ :: _ => Except.error Panic.typeAssertion

/-- The function `flattenPagerDutyIntegration`: the field `ServiceId` is read
through the pointer to the incident configuration, which panics when that
pointer is nil. -/
def flattenPagerDutyIntegration : List Integration → Except Panic (List Any)
  | [] => Except.ok []
  | Integration.PagerDutyConfiguration pagerDutyConfiguration :: rest =>
    let data0 : List (String × Any) := []
    let data1 :=
      match pagerDutyConfiguration.Name with
      | some v => mapSet data0 names.AttrName (Any.stringPtr v)
      | none => data0
    match pagerDutyConfiguration.PagerDutyIncidentConfiguration with
    | none => Except.error Panic.nilDereference
    | some incidentConfiguration =>
      let data2 :=
        match incidentConfiguration.ServiceId with
        | some v => mapSet data1 "service_id" (Any.stringPtr v)
        | none => data1
      let data3 :=
        match pagerDutyConfiguration.SecretId with
        | some v => mapSet data2 "secret_id" (Any.stringPtr v)
        | none => data2
      match flattenPagerDutyIntegration rest with
      | Except.ok result => Except.ok (Any.map data3 :: result)
      | Except.error p => Except.error p
  | _ :: rest => flattenPagerDutyIntegration rest

/-- The ARN a notification target of the configuration holds under
`sns_topic_arn`, the empty string if it holds none. -/
def snsTopicARNOf (target : Any) : String :=
  match target with
  | Any.map targetData =>
    match targetData.lookup names.AttrSNSTopicARN with
    | some (Any.string arn) => arn
    | _ => ""
  | _ => ""

end ssmincidents

/-! ## Lemmas on diagnostics -/

namespace diag

theorem Contains_iff (diags : Diagnostics) (d : Diagnostic) :
    Diagnostics.Contains diags d = true ↔ d ∈ diags := by
  unfold Diagnostics.Contains
  rw [List.any_eq_true]
  constructor
  · rintro ⟨x, hx, hd⟩
    have : x = d := of_decide_eq_true hd
    exact this ▸ hx
  · intro h
    exact ⟨d, h, decide_eq_true rfl⟩

theorem HasError_iff (diags : Diagnostics) :
    Diagnostics.HasError diags = true ↔ ∃ d ∈ diags, d.severity = Severity.error := by
  unfold Diagnostics.HasError
  rw [List.any_eq_true]
  constructor
  · rintro ⟨x, hx, hd⟩
    exact ⟨x, hx, of_decide_eq_true hd⟩
  · rintro ⟨x, hx, hd⟩
    exact ⟨x, hx, decide_eq_true hd⟩

theorem Append_nil (diags : Diagnostics) : Diagnostics.Append diags [] = diags := rfl

theorem Append_cons (diags : Diagnostics) (d : Diagnostic) (new : List Diagnostic) :
    Diagnostics.Append diags (d :: new) =
      Diagnostics.Append (if Diagnostics.Contains diags d then diags else diags ++ [d]) new := rfl

theorem mem_Append (new : List Diagnostic) (diags : Diagnostics) (d : Diagnostic) :
    d ∈ Diagnostics.Append diags new ↔ d ∈ diags ∨ d ∈ new := by
  induction new generalizing diags with
  | nil => simp [Append_nil]
  | cons x rest ih =>
    rw [Append_cons, ih]
    by_cases hc : Diagnostics.Contains diags x = true
    · have hx : x ∈ diags := (Contains_iff diags x).1 hc
      simp only [hc, if_true, List.mem_cons]
      constructor
      · rintro (h | h)
        · exact Or.inl h
        · exact Or.inr (Or.inr h)
      · rintro (h | h | h)
        · exact Or.inl h
        · exact Or.inl (h ▸ hx)
        · exact Or.inr h
    · simp only [hc, List.mem_append, List.mem_singleton, List.mem_cons]
      simp only [Bool.false_eq_true, if_false, List.mem_append, List.mem_singleton]
      tauto

theorem Append_extends (new : List Diagnostic) (diags : Diagnostics) :
    ∃ added, Diagnostics.Append diags new = diags ++ added := by
  induction new generalizing diags with
  | nil => exact ⟨[], by simp [Append_nil]⟩
  | cons x rest ih =>
    rw [Append_cons]
    by_cases hc : Diagnostics.Contains diags x = true
    · simpa [hc] using ih diags
    · obtain ⟨added, h⟩ := ih (diags ++ [x])
      refine ⟨x :: added, ?_⟩
      simp only [hc, Bool.false_eq_true, if_false]
      rw [h]
      simp

theorem Append_empty_nil : Diagnostics.Append [] [] = [] := rfl

theorem HasError_Append (diags : Diagnostics) (new : List Diagnostic) :
    Diagnostics.HasError (Diagnostics.Append diags new) =
      (Diagnostics.HasError diags || Diagnostics.HasError new) := by
  rw [Bool.eq_iff_iff, Bool.or_eq_true, HasError_iff, HasError_iff, HasError_iff]
  constructor
  · rintro ⟨d, hd, he⟩
    rcases (mem_Append new diags d).1 hd with h | h
    · exact Or.inl ⟨d, h, he⟩
    · exact Or.inr ⟨d, h, he⟩
  · rintro (⟨d, hd, he⟩ | ⟨d, hd, he⟩)
    · exact ⟨d, (mem_Append new diags d).2 (Or.inl hd), he⟩
    · exact ⟨d, (mem_Append new diags d).2 (Or.inr hd), he⟩

end diag

/-! ## Lemmas on the generic set constructor -/

namespace basetypes

variable {TP Ty Val : Type}

theorem checkSetElements_subset (F : Framework TP Ty Val) (et : Ty) (L : List Val) :
    ∀ (idx : Nat) (diags : diag.Diagnostics) (d : diag.Diagnostic),
      d ∈ diags → d ∈ checkSetElements F et idx L diags := by
  induction L with
  | nil => intro idx diags d h; simpa [checkSetElements] using h
  | cons e rest ih =>
    intro idx diags d h
    unfold checkSetElements
    split
    · apply ih
      unfold diag.Diagnostics.AddError
      exact (diag.mem_Append _ _ _).2 (Or.inl h)
    · exact ih _ _ _ h

theorem checkSetElements_conform (F : Framework TP Ty Val) (et : Ty) (L : List Val)
    (h : ∀ e ∈ L, F.typeEqual et (F.typeOf e) = true) :
    ∀ (idx : Nat) (diags : diag.Diagnostics), checkSetElements F et idx L diags = diags := by
  induction L with
  | nil => intro idx diags; simp [checkSetElements]
  | cons e rest ih =>
    intro idx diags
    have he : F.typeEqual et (F.typeOf e) = true := h e (List.mem_cons_self _ _)
    have hr : ∀ x ∈ rest, F.typeEqual et (F.typeOf x) = true :=
      fun x hx => h x (List.mem_cons_of_mem _ hx)
    unfold checkSetElements
    simp [he, ih hr]

theorem checkSetElements_reports (F : Framework TP Ty Val) (et : Ty) (L : List Val) :
    ∀ (idx : Nat) (diags : diag.Diagnostics) (i : Nat) (hi : i < L.length),
      F.typeEqual et (F.typeOf (L.get ⟨i, hi⟩)) = false →
      diag.NewErrorDiagnostic "Invalid Set Element Type"
          (invalidSetElementDetail F et (idx + i) (L.get ⟨i, hi⟩))
        ∈ checkSetElements F et idx L diags := by
  induction L with
  | nil => intro idx diags i hi; exact absurd hi (Nat.not_lt_zero _)
  | cons e rest ih =>
    intro idx diags i hi hne
    cases i with
    | zero =>
      have he : F.typeEqual et (F.typeOf e) = false := hne
      unfold checkSetElements
      simp only [he, Bool.not_false, if_true]
      apply checkSetElements_subset
      unfold diag.Diagnostics.AddError
      exact (diag.mem_Append _ _ _).2 (Or.inr (by simp))
    | succ j =>
      have hj : j < rest.length := Nat.lt_of_succ_lt_succ hi
      have h := fun ds => ih (idx + 1) ds j hj hne
      have hidx : idx + 1 + j = idx + (j + 1) := by omega
      rw [hidx] at h
      unfold checkSetElements
      split
      · exact h _
      · exact h _

theorem checkSetElements_sound (F : Framework TP Ty Val) (et : Ty) (L : List Val) :
    ∀ (idx : Nat) (diags : diag.Diagnostics) (d : diag.Diagnostic),
      d ∈ checkSetElements F et idx L diags →
      d ∈ diags ∨ (d.severity = diag.Severity.error ∧
        ∃ e ∈ L, F.typeEqual et (F.typeOf e) = false) := by
  induction L with
  | nil => intro idx diags d h; exact Or.inl (by simpa [checkSetElements] using h)
  | cons e rest ih =>
    intro idx diags d h
    unfold checkSetElements at h
    split at h
    · rename_i hne
      have he : F.typeEqual et (F.typeOf e) = false := by simpa using hne
      rcases ih _ _ _ h with h1 | ⟨hs, x, hx, hxe⟩
      · unfold diag.Diagnostics.AddError at h1
        rcases (diag.mem_Append _ _ _).1 h1 with h2 | h2
        · exact Or.inl h2
        · refine Or.inr ⟨?_, e, List.mem_cons_self _ _, he⟩
          have : d = diag.NewErrorDiagnostic "Invalid Set Element Type"
              (invalidSetElementDetail F et idx e) := by simpa using h2
          rw [this]; rfl
      · exact Or.inr ⟨hs, x, List.mem_cons_of_mem _ hx, hxe⟩
    · rcases ih _ _ _ h with h1 | ⟨hs, x, hx, hxe⟩
      · exact Or.inl h1
      · exact Or.inr ⟨hs, x, List.mem_cons_of_mem _ hx, hxe⟩

theorem NewSetValue_conform (F : Framework TP Ty Val) (et : Ty) (L : List Val)
    (h : ∀ e ∈ L, F.typeEqual et (F.typeOf e) = true) :
    NewSetValue F et L =
      ({ elements := L, elementType := some et, state := attr.ValueState.known }, []) := by
  unfold NewSetValue
  simp [checkSetElements_conform F et L h, diag.Diagnostics.HasError]

theorem NewSetValue_nonconform (F : Framework TP Ty Val) (et : Ty) (L : List Val)
    (h : ∃ e ∈ L, F.typeEqual et (F.typeOf e) = false) :
    NewSetValue F et L = (NewSetUnknown et, checkSetElements F et 0 L []) ∧
      diag.Diagnostics.HasError (checkSetElements F et 0 L []) = true := by
  obtain ⟨e, he, hne⟩ := h
  obtain ⟨⟨i, hi⟩, hget⟩ := List.mem_iff_get.1 he
  have hmem := checkSetElements_reports F et L 0 [] i hi (by rw [hget]; exact hne)
  have herr : diag.Diagnostics.HasError (checkSetElements F et 0 L []) = true :=
    (diag.HasError_iff _).2 ⟨_, hmem, rfl⟩
  refine ⟨?_, herr⟩
  unfold NewSetValue
  simp [herr]

end basetypes

/-! ## Construction of set values -/

section Claims

variable {TP Ty Val : Type}

/-- C1: for every type argument `T` and every element list `L` whose elements all
conform to the element type of `T`, `NewSetValueOf[T](ctx, L)` returns a
concrete value (`IsNull() = false`, `IsUnknown() = false`) with zero
diagnostics whose `Elements()` is exactly `L`, in the same order. -/
theorem NewSetValueOf_roundtrip (σ : Type) (F : Framework TP Ty Val) (T : TP) (L : List Val)
    (h : ∀ e ∈ L, F.typeEqual (F.newAttrTypeOf T) (F.typeOf e) = true) :
    (NewSetValueOf F T L : SetValueOf Ty Val σ × diag.Diagnostics).1.SetValue.IsNull = false ∧
    (NewSetValueOf F T L : SetValueOf Ty Val σ × diag.Diagnostics).1.SetValue.IsUnknown = false ∧
    (NewSetValueOf F T L : SetValueOf Ty Val σ × diag.Diagnostics).2 = [] ∧
    (NewSetValueOf F T L : SetValueOf Ty Val σ × diag.Diagnostics).1.SetValue.Elements = L := by
  unfold NewSetValueOf
  simp only [basetypes.NewSetValue_conform F _ L h, diag.Append_empty_nil]
  simp [diag.Diagnostics.HasError, basetypes.SetValue.IsNull, basetypes.SetValue.IsUnknown,
    basetypes.SetValue.Elements]

/-- The instance of C1 named in the claim: a set of strings built from
`["a", "b"]` is concrete, has no diagnostics and returns `["a", "b"]`. -/
theorem NewSetValueOf_roundtrip_witness :
    (∀ e ∈ [basetypes.NewStringValue "a", basetypes.NewStringValue "b"],
      basetypes.baseFramework.typeEqual
        (basetypes.baseFramework.newAttrTypeOf basetypes.GoValueType.StringValue)
        (basetypes.baseFramework.typeOf e) = true) ∧
    ((NewSetValueOf basetypes.baseFramework basetypes.GoValueType.StringValue
        [basetypes.NewStringValue "a", basetypes.NewStringValue "b"] :
        SetValueOf basetypes.BaseType basetypes.BaseValue CallLog × diag.Diagnostics).1.SetValue.IsNull
        = false ∧
     (NewSetValueOf basetypes.baseFramework basetypes.GoValueType.StringValue
        [basetypes.NewStringValue "a", basetypes.NewStringValue "b"] :
        SetValueOf basetypes.BaseType basetypes.BaseValue CallLog × diag.Diagnostics).1.SetValue.IsUnknown
        = false ∧
     (NewSetValueOf basetypes.baseFramework basetypes.GoValueType.StringValue
        [basetypes.NewStringValue "a", basetypes.NewStringValue "b"] :
        SetValueOf basetypes.BaseType basetypes.BaseValue CallLog × diag.Diagnostics).2 = [] ∧
     (NewSetValueOf basetypes.baseFramework basetypes.GoValueType.StringValue
        [basetypes.NewStringValue "a", basetypes.NewStringValue "b"] :
        SetValueOf basetypes.BaseType basetypes.BaseValue CallLog × diag.Diagnostics).1.SetValue.Elements
        = [basetypes.NewStringValue "a", basetypes.NewStringValue "b"]) :=
  ⟨by decide,
   NewSetValueOf_roundtrip CallLog basetypes.baseFramework basetypes.GoValueType.StringValue
     [basetypes.NewStringValue "a", basetypes.NewStringValue "b"] (by decide)⟩

/-- C2: for every type argument `T`, `NewSetValueOfNull[T]` and
`NewSetValueOfUnknown[T]` are total and return a value only (no diagnostics);
the null value reports `IsNull() = true` and `IsUnknown() = false`, the unknown
value reports `IsUnknown() = true` and `IsNull() = false`, and both carry the
element type descriptor of `T` (and no elements and no hook). -/
theorem NewSetValueOfNull_Unknown_states (σ : Type) (F : Framework TP Ty Val) (T : TP) :
    ((NewSetValueOfNull F T : SetValueOf Ty Val σ).SetValue.IsNull = true ∧
     (NewSetValueOfNull F T : SetValueOf Ty Val σ).SetValue.IsUnknown = false ∧
     (NewSetValueOfNull F T : SetValueOf Ty Val σ).SetValue.ElementType
       = some (F.newAttrTypeOf T) ∧
     (NewSetValueOfNull F T : SetValueOf Ty Val σ).SetValue.Elements = []) ∧
    ((NewSetValueOfUnknown F T : SetValueOf Ty Val σ).SetValue.IsUnknown = true ∧
     (NewSetValueOfUnknown F T : SetValueOf Ty Val σ).SetValue.IsNull = false ∧
     (NewSetValueOfUnknown F T : SetValueOf Ty Val σ).SetValue.ElementType
       = some (F.newAttrTypeOf T) ∧
     (NewSetValueOfUnknown F T : SetValueOf Ty Val σ).SetValue.Elements = []) := by
  simp [NewSetValueOfNull, NewSetValueOfUnknown, basetypes.NewSetNull, basetypes.NewSetUnknown,
    basetypes.SetValue.IsNull, basetypes.SetValue.IsUnknown, basetypes.SetValue.ElementType,
    basetypes.SetValue.Elements]

/-! ## Equality of set values -/

/-- C3: for two `SetValueOf[T]` values `a` and `b`, `a.Equal(b)` is the result of
`Equal` on the underlying generic set values, and replacing the hook on either
side by any other hook, or by none, never changes the result. -/
theorem SetValueOf_Equal_underlying [DecidableEq TP] (σ : Type) (F : Framework TP Ty Val) (T : TP)
    (a b : SetValueOf Ty Val σ) :
    SetValueOf.Equal F T a (AttrValue.setValueOf T b) =
      basetypes.SetValue.Equal F a.SetValue
        (AttrValue.setValue b.SetValue : AttrValue TP Ty Val σ) ∧
    ∀ f g : Option (validateAttributeFunc σ Val),
      SetValueOf.Equal F T { SetValue := a.SetValue, validateAttributeFunc := f }
        (AttrValue.setValueOf T { SetValue := b.SetValue, validateAttributeFunc := g }) =
      SetValueOf.Equal F T a (AttrValue.setValueOf T b) := by
  constructor
  · simp [SetValueOf.Equal]
  · intro f g
    simp [SetValueOf.Equal]

/-! ## Attribute validation -/

/-- C5: for every set value that is null or unknown, `ValidateAttribute` does not
invoke the hook, whichever hook is configured (the ambient state is left as it
was), and leaves the response, so its diagnostics, unchanged. -/
theorem ValidateAttribute_null_or_unknown (σ : Type) (v : SetValueOf Ty Val σ)
    (req : xattr.ValidateAttributeRequest) (resp : xattr.ValidateAttributeResponse) (s : σ)
    (h : v.SetValue.IsNull = true ∨ v.SetValue.IsUnknown = true) :
    SetValueOf.ValidateAttribute v req resp s = (resp, s) := by
  unfold SetValueOf.ValidateAttribute
  rcases h with h | h <;> simp [h]

/-- The instance of C5 named in the claim: the always-failing hook on a null set
of strings yields no diagnostics and is not called (the call log stays
empty). -/
theorem ValidateAttribute_null_or_unknown_witness :
    (({ SetValue := basetypes.NewSetNull basetypes.BaseType.StringType,
        validateAttributeFunc := some alwaysFailingHook } :
        SetValueOf basetypes.BaseType basetypes.BaseValue CallLog).SetValue.IsNull = true ∨
     ({ SetValue := basetypes.NewSetNull basetypes.BaseType.StringType,
        validateAttributeFunc := some alwaysFailingHook } :
        SetValueOf basetypes.BaseType basetypes.BaseValue CallLog).SetValue.IsUnknown = true) ∧
    SetValueOf.ValidateAttribute
      ({ SetValue := basetypes.NewSetNull basetypes.BaseType.StringType,
         validateAttributeFunc := some alwaysFailingHook } :
        SetValueOf basetypes.BaseType basetypes.BaseValue CallLog)
      { Path := { steps := ["names"] } } { Diagnostics := [] } [] =
      ({ Diagnostics := [] }, []) :=
  ⟨Or.inl (by decide),
   ValidateAttribute_null_or_unknown CallLog _ { Path := { steps := ["names"] } }
     { Diagnostics := [] } [] (Or.inl (by decide))⟩

/-- C6: for every set value that is non-null and non-unknown and carries a hook
`f`, `ValidateAttribute` invokes `f` exactly once, with the request path and
the full element list of the value (the state after the call is the state `f`
produces from the state before it), and the response diagnostics become
`resp.Diagnostics.Append` of the diagnostics `f` returned: the existing
diagnostics are kept in front, and a diagnostic is in the response afterwards
exactly when it was there before or `f` returned it. -/
theorem ValidateAttribute_invokes_hook (σ : Type) (v : SetValueOf Ty Val σ)
    (f : validateAttributeFunc σ Val)
    (req : xattr.ValidateAttributeRequest) (resp : xattr.ValidateAttributeResponse) (s : σ)
    (hnull : v.SetValue.IsNull = false) (hunknown : v.SetValue.IsUnknown = false)
    (hf : v.validateAttributeFunc = some f) :
    SetValueOf.ValidateAttribute v req resp s =
      ({ Diagnostics :=
           diag.Diagnostics.Append resp.Diagnostics (f req.Path v.SetValue.Elements s).1 },
       (f req.Path v.SetValue.Elements s).2) ∧
    (∃ added, (SetValueOf.ValidateAttribute v req resp s).1.Diagnostics =
      resp.Diagnostics ++ added) ∧
    (∀ d, d ∈ (SetValueOf.ValidateAttribute v req resp s).1.Diagnostics ↔
      d ∈ resp.Diagnostics ∨ d ∈ (f req.Path v.SetValue.Elements s).1) := by
  have heq : SetValueOf.ValidateAttribute v req resp s =
      ({ Diagnostics :=
           diag.Diagnostics.Append resp.Diagnostics (f req.Path v.SetValue.Elements s).1 },
       (f req.Path v.SetValue.Elements s).2) := by
    unfold SetValueOf.ValidateAttribute
    simp [hnull, hunknown, hf]
  refine ⟨heq, ?_, ?_⟩
  · rw [heq]
    exact diag.Append_extends _ _
  · intro d
    rw [heq]
    exact diag.mem_Append _ _ d

/-- An instance of C6: the always-failing hook on the concrete set of strings
`["a", "b"]`, with one warning already in the response, is called once with the
path and `["a", "b"]`, and its error is added behind the warning. -/
theorem ValidateAttribute_invokes_hook_witness :
    (({ SetValue := (basetypes.NewSetValue basetypes.baseFramework
          basetypes.BaseType.StringType
          [basetypes.NewStringValue "a", basetypes.NewStringValue "b"]).1,
        validateAttributeFunc := some alwaysFailingHook } :
        SetValueOf basetypes.BaseType basetypes.BaseValue CallLog).SetValue.IsNull = false ∧
     ({ SetValue := (basetypes.NewSetValue basetypes.baseFramework
          basetypes.BaseType.StringType
          [basetypes.NewStringValue "a", basetypes.NewStringValue "b"]).1,
        validateAttributeFunc := some alwaysFailingHook } :
        SetValueOf basetypes.BaseType basetypes.BaseValue CallLog).SetValue.IsUnknown = false) ∧
    SetValueOf.ValidateAttribute
      ({ SetValue := (basetypes.NewSetValue basetypes.baseFramework
           basetypes.BaseType.StringType
           [basetypes.NewStringValue "a", basetypes.NewStringValue "b"]).1,
         validateAttributeFunc := some alwaysFailingHook } :
        SetValueOf basetypes.BaseType basetypes.BaseValue CallLog)
      { Path := { steps := ["names"] } }
      { Diagnostics := [{ severity := diag.Severity.warning, summary := "Deprecated",
                          detail := "", path := none }] } [] =
      ({ Diagnostics := [{ severity := diag.Severity.warning, summary := "Deprecated",
                           detail := "", path := none },
                         { severity := diag.Severity.error, summary := "Invalid value",
                           detail := "always rejected",
                           path := some { steps := ["names"] } }] },
       [({ steps := ["names"] },
         [basetypes.NewStringValue "a", basetypes.NewStringValue "b"])]) :=
  ⟨⟨by decide, by decide⟩,
   (ValidateAttribute_invokes_hook CallLog _ alwaysFailingHook
     { Path := { steps := ["names"] } }
     { Diagnostics := [{ severity := diag.Severity.warning, summary := "Deprecated",
                         detail := "", path := none }] } []
     (by decide) (by decide) rfl).1.trans (by decide)⟩

/-! ## Elements that do not conform, and conversion from the generic set -/

theorem NewSetValueOf_of_conform (σ : Type) (F : Framework TP Ty Val) (T : TP) (L : List Val)
    (h : ∀ e ∈ L, F.typeEqual (F.newAttrTypeOf T) (F.typeOf e) = true) :
    (NewSetValueOf F T L : SetValueOf Ty Val σ × diag.Diagnostics) =
      ({ SetValue := { elements := L, elementType := some (F.newAttrTypeOf T),
                       state := attr.ValueState.known },
         validateAttributeFunc := none }, []) := by
  unfold NewSetValueOf
  simp only [basetypes.NewSetValue_conform F _ L h, diag.Append_empty_nil]
  simp [diag.Diagnostics.HasError]

theorem NewSetValueOf_of_nonconform (σ : Type) (F : Framework TP Ty Val) (T : TP)
    (L : List Val) (h : ∃ e ∈ L, F.typeEqual (F.newAttrTypeOf T) (F.typeOf e) = false) :
    (NewSetValueOf F T L : SetValueOf Ty Val σ × diag.Diagnostics) =
      (NewSetValueOfUnknown F T,
       diag.Diagnostics.Append []
         (basetypes.checkSetElements F (F.newAttrTypeOf T) 0 L [])) ∧
    diag.Diagnostics.HasError (diag.Diagnostics.Append []
      (basetypes.checkSetElements F (F.newAttrTypeOf T) 0 L [])) = true := by
  obtain ⟨hv, herr⟩ := basetypes.NewSetValue_nonconform F (F.newAttrTypeOf T) L h
  have herr' : diag.Diagnostics.HasError (diag.Diagnostics.Append []
      (basetypes.checkSetElements F (F.newAttrTypeOf T) 0 L [])) = true := by
    rw [diag.HasError_Append, herr, Bool.or_true]
  refine ⟨?_, herr'⟩
  unfold NewSetValueOf
  simp only [hv, herr', if_true]

theorem conform_or_not (F : Framework TP Ty Val) (et : Ty) (L : List Val) :
    (∀ e ∈ L, F.typeEqual et (F.typeOf e) = true) ∨
    (∃ e ∈ L, F.typeEqual et (F.typeOf e) = false) := by
  by_cases h : ∀ e ∈ L, F.typeEqual et (F.typeOf e) = true
  · exact Or.inl h
  · right
    push_neg at h
    obtain ⟨e, he, hne⟩ := h
    exact ⟨e, he, by simpa using hne⟩

/-- C9: for every element list in which at least one element does not conform to
the element type of `T`, `NewSetValueOf[T]` returns the unknown value
(`IsUnknown() = true`) together with diagnostics that contain at least one
error; and for every element list, it returns a concrete value only when the
diagnostics hold no error (they are then empty). -/
theorem NewSetValueOf_nonconforming (σ : Type) (F : Framework TP Ty Val) (T : TP)
    (L : List Val) (h : ∃ e ∈ L, F.typeEqual (F.newAttrTypeOf T) (F.typeOf e) = false) :
    ((NewSetValueOf F T L : SetValueOf Ty Val σ × diag.Diagnostics).1 = NewSetValueOfUnknown F T ∧
     (NewSetValueOf F T L : SetValueOf Ty Val σ × diag.Diagnostics).1.SetValue.IsUnknown = true ∧
     diag.Diagnostics.HasError
       (NewSetValueOf F T L : SetValueOf Ty Val σ × diag.Diagnostics).2 = true ∧
     ∃ d ∈ (NewSetValueOf F T L : SetValueOf Ty Val σ × diag.Diagnostics).2,
       d.severity = diag.Severity.error) ∧
    (∀ L' : List Val,
      (NewSetValueOf F T L' : SetValueOf Ty Val σ × diag.Diagnostics).1.SetValue.state
        = attr.ValueState.known →
      diag.Diagnostics.HasError
        (NewSetValueOf F T L' : SetValueOf Ty Val σ × diag.Diagnostics).2 = false ∧
      (NewSetValueOf F T L' : SetValueOf Ty Val σ × diag.Diagnostics).2 = []) := by
  constructor
  · obtain ⟨hv, herr⟩ := NewSetValueOf_of_nonconform σ F T L h
    rw [hv]
    exact ⟨rfl, rfl, herr, (diag.HasError_iff _).1 herr⟩
  · intro L' hk
    rcases conform_or_not F (F.newAttrTypeOf T) L' with hc | hn
    · rw [NewSetValueOf_of_conform σ F T L' hc]
      exact ⟨rfl, rfl⟩
    · rw [(NewSetValueOf_of_nonconform σ F T L' hn).1] at hk
      exact absurd hk (by simp [NewSetValueOfUnknown, basetypes.NewSetUnknown])

/-- An instance of C9: a set of strings built from `["a", true]` is the unknown
value and comes with an error diagnostic. -/
theorem NewSetValueOf_nonconforming_witness :
    (∃ e ∈ [basetypes.NewStringValue "a", basetypes.NewBoolValue true],
      basetypes.baseFramework.typeEqual
        (basetypes.baseFramework.newAttrTypeOf basetypes.GoValueType.StringValue)
        (basetypes.baseFramework.typeOf e) = false) ∧
    (NewSetValueOf basetypes.baseFramework basetypes.GoValueType.StringValue
        [basetypes.NewStringValue "a", basetypes.NewBoolValue true] :
        SetValueOf basetypes.BaseType basetypes.BaseValue CallLog × diag.Diagnostics).1.SetValue.IsUnknown
      = true ∧
    diag.Diagnostics.HasError
      (NewSetValueOf basetypes.baseFramework basetypes.GoValueType.StringValue
        [basetypes.NewStringValue "a", basetypes.NewBoolValue true] :
        SetValueOf basetypes.BaseType basetypes.BaseValue CallLog × diag.Diagnostics).2 = true :=
  ⟨by decide,
   (NewSetValueOf_nonconforming CallLog basetypes.baseFramework
     basetypes.GoValueType.StringValue
     [basetypes.NewStringValue "a", basetypes.NewBoolValue true] (by decide)).1.2.1,
   (NewSetValueOf_nonconforming CallLog basetypes.baseFramework
     basetypes.GoValueType.StringValue
     [basetypes.NewStringValue "a", basetypes.NewBoolValue true] (by decide)).1.2.2.1⟩

/-- C10: `setTypeOf[T].ValueFromSet` propagates null and unknown: for every null
generic set value it returns the null `SetValueOf[T]` with no diagnostics, and
for every unknown generic set value the unknown `SetValueOf[T]` with no
diagnostics, whatever element type and elements the input declares and
whatever hook the descriptor carries. -/
theorem ValueFromSet_null_unknown (σ : Type) (F : Framework TP Ty Val) (T : TP)
    (t : setTypeOf Ty Val σ) (inp : basetypes.SetValue Ty Val)
    (h : inp.IsNull = true ∨ inp.IsUnknown = true) :
    (setTypeOf.ValueFromSet F T t inp).2 = [] ∧
    (inp.IsNull = true →
      (setTypeOf.ValueFromSet F T t inp).1 = NewSetValueOfNull F T ∧
      (setTypeOf.ValueFromSet F T t inp).1.SetValue.IsNull = true ∧
      (setTypeOf.ValueFromSet F T t inp).1.SetValue.IsUnknown = false) ∧
    (inp.IsUnknown = true →
      (setTypeOf.ValueFromSet F T t inp).1 = NewSetValueOfUnknown F T ∧
      (setTypeOf.ValueFromSet F T t inp).1.SetValue.IsUnknown = true ∧
      (setTypeOf.ValueFromSet F T t inp).1.SetValue.IsNull = false) := by
  have hnull : inp.IsNull = true →
      setTypeOf.ValueFromSet F T t inp = (NewSetValueOfNull F T, []) := by
    intro hn
    unfold setTypeOf.ValueFromSet
    simp [hn]
  have hunk : inp.IsUnknown = true →
      setTypeOf.ValueFromSet F T t inp = (NewSetValueOfUnknown F T, []) := by
    intro hu
    have hn : inp.IsNull = false := by
      unfold basetypes.SetValue.IsUnknown at hu
      unfold basetypes.SetValue.IsNull
      have : inp.state = attr.ValueState.unknown := of_decide_eq_true hu
      simp [this]
    unfold setTypeOf.ValueFromSet
    simp [hn, hu]
  refine ⟨?_, ?_, ?_⟩
  · rcases h with h | h
    · rw [hnull h]
    · rw [hunk h]
  · intro hn
    rw [hnull hn]
    exact ⟨rfl, rfl, rfl⟩
  · intro hu
    rw [hunk hu]
    exact ⟨rfl, rfl, rfl⟩

/-- An instance of C10: a null set of booleans converted by the set-of-strings
descriptor that carries a hook is the null set of strings, without
diagnostics. -/
theorem ValueFromSet_null_unknown_witness :
    ((basetypes.NewSetNull basetypes.BaseType.BoolType :
        basetypes.SetValue basetypes.BaseType basetypes.BaseValue).IsNull = true ∨
     (basetypes.NewSetNull basetypes.BaseType.BoolType :
        basetypes.SetValue basetypes.BaseType basetypes.BaseValue).IsUnknown = true) ∧
    (setTypeOf.ValueFromSet basetypes.baseFramework basetypes.GoValueType.StringValue
      setOfStringRejectX (basetypes.NewSetNull basetypes.BaseType.BoolType)).2 = [] :=
  ⟨Or.inl (by decide),
   (ValueFromSet_null_unknown CallLog basetypes.baseFramework
     basetypes.GoValueType.StringValue setOfStringRejectX
     (basetypes.NewSetNull basetypes.BaseType.BoolType) (Or.inl (by decide))).1⟩

theorem known_of_not_null_unknown (inp : basetypes.SetValue Ty Val)
    (hk : inp.state = attr.ValueState.known) :
    inp.IsNull = false ∧ inp.IsUnknown = false := by
  simp [basetypes.SetValue.IsNull, basetypes.SetValue.IsUnknown, hk]

theorem ValueFromSet_of_conform (σ : Type) (F : Framework TP Ty Val) (T : TP)
    (t : setTypeOf Ty Val σ) (inp : basetypes.SetValue Ty Val)
    (hk : inp.state = attr.ValueState.known)
    (h : ∀ e ∈ inp.elements, F.typeEqual (F.newAttrTypeOf T) (F.typeOf e) = true) :
    setTypeOf.ValueFromSet F T t inp =
      ({ SetValue := { elements := inp.elements, elementType := some (F.newAttrTypeOf T),
                       state := attr.ValueState.known },
         validateAttributeFunc := t.validateAttributeFunc }, []) := by
  obtain ⟨hn, hu⟩ := known_of_not_null_unknown inp hk
  unfold setTypeOf.ValueFromSet
  simp only [hn, hu, basetypes.SetValue.Elements, basetypes.NewSetValue_conform F _ _ h,
    diag.Append_empty_nil]
  simp [diag.Diagnostics.HasError]

theorem ValueFromSet_of_nonconform (σ : Type) (F : Framework TP Ty Val) (T : TP)
    (t : setTypeOf Ty Val σ) (inp : basetypes.SetValue Ty Val)
    (hk : inp.state = attr.ValueState.known)
    (h : ∃ e ∈ inp.elements, F.typeEqual (F.newAttrTypeOf T) (F.typeOf e) = false) :
    setTypeOf.ValueFromSet F T t inp =
      (NewSetValueOfUnknown F T,
       diag.Diagnostics.Append []
         (basetypes.checkSetElements F (F.newAttrTypeOf T) 0 inp.elements [])) ∧
    diag.Diagnostics.HasError (diag.Diagnostics.Append []
      (basetypes.checkSetElements F (F.newAttrTypeOf T) 0 inp.elements [])) = true := by
  obtain ⟨hn, hu⟩ := known_of_not_null_unknown inp hk
  obtain ⟨hv, herr⟩ := basetypes.NewSetValue_nonconform F (F.newAttrTypeOf T) inp.elements h
  have herr' : diag.Diagnostics.HasError (diag.Diagnostics.Append []
      (basetypes.checkSetElements F (F.newAttrTypeOf T) 0 inp.elements [])) = true := by
    rw [diag.HasError_Append, herr, Bool.or_true]
  refine ⟨?_, herr'⟩
  unfold setTypeOf.ValueFromSet
  simp only [hn, hu, basetypes.SetValue.Elements, hv, herr', if_true]
  simp

/-- C7, as the code has it: the hook of a descriptor plays no part in
construction. For every descriptor with a hook `f` (one that rejects "x"
included) and every list `L` of elements that conform to the element type of
`T`, whether or not `L` contains "x", `NewSetValueOf` and the descriptor's
`ValueFromSet` return the concrete value holding `L` with zero diagnostics; the
value from `ValueFromSet` carries `f`, the one from `NewSetValueOf` carries
no hook; and the diagnostics of `f` for `L` are reported when
`ValidateAttribute` is run on the value from `ValueFromSet`. -/
theorem construction_does_not_run_hook (σ : Type) (F : Framework TP Ty Val) (T : TP)
    (t : setTypeOf Ty Val σ) (f : validateAttributeFunc σ Val)
    (hf : t.validateAttributeFunc = some f) (L : List Val) (declared : Option Ty)
    (hL : ∀ e ∈ L, F.typeEqual (F.newAttrTypeOf T) (F.typeOf e) = true) :
    (NewSetValueOf F T L : SetValueOf Ty Val σ × diag.Diagnostics) =
      ({ SetValue := { elements := L, elementType := some (F.newAttrTypeOf T),
                       state := attr.ValueState.known },
         validateAttributeFunc := none }, []) ∧
    setTypeOf.ValueFromSet F T t
        { elements := L, elementType := declared, state := attr.ValueState.known } =
      ({ SetValue := { elements := L, elementType := some (F.newAttrTypeOf T),
                       state := attr.ValueState.known },
         validateAttributeFunc := some f }, []) ∧
    ∀ (req : xattr.ValidateAttributeRequest) (resp : xattr.ValidateAttributeResponse) (s : σ),
      SetValueOf.ValidateAttribute
        (setTypeOf.ValueFromSet F T t
          { elements := L, elementType := declared, state := attr.ValueState.known }).1
        req resp s =
      ({ Diagnostics := diag.Diagnostics.Append resp.Diagnostics (f req.Path L s).1 },
       (f req.Path L s).2) := by
  have hv := ValueFromSet_of_conform σ F T t
    { elements := L, elementType := declared, state := attr.ValueState.known } rfl hL
  simp only [hf] at hv
  refine ⟨NewSetValueOf_of_conform σ F T L hL, hv, ?_⟩
  intro req resp s
  rw [hv]
  simp [SetValueOf.ValidateAttribute, basetypes.SetValue.IsNull, basetypes.SetValue.IsUnknown,
    basetypes.SetValue.Elements]

/-- An instance of the amended C7: with the hook that rejects "x", the list
`["x"]` converts to a concrete value without diagnostics, and validating that
value reports the error of the hook. -/
theorem construction_does_not_run_hook_witness :
    (setOfStringRejectX.validateAttributeFunc = some rejectXHook ∧
     ∀ e ∈ [basetypes.NewStringValue "x"],
      basetypes.baseFramework.typeEqual
        (basetypes.baseFramework.newAttrTypeOf basetypes.GoValueType.StringValue)
        (basetypes.baseFramework.typeOf e) = true) ∧
    setTypeOf.ValueFromSet basetypes.baseFramework basetypes.GoValueType.StringValue
        setOfStringRejectX
        { elements := [basetypes.NewStringValue "x"],
          elementType := some basetypes.BaseType.StringType,
          state := attr.ValueState.known } =
      ({ SetValue := { elements := [basetypes.NewStringValue "x"],
                       elementType := some basetypes.BaseType.StringType,
                       state := attr.ValueState.known },
         validateAttributeFunc := some rejectXHook }, []) :=
  ⟨⟨rfl, by decide⟩,
   (construction_does_not_run_hook CallLog basetypes.baseFramework
     basetypes.GoValueType.StringValue setOfStringRejectX rejectXHook rfl
     [basetypes.NewStringValue "x"] (some basetypes.BaseType.StringType) (by decide)).2.1⟩

/-- C7 as stated fails: the hook `rejectXHook` rejects the list `["x"]`, yet both
`NewSetValueOf` and `ValueFromSet` of the descriptor carrying that hook build a
concrete value with zero diagnostics from `["x"]`. -/
theorem hook_rejecting_x_not_applied_at_construction :
    diag.Diagnostics.HasError
      (rejectXHook { steps := ["names"] } [basetypes.NewStringValue "x"] []).1 = true ∧
    ((NewSetValueOf basetypes.baseFramework basetypes.GoValueType.StringValue
        [basetypes.NewStringValue "x"] :
        SetValueOf basetypes.BaseType basetypes.BaseValue CallLog × diag.Diagnostics).1.SetValue.IsUnknown
        = false ∧
     (NewSetValueOf basetypes.baseFramework basetypes.GoValueType.StringValue
        [basetypes.NewStringValue "x"] :
        SetValueOf basetypes.BaseType basetypes.BaseValue CallLog × diag.Diagnostics).2 = []) ∧
    ((setTypeOf.ValueFromSet basetypes.baseFramework basetypes.GoValueType.StringValue
        setOfStringRejectX
        (basetypes.NewSetValue basetypes.baseFramework basetypes.BaseType.StringType
          [basetypes.NewStringValue "x"]).1).1.SetValue.IsUnknown = false ∧
     (setTypeOf.ValueFromSet basetypes.baseFramework basetypes.GoValueType.StringValue
        setOfStringRejectX
        (basetypes.NewSetValue basetypes.baseFramework basetypes.BaseType.StringType
          [basetypes.NewStringValue "x"]).1).2 = []) := by
  decide

theorem mem_Append_nil_left (diags : diag.Diagnostics) (d : diag.Diagnostic)
    (h : d ∈ diags) : d ∈ diag.Diagnostics.Append [] diags :=
  (diag.mem_Append diags [] d).2 (Or.inr h)

/-- C8, as the code has it: `ValueFromSet` checks the elements of the input, not
the element type the input declares. Let the input be a concrete generic set
value whose elements have its declared element type, and let that declared
type not match the element type of `T` (type equality being symmetric and
transitive). If the element list is not empty, the result is the unknown value
with error diagnostics, one for each index naming the element type of `T` and
the type of the element there; if the element list is empty, the result is the
concrete empty `SetValueOf[T]` with no diagnostics. -/
theorem ValueFromSet_declared_type_mismatch (σ : Type) (F : Framework TP Ty Val) (T : TP)
    (t : setTypeOf Ty Val σ) (inp : basetypes.SetValue Ty Val) (declared : Ty)
    (hsymm : ∀ a b, F.typeEqual a b = F.typeEqual b a)
    (htrans : ∀ a b c, F.typeEqual a b = true → F.typeEqual b c = true →
      F.typeEqual a c = true)
    (hknown : inp.state = attr.ValueState.known)
    (_hdeclared : inp.elementType = some declared)
    (hwf : ∀ e ∈ inp.elements, F.typeEqual declared (F.typeOf e) = true)
    (hmismatch : F.typeEqual (F.newAttrTypeOf T) declared = false) :
    (inp.elements ≠ [] →
      (setTypeOf.ValueFromSet F T t inp).1 = NewSetValueOfUnknown F T ∧
      (setTypeOf.ValueFromSet F T t inp).1.SetValue.IsUnknown = true ∧
      diag.Diagnostics.HasError (setTypeOf.ValueFromSet F T t inp).2 = true ∧
      ∀ (i : Nat) (hi : i < inp.elements.length),
        diag.NewErrorDiagnostic "Invalid Set Element Type"
            (basetypes.invalidSetElementDetail F (F.newAttrTypeOf T) i
              (inp.elements.get ⟨i, hi⟩))
          ∈ (setTypeOf.ValueFromSet F T t inp).2) ∧
    (inp.elements = [] →
      (setTypeOf.ValueFromSet F T t inp).1.SetValue.state = attr.ValueState.known ∧
      (setTypeOf.ValueFromSet F T t inp).1.SetValue.Elements = [] ∧
      (setTypeOf.ValueFromSet F T t inp).2 = []) := by
  have hnone : ∀ e ∈ inp.elements, F.typeEqual (F.newAttrTypeOf T) (F.typeOf e) = false := by
    intro e he
    by_contra hc
    have hc' : F.typeEqual (F.newAttrTypeOf T) (F.typeOf e) = true := by simpa using hc
    have h1 : F.typeEqual (F.typeOf e) declared = true := by
      rw [hsymm]; exact hwf e he
    have h2 := htrans _ _ _ hc' h1
    rw [hmismatch] at h2
    exact Bool.false_ne_true h2
  constructor
  · intro hne
    obtain ⟨e, he⟩ := List.exists_mem_of_ne_nil _ hne
    obtain ⟨hv, herr⟩ := ValueFromSet_of_nonconform σ F T t inp hknown ⟨e, he, hnone e he⟩
    rw [hv]
    refine ⟨rfl, rfl, herr, ?_⟩
    intro i hi
    apply mem_Append_nil_left
    have h := basetypes.checkSetElements_reports F (F.newAttrTypeOf T) inp.elements 0 [] i hi
      (hnone _ (List.get_mem _ _ _))
    simpa using h
  · intro hnil
    have hc : ∀ e ∈ inp.elements, F.typeEqual (F.newAttrTypeOf T) (F.typeOf e) = true := by
      intro e he
      rw [hnil] at he
      exact absurd he (List.not_mem_nil e)
    rw [ValueFromSet_of_conform σ F T t inp hknown hc]
    exact ⟨rfl, by simp [basetypes.SetValue.Elements, hnil], rfl⟩

theorem baseFramework_typeEqual_symm (a b : basetypes.BaseType) :
    basetypes.baseFramework.typeEqual a b = basetypes.baseFramework.typeEqual b a := by
  cases a <;> cases b <;> rfl

theorem baseFramework_typeEqual_trans (a b c : basetypes.BaseType)
    (hab : basetypes.baseFramework.typeEqual a b = true)
    (hbc : basetypes.baseFramework.typeEqual b c = true) :
    basetypes.baseFramework.typeEqual a c = true := by
  cases a <;> cases b <;> cases c <;>
    first
      | rfl
      | exact absurd hab (by decide)
      | exact absurd hbc (by decide)

/-- An instance of the amended C8: the concrete set of booleans `[true]` converted
by the set-of-strings descriptor is the unknown value, with an error. -/
theorem ValueFromSet_declared_type_mismatch_witness :
    ((∀ a b, basetypes.baseFramework.typeEqual a b = basetypes.baseFramework.typeEqual b a) ∧
     (∀ a b c, basetypes.baseFramework.typeEqual a b = true →
       basetypes.baseFramework.typeEqual b c = true →
       basetypes.baseFramework.typeEqual a c = true) ∧
     (∀ e ∈ [basetypes.NewBoolValue true],
       basetypes.baseFramework.typeEqual basetypes.BaseType.BoolType
         (basetypes.baseFramework.typeOf e) = true) ∧
     basetypes.baseFramework.typeEqual
       (basetypes.baseFramework.newAttrTypeOf basetypes.GoValueType.StringValue)
       basetypes.BaseType.BoolType = false) ∧
    (setTypeOf.ValueFromSet basetypes.baseFramework basetypes.GoValueType.StringValue
        SetOfStringType
        { elements := [basetypes.NewBoolValue true],
          elementType := some basetypes.BaseType.BoolType,
          state := attr.ValueState.known }).1.SetValue.IsUnknown = true ∧
    diag.Diagnostics.HasError
      (setTypeOf.ValueFromSet basetypes.baseFramework basetypes.GoValueType.StringValue
        SetOfStringType
        { elements := [basetypes.NewBoolValue true],
          elementType := some basetypes.BaseType.BoolType,
          state := attr.ValueState.known }).2 = true :=
  ⟨⟨baseFramework_typeEqual_symm, baseFramework_typeEqual_trans, by decide, by decide⟩,
   ((ValueFromSet_declared_type_mismatch CallLog basetypes.baseFramework
      basetypes.GoValueType.StringValue SetOfStringType
      { elements := [basetypes.NewBoolValue true],
        elementType := some basetypes.BaseType.BoolType,
        state := attr.ValueState.known }
      basetypes.BaseType.BoolType baseFramework_typeEqual_symm
      baseFramework_typeEqual_trans rfl rfl (by decide) (by decide)).1 (by simp)).2.1,
   ((ValueFromSet_declared_type_mismatch CallLog basetypes.baseFramework
      basetypes.GoValueType.StringValue SetOfStringType
      { elements := [basetypes.NewBoolValue true],
        elementType := some basetypes.BaseType.BoolType,
        state := attr.ValueState.known }
      basetypes.BaseType.BoolType baseFramework_typeEqual_symm
      baseFramework_typeEqual_trans rfl rfl (by decide) (by decide)).1 (by simp)).2.2.1⟩

/-- C8 as stated fails on an empty element list: the concrete empty set of
booleans, whose declared element type does not match the element type of
strings, is converted by the set-of-strings descriptor to a concrete
`SetValueOf[T]` and no diagnostic at all is produced. -/
theorem ValueFromSet_empty_mismatch_is_silent :
    basetypes.baseFramework.typeEqual
      (basetypes.baseFramework.newAttrTypeOf basetypes.GoValueType.StringValue)
      basetypes.BaseType.BoolType = false ∧
    (basetypes.NewSetValue basetypes.baseFramework basetypes.BaseType.BoolType []).1.ElementType
      = some basetypes.BaseType.BoolType ∧
    (setTypeOf.ValueFromSet basetypes.baseFramework basetypes.GoValueType.StringValue
      SetOfStringType
      (basetypes.NewSetValue basetypes.baseFramework basetypes.BaseType.BoolType []).1)
      = ({ SetValue := { elements := [], elementType := some basetypes.BaseType.StringType,
                         state := attr.ValueState.known },
           validateAttributeFunc := none }, []) := by
  refine ⟨by decide, by decide, ?_⟩
  rfl

/-! ## Reflexivity and symmetry of equality -/

/-- Containment transfers backwards between lists of equal length: when no two
elements of `l₁` are equal and every element of `l₁` has an equal in `l₂`,
every element of `l₂` has an equal in `l₁`. -/
theorem contained_both_ways (eq : Val → Val → Bool)
    (hrefl : ∀ a, eq a a = true) (hsymm : ∀ a b, eq a b = eq b a)
    (htrans : ∀ a b c, eq a b = true → eq b c = true → eq a c = true)
    (l₁ l₂ : List Val) (hnd : l₁.Pairwise (fun x y => eq x y = false))
    (hlen : l₁.length = l₂.length)
    (hsub : ∀ x ∈ l₁, ∃ y ∈ l₂, eq y x = true) :
    ∀ y ∈ l₂, ∃ x ∈ l₁, eq x y = true := by
  let S : Setoid Val :=
    { r := fun a b => eq a b = true
      iseqv :=
        { refl := hrefl
          symm := fun {a b} h => by rw [hsymm]; exact h
          trans := fun {a b c} h₁ h₂ => htrans a b c h₁ h₂ } }
  let q : Val → Quotient S := fun a => Quotient.mk S a
  have hq : ∀ a b, q a = q b → eq a b = true := fun a b h => Quotient.exact h
  have hq' : ∀ a b, eq a b = true → q a = q b := fun a b h => Quotient.sound h
  have hnodup : (l₁.map q).Nodup := by
    unfold List.Nodup
    rw [List.pairwise_map]
    refine hnd.imp ?_
    intro a b hab hqab
    rw [hq a b hqab] at hab
    exact Bool.noConfusion hab
  have hsubset : l₁.map q ⊆ l₂.map q := by
    intro z hz
    obtain ⟨x, hx, rfl⟩ := List.mem_map.1 hz
    obtain ⟨y, hy, hyx⟩ := hsub x hx
    exact List.mem_map.2 ⟨y, hy, hq' y x hyx⟩
  have hperm : (l₁.map q).Perm (l₂.map q) :=
    (List.subperm_of_subset hnodup hsubset).perm_of_length_le (by simp [hlen])
  intro y hy
  have hy' : q y ∈ l₁.map q := hperm.mem_iff.2 (List.mem_map.2 ⟨y, hy, rfl⟩)
  obtain ⟨x, hx, hxy⟩ := List.mem_map.1 hy'
  exact ⟨x, hx, hq x y hxy⟩

theorem all_contains_iff (F : Framework TP Ty Val) (l : List Val)
    (other : basetypes.SetValue Ty Val) :
    l.all (fun elem => basetypes.SetValue.contains F other elem) = true ↔
      ∀ x ∈ l, ∃ y ∈ other.elements, F.valEqual y x = true := by
  simp [List.all_eq_true, basetypes.SetValue.contains, basetypes.SetValue.Elements,
    List.any_eq_true]

/-- One direction of the symmetry of the generic `Equal`, for a receiver without
equal elements. -/
theorem SetValue_Equal_swap (σ : Type) (F : Framework TP Ty Val)
    (htsymm : ∀ a b, F.typeEqual a b = F.typeEqual b a)
    (hvrefl : ∀ a, F.valEqual a a = true)
    (hvsymm : ∀ a b, F.valEqual a b = F.valEqual b a)
    (hvtrans : ∀ a b c, F.valEqual a b = true → F.valEqual b c = true →
      F.valEqual a c = true)
    (s o : basetypes.SetValue Ty Val)
    (hnd : s.elements.Pairwise (fun x y => F.valEqual x y = false))
    (h : basetypes.SetValue.Equal F s (AttrValue.setValue o : AttrValue TP Ty Val σ) = true) :
    basetypes.SetValue.Equal F o (AttrValue.setValue s : AttrValue TP Ty Val σ) = true := by
  unfold basetypes.SetValue.Equal at h ⊢
  cases hs : s.elementType with
  | none => simp [hs] at h
  | some st =>
    cases ho : o.elementType with
    | none => simp [hs, ho] at h
    | some ot =>
      simp only [hs, ho] at h ⊢
      by_cases ht : F.typeEqual st ot = true
      · have ht' : F.typeEqual ot st = true := by rw [htsymm]; exact ht
        by_cases hst : s.state = o.state
        · by_cases hk : s.state = attr.ValueState.known
          · have hk' : o.state = attr.ValueState.known := hst ▸ hk
            by_cases hlen : s.elements.length = o.elements.length
            · simp only [ht, ht', hst, hk', hlen, Bool.not_true, Bool.false_eq_true,
                if_false, ne_eq, not_true_eq_false] at h ⊢
              rw [all_contains_iff] at h ⊢
              intro y hy
              obtain ⟨x, hx, hxy⟩ :=
                contained_both_ways F.valEqual hvrefl hvsymm hvtrans s.elements o.elements
                  hnd hlen h y hy
              exact ⟨x, hx, hxy⟩
            · simp [ht, hst, hk', hlen] at h
          · have hk' : ¬ o.state = attr.ValueState.known := hst ▸ hk
            simp [ht', hst, hk']
        · simp [ht, hst] at h
      · simp [ht] at h

theorem SetValue_Equal_comm (σ : Type) (F : Framework TP Ty Val)
    (htsymm : ∀ a b, F.typeEqual a b = F.typeEqual b a)
    (hvrefl : ∀ a, F.valEqual a a = true)
    (hvsymm : ∀ a b, F.valEqual a b = F.valEqual b a)
    (hvtrans : ∀ a b c, F.valEqual a b = true → F.valEqual b c = true →
      F.valEqual a c = true)
    (s o : basetypes.SetValue Ty Val)
    (hs : s.elements.Pairwise (fun x y => F.valEqual x y = false))
    (ho : o.elements.Pairwise (fun x y => F.valEqual x y = false)) :
    basetypes.SetValue.Equal F s (AttrValue.setValue o : AttrValue TP Ty Val σ) =
      basetypes.SetValue.Equal F o (AttrValue.setValue s : AttrValue TP Ty Val σ) := by
  rw [Bool.eq_iff_iff]
  exact ⟨SetValue_Equal_swap σ F htsymm hvrefl hvsymm hvtrans s o hs,
    SetValue_Equal_swap σ F htsymm hvrefl hvsymm hvtrans o s ho⟩

theorem SetValue_Equal_self (σ : Type) (F : Framework TP Ty Val)
    (htrefl : ∀ a, F.typeEqual a a = true) (hvrefl : ∀ a, F.valEqual a a = true)
    (s : basetypes.SetValue Ty Val) (et : Ty) (het : s.elementType = some et) :
    basetypes.SetValue.Equal F s (AttrValue.setValue s : AttrValue TP Ty Val σ) = true := by
  unfold basetypes.SetValue.Equal
  simp only [het, htrefl et, Bool.not_true, Bool.false_eq_true, if_false, ne_eq,
    not_true_eq_false]
  by_cases hk : s.state = attr.ValueState.known
  · simp only [hk, not_true_eq_false, if_false]
    rw [all_contains_iff]
    exact fun x hx => ⟨x, hx, hvrefl x⟩
  · simp [hk]

/-- C4, as the code has it, for type and element equalities that are themselves
reflexive and symmetric (element equality also transitive): `SetValueOf.Equal`
is reflexive on every value whose element type descriptor is set, as it is in
every value the constructors return; `a.Equal(b)` and `b.Equal(a)` are both
false for every `b` that is not a `SetValueOf[T]` (a plain generic `SetValue`,
a `SetValueOf` of another type argument, another value type); and
`a.Equal(b) = b.Equal(a)` for every two `SetValueOf[T]` values whose element
lists hold no two equal elements. -/
theorem SetValueOf_Equal_refl_symm [DecidableEq TP] (σ : Type) (F : Framework TP Ty Val)
    (T : TP)
    (htrefl : ∀ a, F.typeEqual a a = true)
    (htsymm : ∀ a b, F.typeEqual a b = F.typeEqual b a)
    (hvrefl : ∀ a, F.valEqual a a = true)
    (hvsymm : ∀ a b, F.valEqual a b = F.valEqual b a)
    (hvtrans : ∀ a b c, F.valEqual a b = true → F.valEqual b c = true →
      F.valEqual a c = true) :
    (∀ (v : SetValueOf Ty Val σ) (et : Ty), v.SetValue.elementType = some et →
      SetValueOf.Equal F T v (AttrValue.setValueOf T v) = true) ∧
    (∀ (a : SetValueOf Ty Val σ) (b : AttrValue TP Ty Val σ),
      (∀ x, b ≠ AttrValue.setValueOf T x) →
      SetValueOf.Equal F T a b = false ∧
      AttrValue.Equal F b (AttrValue.setValueOf T a) = false) ∧
    (∀ a b : SetValueOf Ty Val σ,
      a.SetValue.elements.Pairwise (fun x y => F.valEqual x y = false) →
      b.SetValue.elements.Pairwise (fun x y => F.valEqual x y = false) →
      SetValueOf.Equal F T a (AttrValue.setValueOf T b) =
        SetValueOf.Equal F T b (AttrValue.setValueOf T a)) := by
  refine ⟨?_, ?_, ?_⟩
  · intro v et het
    simp only [SetValueOf.Equal, if_true]
    exact SetValue_Equal_self σ F htrefl hvrefl v.SetValue et het
  · intro a b hb
    cases b with
    | setValueOf T' x =>
      have hT : T' ≠ T := by
        intro h
        exact hb x (by rw [h])
      have hT' : T ≠ T' := fun h => hT h.symm
      simp [SetValueOf.Equal, AttrValue.Equal, hT, hT']
    | setValue s => simp [SetValueOf.Equal, AttrValue.Equal, basetypes.SetValue.Equal]
    | other e => simp [SetValueOf.Equal, AttrValue.Equal]
  · intro a b ha hb
    simp only [SetValueOf.Equal, if_true]
    exact SetValue_Equal_comm σ F htsymm hvrefl hvsymm hvtrans a.SetValue b.SetValue ha hb

theorem baseFramework_typeEqual_refl (a : basetypes.BaseType) :
    basetypes.baseFramework.typeEqual a a = true := by
  cases a <;> rfl

theorem BaseValue_Equal_refl (a : basetypes.BaseValue) :
    basetypes.baseFramework.valEqual a a = true := by
  cases a <;> simp [basetypes.baseFramework, basetypes.BaseValue.Equal]

theorem BaseValue_Equal_symm (a b : basetypes.BaseValue) :
    basetypes.baseFramework.valEqual a b = basetypes.baseFramework.valEqual b a := by
  cases a with
  | StringValue s v =>
    cases b with
    | StringValue s' w =>
      by_cases hs : s = s'
      · subst hs
        simp [basetypes.baseFramework, basetypes.BaseValue.Equal, eq_comm]
      · have hs' : ¬ s' = s := fun h => hs h.symm
        simp [basetypes.baseFramework, basetypes.BaseValue.Equal, hs, hs']
    | BoolValue s' w => simp [basetypes.baseFramework, basetypes.BaseValue.Equal]
  | BoolValue s v =>
    cases b with
    | StringValue s' w => simp [basetypes.baseFramework, basetypes.BaseValue.Equal]
    | BoolValue s' w =>
      by_cases hs : s = s'
      · subst hs
        simp [basetypes.baseFramework, basetypes.BaseValue.Equal, eq_comm]
      · have hs' : ¬ s' = s := fun h => hs h.symm
        simp [basetypes.baseFramework, basetypes.BaseValue.Equal, hs, hs']

theorem BaseValue_Equal_trans (a b c : basetypes.BaseValue)
    (hab : basetypes.baseFramework.valEqual a b = true)
    (hbc : basetypes.baseFramework.valEqual b c = true) :
    basetypes.baseFramework.valEqual a c = true := by
  cases a with
  | StringValue s v =>
    cases b with
    | StringValue s' w =>
      cases c with
      | StringValue s'' u =>
        simp only [basetypes.baseFramework, basetypes.BaseValue.Equal] at hab hbc ⊢
        by_cases h1 : s = s'
        · by_cases h2 : s' = s''
          · subst h1; subst h2
            by_cases hk : s = attr.ValueState.known
            · simp [hk] at hab hbc ⊢
              exact hab.trans hbc
            · simp [hk]
          · simp [h2] at hbc
        · simp [h1] at hab
      | BoolValue s'' u => simp [basetypes.baseFramework, basetypes.BaseValue.Equal] at hbc
    | BoolValue s' w => simp [basetypes.baseFramework, basetypes.BaseValue.Equal] at hab
  | BoolValue s v =>
    cases b with
    | StringValue s' w => simp [basetypes.baseFramework, basetypes.BaseValue.Equal] at hab
    | BoolValue s' w =>
      cases c with
      | StringValue s'' u => simp [basetypes.baseFramework, basetypes.BaseValue.Equal] at hbc
      | BoolValue s'' u =>
        simp only [basetypes.baseFramework, basetypes.BaseValue.Equal] at hab hbc ⊢
        by_cases h1 : s = s'
        · by_cases h2 : s' = s''
          · subst h1; subst h2
            by_cases hk : s = attr.ValueState.known
            · simp [hk] at hab hbc ⊢
              exact hab.trans hbc
            · simp [hk]
          · simp [h2] at hbc
        · simp [h1] at hab

/-- An instance of the amended C4: over the base types, the sets of strings
`["a", "b"]` and `["b", "a"]` compare the same in both directions. -/
theorem SetValueOf_Equal_refl_symm_witness :
    ((∀ a, basetypes.baseFramework.typeEqual a a = true) ∧
     (∀ a b, basetypes.baseFramework.typeEqual a b = basetypes.baseFramework.typeEqual b a) ∧
     (∀ a, basetypes.baseFramework.valEqual a a = true) ∧
     (∀ a b, basetypes.baseFramework.valEqual a b = basetypes.baseFramework.valEqual b a) ∧
     (∀ a b c, basetypes.baseFramework.valEqual a b = true →
       basetypes.baseFramework.valEqual b c = true →
       basetypes.baseFramework.valEqual a c = true)) ∧
    SetValueOf.Equal basetypes.baseFramework basetypes.GoValueType.StringValue
      (NewSetValueOf basetypes.baseFramework basetypes.GoValueType.StringValue
        [basetypes.NewStringValue "a", basetypes.NewStringValue "b"] :
        SetValueOf basetypes.BaseType basetypes.BaseValue CallLog × diag.Diagnostics).1
      (AttrValue.setValueOf basetypes.GoValueType.StringValue
        (NewSetValueOf basetypes.baseFramework basetypes.GoValueType.StringValue
          [basetypes.NewStringValue "b", basetypes.NewStringValue "a"]).1) =
    SetValueOf.Equal basetypes.baseFramework basetypes.GoValueType.StringValue
      (NewSetValueOf basetypes.baseFramework basetypes.GoValueType.StringValue
        [basetypes.NewStringValue "b", basetypes.NewStringValue "a"] :
        SetValueOf basetypes.BaseType basetypes.BaseValue CallLog × diag.Diagnostics).1
      (AttrValue.setValueOf basetypes.GoValueType.StringValue
        (NewSetValueOf basetypes.baseFramework basetypes.GoValueType.StringValue
          [basetypes.NewStringValue "a", basetypes.NewStringValue "b"]).1) :=
  ⟨⟨baseFramework_typeEqual_refl, baseFramework_typeEqual_symm, BaseValue_Equal_refl,
    BaseValue_Equal_symm, BaseValue_Equal_trans⟩,
   (SetValueOf_Equal_refl_symm CallLog basetypes.baseFramework
     basetypes.GoValueType.StringValue baseFramework_typeEqual_refl
     baseFramework_typeEqual_symm BaseValue_Equal_refl BaseValue_Equal_symm
     BaseValue_Equal_trans).2.2 _ _ (by decide) (by decide)⟩

/-- C4 as stated fails. Symmetry: the sets of strings built by `NewSetValueOf`
from `["a", "a"]` and from `["a", "b"]` satisfy `a.Equal(b) = true` and
`b.Equal(a) = false`, since the generic `Equal` compares lengths and looks each
element of the receiver up in the other value. Reflexivity: the zero value of
`SetValueOf[T]`, which `ValueType` returns, has no element type and is not
equal to itself. -/
theorem SetValueOf_Equal_not_symmetric_not_reflexive :
    (SetValueOf.Equal basetypes.baseFramework basetypes.GoValueType.StringValue
      (NewSetValueOf basetypes.baseFramework basetypes.GoValueType.StringValue
        [basetypes.NewStringValue "a", basetypes.NewStringValue "a"] :
        SetValueOf basetypes.BaseType basetypes.BaseValue CallLog × diag.Diagnostics).1
      (AttrValue.setValueOf basetypes.GoValueType.StringValue
        (NewSetValueOf basetypes.baseFramework basetypes.GoValueType.StringValue
          [basetypes.NewStringValue "a", basetypes.NewStringValue "b"]).1) = true ∧
     SetValueOf.Equal basetypes.baseFramework basetypes.GoValueType.StringValue
      (NewSetValueOf basetypes.baseFramework basetypes.GoValueType.StringValue
        [basetypes.NewStringValue "a", basetypes.NewStringValue "b"] :
        SetValueOf basetypes.BaseType basetypes.BaseValue CallLog × diag.Diagnostics).1
      (AttrValue.setValueOf basetypes.GoValueType.StringValue
        (NewSetValueOf basetypes.baseFramework basetypes.GoValueType.StringValue
          [basetypes.NewStringValue "a", basetypes.NewStringValue "a"]).1) = false) ∧
    SetValueOf.Equal basetypes.baseFramework basetypes.GoValueType.StringValue
      (setTypeOf.ValueType SetOfStringType)
      (AttrValue.setValueOf basetypes.GoValueType.StringValue
        (setTypeOf.ValueType SetOfStringType)) = false := by
  decide

/-! ## Conversion from the wire representation -/

/-- C11: `setTypeOf[T].ValueFromTerraform` returns `(nil, err)` with the own error
of the generic set decoder whenever that decoder fails, and `(nil, error)` with
an error naming the dynamic type of the decoded value whenever that value is
not a generic `SetValue`; in both cases the result is an error without a value,
reached before `ValueFromSet` is called. -/
theorem ValueFromTerraform_decode_errors {W E : Type} (σ : Type)
    (D : WireDecoding W E TP Ty Val σ) (F : Framework TP Ty Val) (T : TP)
    (t : setTypeOf Ty Val σ) (inp : W) :
    (∀ err, D.decodeSet t.SetType inp = Except.error err →
      setTypeOf.ValueFromTerraform D F T t inp = Except.error (GoError.passed err)) ∧
    (∀ v, D.decodeSet t.SetType inp = Except.ok v → (∀ s, v ≠ AttrValue.setValue s) →
      setTypeOf.ValueFromTerraform D F T t inp =
        Except.error (GoError.errorf ("unexpected value type of " ++ D.typeName v))) := by
  constructor
  · intro err h
    simp [setTypeOf.ValueFromTerraform, h]
  · intro v h hv
    cases v with
    | setValue s => exact absurd rfl (hv s)
    | setValueOf T' x => simp [setTypeOf.ValueFromTerraform, h]
    | other e => simp [setTypeOf.ValueFromTerraform, h]

/-- Instances of C11: a wire value the decoder rejects gives the error of the
decoder, and a wire value decoded to a string gives the error naming
`basetypes.StringValue`. -/
theorem ValueFromTerraform_decode_errors_witness :
    (wireDecoding.decodeSet SetOfStringType.SetType (WireValue.malformed "not a set")
        = Except.error "not a set" ∧
     setTypeOf.ValueFromTerraform wireDecoding basetypes.baseFramework
        basetypes.GoValueType.StringValue SetOfStringType (WireValue.malformed "not a set")
        = Except.error (GoError.passed "not a set")) ∧
    (wireDecoding.decodeSet SetOfStringType.SetType (WireValue.string "a")
        = Except.ok (AttrValue.other (basetypes.NewStringValue "a")) ∧
     setTypeOf.ValueFromTerraform wireDecoding basetypes.baseFramework
        basetypes.GoValueType.StringValue SetOfStringType (WireValue.string "a")
        = Except.error (GoError.errorf "unexpected value type of basetypes.StringValue")) :=
  ⟨⟨rfl,
    (ValueFromTerraform_decode_errors CallLog wireDecoding basetypes.baseFramework
      basetypes.GoValueType.StringValue SetOfStringType
      (WireValue.malformed "not a set")).1 "not a set" rfl⟩,
   ⟨rfl,
    (ValueFromTerraform_decode_errors CallLog wireDecoding basetypes.baseFramework
      basetypes.GoValueType.StringValue SetOfStringType
      (WireValue.string "a")).2 (AttrValue.other (basetypes.NewStringValue "a")) rfl
      (fun _ h => AttrValue.noConfusion h)⟩⟩

/-- C12, as the code has it: when the generic set decoder succeeds and yields a
generic `SetValue`, the result of `ValueFromTerraform` follows the diagnostics
of `ValueFromSet`. Without an error diagnostic it is the converted value with a
nil error; that is so for every null or unknown value and for every concrete
value whose elements all conform to the element type of `T`. With an error
diagnostic, which a concrete value with an element that does not conform
produces, the failure is turned into the returned error "unexpected error
converting SetValue to SetValuable" and no value is returned. -/
theorem ValueFromTerraform_after_decoding {W E : Type} (σ : Type)
    (D : WireDecoding W E TP Ty Val σ) (F : Framework TP Ty Val) (T : TP)
    (t : setTypeOf Ty Val σ) (inp : W) (sv : basetypes.SetValue Ty Val)
    (hdec : D.decodeSet t.SetType inp = Except.ok (AttrValue.setValue sv)) :
    (diag.Diagnostics.HasError (setTypeOf.ValueFromSet F T t sv).2 = false →
      setTypeOf.ValueFromTerraform D F T t inp =
        Except.ok (AttrValue.setValueOf T (setTypeOf.ValueFromSet F T t sv).1)) ∧
    (diag.Diagnostics.HasError (setTypeOf.ValueFromSet F T t sv).2 = true →
      setTypeOf.ValueFromTerraform D F T t inp =
        Except.error (GoError.errorf
          ("unexpected error converting SetValue to SetValuable: " ++
            D.showDiagnostics (setTypeOf.ValueFromSet F T t sv).2))) ∧
    ((sv.state ≠ attr.ValueState.known ∨
        ∀ e ∈ sv.elements, F.typeEqual (F.newAttrTypeOf T) (F.typeOf e) = true) →
      diag.Diagnostics.HasError (setTypeOf.ValueFromSet F T t sv).2 = false) ∧
    ((sv.state = attr.ValueState.known ∧
        ∃ e ∈ sv.elements, F.typeEqual (F.newAttrTypeOf T) (F.typeOf e) = false) →
      diag.Diagnostics.HasError (setTypeOf.ValueFromSet F T t sv).2 = true) := by
  refine ⟨?_, ?_, ?_, ?_⟩
  · intro h
    simp [setTypeOf.ValueFromTerraform, hdec, h]
  · intro h
    simp [setTypeOf.ValueFromTerraform, hdec, h]
  · rintro (h | h)
    · cases hs : sv.state with
      | known => exact absurd hs h
      | null =>
        have : sv.IsNull = true := by simp [basetypes.SetValue.IsNull, hs]
        simp [setTypeOf.ValueFromSet, this, diag.Diagnostics.HasError]
      | unknown =>
        have h1 : sv.IsNull = false := by simp [basetypes.SetValue.IsNull, hs]
        have h2 : sv.IsUnknown = true := by simp [basetypes.SetValue.IsUnknown, hs]
        simp [setTypeOf.ValueFromSet, h1, h2, diag.Diagnostics.HasError]
    · cases hs : sv.state with
      | known =>
        rw [ValueFromSet_of_conform σ F T t sv hs h]
        rfl
      | null =>
        have : sv.IsNull = true := by simp [basetypes.SetValue.IsNull, hs]
        simp [setTypeOf.ValueFromSet, this, diag.Diagnostics.HasError]
      | unknown =>
        have h1 : sv.IsNull = false := by simp [basetypes.SetValue.IsNull, hs]
        have h2 : sv.IsUnknown = true := by simp [basetypes.SetValue.IsUnknown, hs]
        simp [setTypeOf.ValueFromSet, h1, h2, diag.Diagnostics.HasError]
  · rintro ⟨hk, hne⟩
    obtain ⟨hv, herr⟩ := ValueFromSet_of_nonconform σ F T t sv hk hne
    rw [hv]
    exact herr

/-- An instance of the amended C12: the concrete set of strings `["a", "b"]`,
decoded for the set-of-strings descriptor, is returned as a `SetValueOf` of
strings with a nil error. -/
theorem ValueFromTerraform_after_decoding_witness :
    wireDecoding.decodeSet SetOfStringType.SetType
        (WireValue.set { elements := [basetypes.NewStringValue "a", basetypes.NewStringValue "b"],
                         elementType := some basetypes.BaseType.StringType,
                         state := attr.ValueState.known })
      = Except.ok (AttrValue.setValue
          { elements := [basetypes.NewStringValue "a", basetypes.NewStringValue "b"],
            elementType := some basetypes.BaseType.StringType,
            state := attr.ValueState.known }) ∧
    setTypeOf.ValueFromTerraform wireDecoding basetypes.baseFramework
        basetypes.GoValueType.StringValue SetOfStringType
        (WireValue.set { elements := [basetypes.NewStringValue "a", basetypes.NewStringValue "b"],
                         elementType := some basetypes.BaseType.StringType,
                         state := attr.ValueState.known })
      = Except.ok (AttrValue.setValueOf basetypes.GoValueType.StringValue
          { SetValue := { elements := [basetypes.NewStringValue "a",
                                        basetypes.NewStringValue "b"],
                          elementType := some basetypes.BaseType.StringType,
                          state := attr.ValueState.known },
            validateAttributeFunc := none }) :=
  ⟨rfl,
   (ValueFromTerraform_after_decoding CallLog wireDecoding basetypes.baseFramework
     basetypes.GoValueType.StringValue SetOfStringType
     (WireValue.set { elements := [basetypes.NewStringValue "a", basetypes.NewStringValue "b"],
                      elementType := some basetypes.BaseType.StringType,
                      state := attr.ValueState.known })
     { elements := [basetypes.NewStringValue "a", basetypes.NewStringValue "b"],
       elementType := some basetypes.BaseType.StringType,
       state := attr.ValueState.known } rfl).1 (by decide)⟩

/-- C12 as stated fails: a descriptor `setTypeOf[basetypes.StringValue]` whose
generic set type has boolean elements decodes the wire set `[true]` to a
generic `SetValue`, the decoder succeeding; the conversion then finds that the
element is not a string, and `ValueFromTerraform` turns that failure into a
returned error instead of a value with a nil error. -/
theorem ValueFromTerraform_returns_conversion_error :
    wireDecoding.decodeSet
        ({ ElemType := some basetypes.BaseType.BoolType } :
          basetypes.SetType basetypes.BaseType)
        (WireValue.set { elements := [basetypes.NewBoolValue true],
                         elementType := some basetypes.BaseType.BoolType,
                         state := attr.ValueState.known })
      = Except.ok (AttrValue.setValue
          { elements := [basetypes.NewBoolValue true],
            elementType := some basetypes.BaseType.BoolType,
            state := attr.ValueState.known }) ∧
    setTypeOf.ValueFromTerraform wireDecoding basetypes.baseFramework
        basetypes.GoValueType.StringValue
        ({ SetType := { ElemType := some basetypes.BaseType.BoolType },
           validateAttributeFunc := none } :
          setTypeOf basetypes.BaseType basetypes.BaseValue CallLog)
        (WireValue.set { elements := [basetypes.NewBoolValue true],
                         elementType := some basetypes.BaseType.BoolType,
                         state := attr.ValueState.known })
      = Except.error (GoError.errorf
          "unexpected error converting SetValue to SetValuable: Invalid Set Element Type") := by
  constructor
  · rfl
  · rfl

/-! ## Equality of descriptors -/

/-- C13, as the code has it: for a descriptor `t` of type `setTypeOf[T]`,
`t.Equal(o)` is true exactly when `o` has the same type `setTypeOf[T]`, both
descriptors carry an element type, and the element type of `t` equals that of
`o`; for two such descriptors it is the result of `Equal` on the element types.
It is false when `o` is a descriptor for another type argument, a generic set
type or any other type, whatever the element types. The hooks of the two
descriptors, present or not, do not affect the result. -/
theorem setTypeOf_Equal_iff [DecidableEq TP] (σ : Type) (F : Framework TP Ty Val)
    (T : TP) (t : setTypeOf Ty Val σ) (o : AttrType TP Ty Val σ) :
    (setTypeOf.Equal F T t o = true ↔
      ∃ (u : setTypeOf Ty Val σ) (a b : Ty), o = AttrType.setTypeOf T u ∧
        t.SetType.ElemType = some a ∧ u.SetType.ElemType = some b ∧
        F.typeEqual a b = true) ∧
    (∀ (a b : Ty) (f g : Option (validateAttributeFunc σ Val)),
      setTypeOf.Equal F T
          { SetType := { ElemType := some a }, validateAttributeFunc := f }
          (AttrType.setTypeOf T
            { SetType := { ElemType := some b }, validateAttributeFunc := g }) =
        F.typeEqual a b) ∧
    (∀ (T' : TP) (u : setTypeOf Ty Val σ), T' ≠ T →
      setTypeOf.Equal F T t (AttrType.setTypeOf T' u) = false) ∧
    (∀ st : basetypes.SetType Ty, setTypeOf.Equal F T t (AttrType.setType st) = false) ∧
    (∀ x : Ty, setTypeOf.Equal F T t (AttrType.other x) = false) ∧
    (∀ (T' : TP) (u : setTypeOf Ty Val σ) (f g : Option (validateAttributeFunc σ Val)),
      setTypeOf.Equal F T { SetType := t.SetType, validateAttributeFunc := f }
          (AttrType.setTypeOf T' { SetType := u.SetType, validateAttributeFunc := g }) =
        setTypeOf.Equal F T t (AttrType.setTypeOf T' u)) := by
  refine ⟨?_, ?_, ?_, fun _ => rfl, fun _ => rfl, ?_⟩
  · constructor
    · intro h
      cases o with
      | setTypeOf T' u =>
        by_cases hT : T' = T
        · subst hT
          cases ha : t.SetType.ElemType with
          | none => simp [setTypeOf.Equal, basetypes.SetType.Equal, ha] at h
          | some a =>
            cases hb : u.SetType.ElemType with
            | none => simp [setTypeOf.Equal, basetypes.SetType.Equal, ha, hb] at h
            | some b =>
              refine ⟨u, a, b, rfl, rfl, hb, ?_⟩
              simpa [setTypeOf.Equal, basetypes.SetType.Equal, ha, hb] using h
        · simp [setTypeOf.Equal, hT] at h
      | setType st => simp [setTypeOf.Equal] at h
      | other x => simp [setTypeOf.Equal] at h
    · rintro ⟨u, a, b, rfl, ha, hb, hab⟩
      simp [setTypeOf.Equal, basetypes.SetType.Equal, ha, hb, hab]
  · intro a b f g
    simp [setTypeOf.Equal, basetypes.SetType.Equal]
  · intro T' u hT
    simp [setTypeOf.Equal, hT]
  · intro T' u f g
    simp [setTypeOf.Equal]

/-- An instance of the amended C13: the descriptor of a set of strings equals the
descriptor of a set of strings that carries a hook, and it does not equal that
descriptor taken as a `setTypeOf[BoolValue]`. -/
theorem setTypeOf_Equal_iff_witness :
    setTypeOf.Equal basetypes.baseFramework basetypes.GoValueType.StringValue
      SetOfStringType
      (AttrType.setTypeOf basetypes.GoValueType.StringValue setOfStringRejectX) = true ∧
    basetypes.GoValueType.BoolValue ≠ basetypes.GoValueType.StringValue ∧
    setTypeOf.Equal basetypes.baseFramework basetypes.GoValueType.StringValue
      SetOfStringType
      (AttrType.setTypeOf basetypes.GoValueType.BoolValue setOfStringRejectX) = false :=
  ⟨(setTypeOf_Equal_iff CallLog basetypes.baseFramework basetypes.GoValueType.StringValue
     SetOfStringType
     (AttrType.setTypeOf basetypes.GoValueType.StringValue setOfStringRejectX)).1.mpr
     ⟨setOfStringRejectX, basetypes.BaseType.StringType, basetypes.BaseType.StringType,
      rfl, rfl, rfl, rfl⟩,
   by decide,
   (setTypeOf_Equal_iff CallLog basetypes.baseFramework basetypes.GoValueType.StringValue
     SetOfStringType
     (AttrType.setTypeOf basetypes.GoValueType.StringValue setOfStringRejectX)).2.2.1
     basetypes.GoValueType.BoolValue setOfStringRejectX (by decide)⟩

/-- C13 as stated fails: the element types of the two descriptors are equal and
`Equal` is false, when the other descriptor is a `setTypeOf[BoolValue]` holding
the element type of strings, when it is the generic set type of strings, and
when both are the zero value of `setTypeOf[StringValue]`, whose element type is
not set. -/
theorem setTypeOf_Equal_false_with_equal_element_types :
    basetypes.baseFramework.typeEqual basetypes.BaseType.StringType
      basetypes.BaseType.StringType = true ∧
    setTypeOf.Equal basetypes.baseFramework basetypes.GoValueType.StringValue
      SetOfStringType
      (AttrType.setTypeOf basetypes.GoValueType.BoolValue
        ({ SetType := { ElemType := some basetypes.BaseType.StringType },
           validateAttributeFunc := none } :
          setTypeOf basetypes.BaseType basetypes.BaseValue CallLog)) = false ∧
    setTypeOf.Equal basetypes.baseFramework basetypes.GoValueType.StringValue
      SetOfStringType
      (AttrType.setType { ElemType := some basetypes.BaseType.StringType }) = false ∧
    setTypeOf.Equal basetypes.baseFramework basetypes.GoValueType.StringValue
      ({ SetType := { ElemType := none }, validateAttributeFunc := none } :
        setTypeOf basetypes.BaseType basetypes.BaseValue CallLog)
      (AttrType.setTypeOf basetypes.GoValueType.StringValue
        ({ SetType := { ElemType := none }, validateAttributeFunc := none } :
          setTypeOf basetypes.BaseType basetypes.BaseValue CallLog)) = false :=
  ⟨rfl, rfl, rfl, rfl⟩

/-! ## Panics, the typing invariant, duplicates and absent hooks -/

theorem ValueFromSet_of_null (σ : Type) (F : Framework TP Ty Val) (T : TP)
    (t : setTypeOf Ty Val σ) (inp : basetypes.SetValue Ty Val)
    (h : inp.state = attr.ValueState.null) :
    setTypeOf.ValueFromSet F T t inp = (NewSetValueOfNull F T, []) := by
  have : inp.IsNull = true := by simp [basetypes.SetValue.IsNull, h]
  simp [setTypeOf.ValueFromSet, this]

theorem ValueFromSet_of_unknown (σ : Type) (F : Framework TP Ty Val) (T : TP)
    (t : setTypeOf Ty Val σ) (inp : basetypes.SetValue Ty Val)
    (h : inp.state = attr.ValueState.unknown) :
    setTypeOf.ValueFromSet F T t inp = (NewSetValueOfUnknown F T, []) := by
  have h1 : inp.IsNull = false := by simp [basetypes.SetValue.IsNull, h]
  have h2 : inp.IsUnknown = true := by simp [basetypes.SetValue.IsUnknown, h]
  simp [setTypeOf.ValueFromSet, h1, h2]

theorem raw_nonNil_values (L : List Val) : raw.nonNil (L.map some) = some L := by
  induction L with
  | nil => rfl
  | cons v rest ih => simp only [List.map, raw.nonNil, ih]

theorem raw_nonNil_nil_entry (R : List (Option Val)) (h : none ∈ R) :
    raw.nonNil R = none := by
  induction R with
  | nil => exact absurd h (List.not_mem_nil _)
  | cons x rest ih =>
    cases x with
    | none => rfl
    | some v =>
      have hrest : none ∈ rest := by
        rcases List.mem_cons.mp h with h' | h'
        · exact absurd h' (by simp)
        · exact h'
      simp only [raw.nonNil, ih hrest]

theorem raw_NewSetValueOf_values (σ P : Type) (F : Framework TP Ty Val) (T : TP)
    (L : List Val) :
    (raw.NewSetValueOf F T (L.map some) :
        Except (ConstructorPanic P) (SetValueOf Ty Val σ × diag.Diagnostics)) =
      Except.ok (NewSetValueOf F T L) := by
  unfold raw.NewSetValueOf raw.NewSetValue NewSetValueOf
  simp only [raw_nonNil_values]
  split <;> rfl

theorem raw_NewSetValueOf_nil_entry (σ P : Type) (F : Framework TP Ty Val) (T : TP)
    (R : List (Option Val)) (h : none ∈ R) :
    (raw.NewSetValueOf F T R :
        Except (ConstructorPanic P) (SetValueOf Ty Val σ × diag.Diagnostics)) =
      Except.error ConstructorPanic.nilDereference := by
  unfold raw.NewSetValueOf raw.NewSetValue
  simp only [raw_nonNil_nil_entry R h]

/-- C14, as the code has it. On an element slice with a nil entry `NewSetValueOf`
panics with a nil-pointer dereference, and so does `NewSetValueOfMust`, whatever
`fwdiag.Must` is. On a slice `L` without a nil entry `NewSetValueOf` returns
normally, and `NewSetValueOfMust` returns the value, or panics with the panic,
that `fwdiag.Must` gives for the value and diagnostics of `NewSetValueOf`; its
result holds no diagnostics. When some element of `L` does not conform to the
element type of `T`, `NewSetValueOf` and `ValueFromSet` return the unknown
value with error diagnostics, `ValueFromTerraform` returns an error for a wire
value that decodes to these elements, and `ValidateAttribute` returns at once on
the downgraded value. `Equal` returns false for a generic set value and for a
value of any other type. -/
theorem constructors_panic_on_nil_entry (σ P W E : Type) [DecidableEq TP]
    (F : Framework TP Ty Val) (T : TP) (t : setTypeOf Ty Val σ)
    (must : SetValueOf Ty Val σ × diag.Diagnostics → Except P (SetValueOf Ty Val σ))
    (L : List Val) (declared : Option Ty) :
    (∀ R : List (Option Val), none ∈ R →
      (raw.NewSetValueOf F T R :
          Except (ConstructorPanic P) (SetValueOf Ty Val σ × diag.Diagnostics)) =
        Except.error ConstructorPanic.nilDereference ∧
      raw.NewSetValueOfMust must F T R = Except.error ConstructorPanic.nilDereference) ∧
    (raw.NewSetValueOf F T (L.map some) :
        Except (ConstructorPanic P) (SetValueOf Ty Val σ × diag.Diagnostics)) =
      Except.ok (NewSetValueOf F T L) ∧
    raw.NewSetValueOfMust must F T (L.map some) =
      (match must (NewSetValueOf F T L) with
       | Except.ok v => Except.ok v
       | Except.error p => Except.error (ConstructorPanic.must p)) ∧
    ((∀ e ∈ L, F.typeEqual (F.newAttrTypeOf T) (F.typeOf e) = true) →
      (NewSetValueOf F T L : SetValueOf Ty Val σ × diag.Diagnostics) =
        ({ SetValue := { elements := L, elementType := some (F.newAttrTypeOf T),
                         state := attr.ValueState.known },
           validateAttributeFunc := none }, [])) ∧
    ((∃ e ∈ L, F.typeEqual (F.newAttrTypeOf T) (F.typeOf e) = false) →
      (NewSetValueOf F T L : SetValueOf Ty Val σ × diag.Diagnostics).1 =
        NewSetValueOfUnknown F T ∧
      diag.Diagnostics.HasError
        (NewSetValueOf F T L : SetValueOf Ty Val σ × diag.Diagnostics).2 = true ∧
      (setTypeOf.ValueFromSet F T t
        { elements := L, elementType := declared, state := attr.ValueState.known }).1 =
        NewSetValueOfUnknown F T ∧
      diag.Diagnostics.HasError (setTypeOf.ValueFromSet F T t
        { elements := L, elementType := declared, state := attr.ValueState.known }).2 = true ∧
      (∀ (D : WireDecoding W E TP Ty Val σ) (inp : W),
        D.decodeSet t.SetType inp = Except.ok (AttrValue.setValue
          { elements := L, elementType := declared, state := attr.ValueState.known }) →
        setTypeOf.ValueFromTerraform D F T t inp =
          Except.error (GoError.errorf
            ("unexpected error converting SetValue to SetValuable: " ++
              D.showDiagnostics (setTypeOf.ValueFromSet F T t
                { elements := L, elementType := declared,
                  state := attr.ValueState.known }).2))) ∧
      (∀ (req : xattr.ValidateAttributeRequest) (resp : xattr.ValidateAttributeResponse)
        (s : σ),
        SetValueOf.ValidateAttribute
          (NewSetValueOf F T L : SetValueOf Ty Val σ × diag.Diagnostics).1 req resp s =
          (resp, s))) ∧
    (∀ (v : SetValueOf Ty Val σ) (sv : basetypes.SetValue Ty Val),
      SetValueOf.Equal F T v (AttrValue.setValue sv) = false) ∧
    (∀ (v : SetValueOf Ty Val σ) (x : Val),
      SetValueOf.Equal F T v (AttrValue.other x) = false) := by
  refine ⟨?_, raw_NewSetValueOf_values σ P F T L, ?_, ?_, ?_, fun _ _ => rfl,
    fun _ _ => rfl⟩
  · intro R hR
    refine ⟨raw_NewSetValueOf_nil_entry σ P F T R hR, ?_⟩
    unfold raw.NewSetValueOfMust
    simp only [raw_NewSetValueOf_nil_entry σ P F T R hR]
  · unfold raw.NewSetValueOfMust
    simp only [raw_NewSetValueOf_values σ P F T L]
  · intro h
    exact NewSetValueOf_of_conform σ F T L h
  · intro h
    obtain ⟨hv, herr⟩ := NewSetValueOf_of_nonconform σ F T L h
    obtain ⟨hv', herr'⟩ := ValueFromSet_of_nonconform σ F T t
      { elements := L, elementType := declared, state := attr.ValueState.known } rfl h
    refine ⟨?_, ?_, ?_, ?_, ?_, ?_⟩
    · rw [hv]
    · rw [hv]; exact herr
    · rw [hv']
    · rw [hv']; exact herr'
    · intro D inp hdec
      unfold setTypeOf.ValueFromTerraform
      simp only [hdec]
      rw [hv']
      simp only [herr', if_true]
    · intro req resp s
      rw [hv]
      simp [SetValueOf.ValidateAttribute, NewSetValueOfUnknown, basetypes.NewSetUnknown,
        basetypes.SetValue.IsUnknown]

/-- An instance of the amended C14: the list `["a", true]` for a set of strings is
downgraded by `NewSetValueOf` to the unknown value with an error diagnostic. -/
theorem constructors_panic_on_nil_entry_witness :
    (∃ e ∈ [basetypes.NewStringValue "a", basetypes.NewBoolValue true],
      basetypes.baseFramework.typeEqual
        (basetypes.baseFramework.newAttrTypeOf basetypes.GoValueType.StringValue)
        (basetypes.baseFramework.typeOf e) = false) ∧
    (NewSetValueOf basetypes.baseFramework basetypes.GoValueType.StringValue
        [basetypes.NewStringValue "a", basetypes.NewBoolValue true] :
        SetValueOf basetypes.BaseType basetypes.BaseValue CallLog × diag.Diagnostics).1 =
      NewSetValueOfUnknown basetypes.baseFramework basetypes.GoValueType.StringValue ∧
    diag.Diagnostics.HasError
      (NewSetValueOf basetypes.baseFramework basetypes.GoValueType.StringValue
        [basetypes.NewStringValue "a", basetypes.NewBoolValue true] :
        SetValueOf basetypes.BaseType basetypes.BaseValue CallLog × diag.Diagnostics).2 =
      true :=
  ⟨⟨basetypes.NewBoolValue true, by simp, by decide⟩,
   ((constructors_panic_on_nil_entry CallLog diag.Diagnostics WireValue String
      basetypes.baseFramework basetypes.GoValueType.StringValue SetOfStringType
      (fun r => if diag.Diagnostics.HasError r.2 then Except.error r.2 else Except.ok r.1)
      [basetypes.NewStringValue "a", basetypes.NewBoolValue true] none).2.2.2.2.1
      ⟨basetypes.NewBoolValue true, by simp, by decide⟩).1,
   ((constructors_panic_on_nil_entry CallLog diag.Diagnostics WireValue String
      basetypes.baseFramework basetypes.GoValueType.StringValue SetOfStringType
      (fun r => if diag.Diagnostics.HasError r.2 then Except.error r.2 else Except.ok r.1)
      [basetypes.NewStringValue "a", basetypes.NewBoolValue true] none).2.2.2.2.1
      ⟨basetypes.NewBoolValue true, by simp, by decide⟩).2.1⟩

/-- C14 as stated fails: on the element slice `["a", nil]` for a set of strings
`NewSetValueOf` does not return; it panics with a nil-pointer dereference, and
so does `NewSetValueOfMust`, whatever `fwdiag.Must` is. -/
theorem NewSetValueOf_panics_on_nil_entry :
    (raw.NewSetValueOf basetypes.baseFramework basetypes.GoValueType.StringValue
        [some (basetypes.NewStringValue "a"), none] :
        Except (ConstructorPanic diag.Diagnostics)
          (SetValueOf basetypes.BaseType basetypes.BaseValue CallLog × diag.Diagnostics)) =
      Except.error ConstructorPanic.nilDereference ∧
    ∀ must : SetValueOf basetypes.BaseType basetypes.BaseValue CallLog × diag.Diagnostics →
        Except diag.Diagnostics (SetValueOf basetypes.BaseType basetypes.BaseValue CallLog),
      raw.NewSetValueOfMust must basetypes.baseFramework basetypes.GoValueType.StringValue
          [some (basetypes.NewStringValue "a"), none] =
        Except.error ConstructorPanic.nilDereference :=
  ⟨rfl, fun _ => rfl⟩

theorem NewSetValueOf_cases (σ : Type) (F : Framework TP Ty Val) (T : TP) (L : List Val) :
    ((∀ e ∈ L, F.typeEqual (F.newAttrTypeOf T) (F.typeOf e) = true) ∧
      (NewSetValueOf F T L : SetValueOf Ty Val σ × diag.Diagnostics).1 =
        { SetValue := { elements := L, elementType := some (F.newAttrTypeOf T),
                        state := attr.ValueState.known },
          validateAttributeFunc := none }) ∨
    (NewSetValueOf F T L : SetValueOf Ty Val σ × diag.Diagnostics).1 =
      NewSetValueOfUnknown F T := by
  rcases conform_or_not F (F.newAttrTypeOf T) L with hc | hn
  · left
    exact ⟨hc, by rw [NewSetValueOf_of_conform σ F T L hc]⟩
  · right
    rw [(NewSetValueOf_of_nonconform σ F T L hn).1]

theorem ValueFromSet_cases (σ : Type) (F : Framework TP Ty Val) (T : TP)
    (t : setTypeOf Ty Val σ) (inp : basetypes.SetValue Ty Val) :
    ((∀ e ∈ inp.elements, F.typeEqual (F.newAttrTypeOf T) (F.typeOf e) = true) ∧
      (setTypeOf.ValueFromSet F T t inp).1 =
        { SetValue := { elements := inp.elements, elementType := some (F.newAttrTypeOf T),
                        state := attr.ValueState.known },
          validateAttributeFunc := t.validateAttributeFunc }) ∨
    (setTypeOf.ValueFromSet F T t inp).1 = NewSetValueOfUnknown F T ∨
    (setTypeOf.ValueFromSet F T t inp).1 = NewSetValueOfNull F T := by
  cases hs : inp.state with
  | null => right; right; rw [ValueFromSet_of_null σ F T t inp hs]
  | unknown => right; left; rw [ValueFromSet_of_unknown σ F T t inp hs]
  | known =>
    rcases conform_or_not F (F.newAttrTypeOf T) inp.elements with hc | hn
    · left
      exact ⟨hc, by rw [ValueFromSet_of_conform σ F T t inp hs hc]⟩
    · right; left
      rw [(ValueFromSet_of_nonconform σ F T t inp hs hn).1]

/-- C15: every set value returned by `NewSetValueOf`, `NewSetValueOfNull`,
`NewSetValueOfUnknown` or `ValueFromSet` has the element type of `T` as its
element type descriptor, and the type of every element it contains is equal to
that descriptor. -/
theorem constructed_values_well_typed (σ : Type) (F : Framework TP Ty Val) (T : TP)
    (t : setTypeOf Ty Val σ) (L : List Val) (inp : basetypes.SetValue Ty Val) :
    ((NewSetValueOf F T L : SetValueOf Ty Val σ × diag.Diagnostics).1.SetValue.ElementType
        = some (F.newAttrTypeOf T) ∧
     ∀ e ∈ (NewSetValueOf F T L : SetValueOf Ty Val σ × diag.Diagnostics).1.SetValue.Elements,
       F.typeEqual (F.newAttrTypeOf T) (F.typeOf e) = true) ∧
    ((NewSetValueOfNull F T : SetValueOf Ty Val σ).SetValue.ElementType
        = some (F.newAttrTypeOf T) ∧
     ∀ e ∈ (NewSetValueOfNull F T : SetValueOf Ty Val σ).SetValue.Elements,
       F.typeEqual (F.newAttrTypeOf T) (F.typeOf e) = true) ∧
    ((NewSetValueOfUnknown F T : SetValueOf Ty Val σ).SetValue.ElementType
        = some (F.newAttrTypeOf T) ∧
     ∀ e ∈ (NewSetValueOfUnknown F T : SetValueOf Ty Val σ).SetValue.Elements,
       F.typeEqual (F.newAttrTypeOf T) (F.typeOf e) = true) ∧
    ((setTypeOf.ValueFromSet F T t inp).1.SetValue.ElementType = some (F.newAttrTypeOf T) ∧
     ∀ e ∈ (setTypeOf.ValueFromSet F T t inp).1.SetValue.Elements,
       F.typeEqual (F.newAttrTypeOf T) (F.typeOf e) = true) := by
  have hnull : (NewSetValueOfNull F T : SetValueOf Ty Val σ).SetValue.ElementType
        = some (F.newAttrTypeOf T) ∧
      ∀ e ∈ (NewSetValueOfNull F T : SetValueOf Ty Val σ).SetValue.Elements,
        F.typeEqual (F.newAttrTypeOf T) (F.typeOf e) = true := by
    constructor
    · rfl
    · intro e he
      exact absurd he (List.not_mem_nil e)
  have hunk : (NewSetValueOfUnknown F T : SetValueOf Ty Val σ).SetValue.ElementType
        = some (F.newAttrTypeOf T) ∧
      ∀ e ∈ (NewSetValueOfUnknown F T : SetValueOf Ty Val σ).SetValue.Elements,
        F.typeEqual (F.newAttrTypeOf T) (F.typeOf e) = true := by
    constructor
    · rfl
    · intro e he
      exact absurd he (List.not_mem_nil e)
  refine ⟨?_, hnull, hunk, ?_⟩
  · rcases NewSetValueOf_cases σ F T L with ⟨hc, hv⟩ | hv
    · rw [hv]
      exact ⟨rfl, hc⟩
    · rw [hv]
      exact hunk
  · rcases ValueFromSet_cases σ F T t inp with ⟨hc, hv⟩ | hv | hv
    · rw [hv]
      exact ⟨rfl, hc⟩
    · rw [hv]
      exact hunk
    · rw [hv]
      exact hnull

/-- C16: uniqueness is not enforced by the adapter: for every list of conforming
elements that contains a duplicate, `NewSetValueOf` returns a concrete value
with zero diagnostics whose `Elements()` is the list as given, every duplicate
included. -/
theorem NewSetValueOf_keeps_duplicates (σ : Type) (F : Framework TP Ty Val) (T : TP)
    (L : List Val)
    (h : ∀ e ∈ L, F.typeEqual (F.newAttrTypeOf T) (F.typeOf e) = true)
    (hdup : ¬ L.Nodup) :
    (NewSetValueOf F T L : SetValueOf Ty Val σ × diag.Diagnostics).1.SetValue.state
      = attr.ValueState.known ∧
    (NewSetValueOf F T L : SetValueOf Ty Val σ × diag.Diagnostics).2 = [] ∧
    (NewSetValueOf F T L : SetValueOf Ty Val σ × diag.Diagnostics).1.SetValue.Elements = L ∧
    ¬ (NewSetValueOf F T L : SetValueOf Ty Val σ × diag.Diagnostics).1.SetValue.Elements.Nodup := by
  rw [NewSetValueOf_of_conform σ F T L h]
  exact ⟨rfl, rfl, rfl, hdup⟩

/-- An instance of C16: the set of strings built from `["a", "a"]` is concrete,
has no diagnostics and holds both copies of "a". -/
theorem NewSetValueOf_keeps_duplicates_witness :
    ((∀ e ∈ [basetypes.NewStringValue "a", basetypes.NewStringValue "a"],
      basetypes.baseFramework.typeEqual
        (basetypes.baseFramework.newAttrTypeOf basetypes.GoValueType.StringValue)
        (basetypes.baseFramework.typeOf e) = true) ∧
     ¬ [basetypes.NewStringValue "a", basetypes.NewStringValue "a"].Nodup) ∧
    (NewSetValueOf basetypes.baseFramework basetypes.GoValueType.StringValue
        [basetypes.NewStringValue "a", basetypes.NewStringValue "a"] :
        SetValueOf basetypes.BaseType basetypes.BaseValue CallLog × diag.Diagnostics).2 = [] ∧
    (NewSetValueOf basetypes.baseFramework basetypes.GoValueType.StringValue
        [basetypes.NewStringValue "a", basetypes.NewStringValue "a"] :
        SetValueOf basetypes.BaseType basetypes.BaseValue CallLog × diag.Diagnostics).1.SetValue.Elements
      = [basetypes.NewStringValue "a", basetypes.NewStringValue "a"] :=
  ⟨⟨by decide, by decide⟩,
   (NewSetValueOf_keeps_duplicates CallLog basetypes.baseFramework
     basetypes.GoValueType.StringValue
     [basetypes.NewStringValue "a", basetypes.NewStringValue "a"] (by decide) (by decide)).2.1,
   (NewSetValueOf_keeps_duplicates CallLog basetypes.baseFramework
     basetypes.GoValueType.StringValue
     [basetypes.NewStringValue "a", basetypes.NewStringValue "a"] (by decide) (by decide)).2.2.1⟩

theorem ValidateAttribute_no_hook (σ : Type) (v : SetValueOf Ty Val σ)
    (req : xattr.ValidateAttributeRequest) (resp : xattr.ValidateAttributeResponse) (s : σ)
    (h : v.validateAttributeFunc = none) :
    SetValueOf.ValidateAttribute v req resp s = (resp, s) := by
  simp [SetValueOf.ValidateAttribute, h]

/-- C19: a set value without a hook is validated as a no-op: the values returned
by `NewSetValueOf` (for every element list), `NewSetValueOfNull` and
`NewSetValueOfUnknown` carry no hook, whatever `T` is, and `ValidateAttribute`
leaves the response diagnostics (and the ambient state) unchanged on them. -/
theorem ValidateAttribute_noop_on_constructed (σ : Type) (F : Framework TP Ty Val) (T : TP)
    (L : List Val) (req : xattr.ValidateAttributeRequest)
    (resp : xattr.ValidateAttributeResponse) (s : σ) :
    ((NewSetValueOf F T L : SetValueOf Ty Val σ × diag.Diagnostics).1.validateAttributeFunc.isNone
        = true ∧
     SetValueOf.ValidateAttribute
        (NewSetValueOf F T L : SetValueOf Ty Val σ × diag.Diagnostics).1 req resp s
        = (resp, s)) ∧
    ((NewSetValueOfNull F T : SetValueOf Ty Val σ).validateAttributeFunc.isNone = true ∧
     SetValueOf.ValidateAttribute (NewSetValueOfNull F T : SetValueOf Ty Val σ) req resp s
        = (resp, s)) ∧
    ((NewSetValueOfUnknown F T : SetValueOf Ty Val σ).validateAttributeFunc.isNone = true ∧
     SetValueOf.ValidateAttribute (NewSetValueOfUnknown F T : SetValueOf Ty Val σ) req resp s
        = (resp, s)) := by
  have hL : (NewSetValueOf F T L :
      SetValueOf Ty Val σ × diag.Diagnostics).1.validateAttributeFunc = none := by
    rcases NewSetValueOf_cases σ F T L with ⟨_, hv⟩ | hv
    · rw [hv]
    · rw [hv]; rfl
  refine ⟨⟨?_, ?_⟩, ⟨rfl, ?_⟩, ⟨rfl, ?_⟩⟩
  · rw [hL]; rfl
  · exact ValidateAttribute_no_hook σ _ req resp s hL
  · exact ValidateAttribute_no_hook σ _ req resp s rfl
  · exact ValidateAttribute_no_hook σ _ req resp s rfl

end Claims

/-! ## Package ec2: the state update -/

/-- C20: when `currentState` differs from `configuredState`, `updateInstanceState`
for the configured state "stopped" makes exactly one stop call, with the force
flag and `stopTimeout` of the caller, and no start call, and for the configured
state "running" exactly one start call, with `force = false` and
`startTimeout`, and no stop call; it returns the error of that call if the call
fails and nil otherwise. The result and the state of the world are those of
the single call; with the recording calls, the log grows by exactly that
call. -/
theorem updateInstanceState_single_call {σ Err : Type} (calls : ec2.InstanceCalls σ Err)
    (id currentState configuredState : String) (force : Bool)
    (stopTimeout startTimeout : time.Duration) (s : σ)
    (hne : currentState ≠ configuredState) :
    (configuredState = "stopped" →
      ec2.updateInstanceState calls id currentState configuredState force stopTimeout
          startTimeout s =
        calls.stopInstance id force stopTimeout s ∧
      ∀ (stopErr startErr : Option Err) (log : List ec2.InstanceCall),
        ec2.updateInstanceState (ec2.recordingCalls stopErr startErr) id currentState
            configuredState force stopTimeout startTimeout log =
          (stopErr, log ++ [ec2.InstanceCall.stop id force stopTimeout])) ∧
    (configuredState = "running" →
      ec2.updateInstanceState calls id currentState configuredState force stopTimeout
          startTimeout s =
        calls.startInstance id false startTimeout s ∧
      ∀ (stopErr startErr : Option Err) (log : List ec2.InstanceCall),
        ec2.updateInstanceState (ec2.recordingCalls stopErr startErr) id currentState
            configuredState force stopTimeout startTimeout log =
          (startErr, log ++ [ec2.InstanceCall.start id false startTimeout])) := by
  have hstop : ∀ {τ : Type} (c : ec2.InstanceCalls τ Err) (w : τ),
      configuredState = "stopped" →
      ec2.updateInstanceState c id currentState configuredState force stopTimeout
          startTimeout w = c.stopInstance id force stopTimeout w := by
    intro τ c w hc
    subst hc
    have hne' : ¬ currentState = "stopped" := hne
    have hr : ¬ ("stopped" : String) = "running" := by decide
    unfold ec2.updateInstanceState
    simp only [hne', hr, if_false, if_true]
    rcases c.stopInstance id force stopTimeout w with ⟨o, w1⟩
    cases o <;> rfl
  have hstart : ∀ {τ : Type} (c : ec2.InstanceCalls τ Err) (w : τ),
      configuredState = "running" →
      ec2.updateInstanceState c id currentState configuredState force stopTimeout
          startTimeout w = c.startInstance id false startTimeout w := by
    intro τ c w hc
    subst hc
    have hne' : ¬ currentState = "running" := hne
    have hr : ¬ ("running" : String) = "stopped" := by decide
    unfold ec2.updateInstanceState
    simp only [hne', hr, if_false, if_true]
    rcases c.startInstance id false startTimeout w with ⟨o, w1⟩
    cases o <;> rfl
  constructor
  · intro hc
    refine ⟨hstop calls s hc, ?_⟩
    intro stopErr startErr log
    rw [hstop _ log hc]
    rfl
  · intro hc
    refine ⟨hstart calls s hc, ?_⟩
    intro stopErr startErr log
    rw [hstart _ log hc]
    rfl

/-- An instance of C20: a running instance configured as "stopped" with the force
flag set gets one stop call with that flag and the stop timeout, whose error is
returned. -/
theorem updateInstanceState_single_call_witness :
    ("running" : String) ≠ "stopped" ∧
    ec2.updateInstanceState (ec2.recordingCalls (some "boom") (none : Option String))
        "i-0abc" "running" "stopped" true (15 * time.Minute) (10 * time.Minute) [] =
      (some "boom", [ec2.InstanceCall.stop "i-0abc" true (15 * time.Minute)]) :=
  ⟨by decide,
   ((updateInstanceState_single_call (ec2.recordingCalls (some "boom") (none : Option String))
      "i-0abc" "running" "stopped" true (15 * time.Minute) (10 * time.Minute) []
      (by decide)).1 rfl).2 (some "boom") none []⟩

/-! ## Lemmas on `time.ParseDuration` -/

namespace time

theorem isDigit_iff (c : Char) : isDigit c = true ↔ 48 ≤ c.toNat ∧ c.toNat ≤ 57 := by
  simp [isDigit]

theorem ne_of_isDigit (c d : Char) (hc : isDigit c = true) (hd : isDigit d = false) :
    c ≠ d := by
  intro h
  subst h
  rw [hc] at hd
  exact Bool.noConfusion hd

theorem foldl_digits_ge (ds : List Char) :
    ∀ x : Nat, x ≤ ds.foldl (fun acc c => acc * 10 + (c.toNat - 48)) x := by
  induction ds with
  | nil => intro x; simp
  | cons c ds ih =>
    intro x
    simp only [List.foldl_cons]
    exact le_trans (by omega) (ih _)

theorem leadingIntLoop_digits (ds rest : List Char)
    (hd : ∀ c ∈ ds, isDigit c = true)
    (hrest : ∀ c r, rest = c :: r → isDigit c = false) :
    ∀ x : Nat, ds.foldl (fun acc c => acc * 10 + (c.toNat - 48)) x ≤ 2 ^ 63 / 10 →
      leadingIntLoop x (ds ++ rest) =
        some (ds.foldl (fun acc c => acc * 10 + (c.toNat - 48)) x, rest) := by
  induction ds with
  | nil =>
    intro x _
    cases rest with
    | nil => rfl
    | cons c r => simp [leadingIntLoop, hrest c r rfl]
  | cons c ds ih =>
    intro x hx
    have hc : isDigit c = true := hd c (List.mem_cons_self _ _)
    have hds : ∀ c ∈ ds, isDigit c = true := fun d hd' => hd d (List.mem_cons_of_mem _ hd')
    simp only [List.foldl_cons] at hx
    have h1 : x * 10 + (c.toNat - 48) ≤ 2 ^ 63 / 10 := le_trans (foldl_digits_ge ds _) hx
    have h2 : ¬ x > 2 ^ 63 / 10 := by omega
    have h3 : ¬ x * 10 + (c.toNat - 48) > 2 ^ 63 := by omega
    simp only [List.cons_append, leadingIntLoop, hc, Bool.not_true, Bool.false_eq_true,
      if_false, h2, h3, List.foldl_cons]
    exact ih hds _ hx

end time

namespace time

theorem splitUnit_single (u : Char) (hu : isDigit u = false) (hdot : u ≠ '.') :
    splitUnit [u] = ([u], []) := by
  simp [splitUnit, hu, hdot]

theorem parseTerms_digits_unit (fraction : Nat → Nat → Nat → Nat) (orig : String)
    (ds : List Char) (u : Char) (unit : Nat)
    (hne : ds ≠ []) (hd : ∀ c ∈ ds, isDigit c = true)
    (hu : isDigit u = false) (hdot : u ≠ '.')
    (hunit : unitMap.lookup [u] = some unit) (h10 : 10 ≤ unit)
    (hbound : decimalValue ds * unit ≤ 2 ^ 63 - 1) (fuel : Nat) :
    parseTerms fraction orig (fuel + 1) (ds ++ [u]) 0 =
      some (Except.ok (decimalValue ds * unit)) := by
  obtain ⟨c0, ds', rfl⟩ := List.exists_cons_of_ne_nil hne
  have hc0 : isDigit c0 = true := hd c0 (List.mem_cons_self _ _)
  have hN : decimalValue (c0 :: ds') ≤ 2 ^ 63 / 10 := by
    have : decimalValue (c0 :: ds') * 10 ≤ decimalValue (c0 :: ds') * unit :=
      Nat.mul_le_mul_left _ h10
    omega
  have hli : leadingInt (c0 :: (ds' ++ [u])) = some (decimalValue (c0 :: ds'), [u]) :=
    leadingIntLoop_digits (c0 :: ds') [u] hd
      (fun c r h => by cases h; exact hu) 0 hN
  have hv : ¬ decimalValue (c0 :: ds') > 2 ^ 63 / unit := by
    have hpos : 0 < unit := by omega
    have : decimalValue (c0 :: ds') ≤ 2 ^ 63 / unit :=
      (Nat.le_div_iff_mul_le hpos).2 (by omega)
    omega
  have hd1 : ¬ decimalValue (c0 :: ds') * unit > 2 ^ 63 := by omega
  rw [List.cons_append, parseTerms]
  simp only [hc0, Bool.or_true, Bool.not_true, Bool.false_eq_true, if_false]
  rw [hli]
  simp only [fractionPart, hdot, if_false, splitUnit_single u hu hdot, hunit]
  have h63 : (2 : Nat) ^ 63 = 9223372036854775808 := by norm_num
  rw [h63] at hv hd1 hbound
  have hm : decimalValue (c0 :: ds') * unit % 18446744073709551616 =
      decimalValue (c0 :: ds') * unit := Nat.mod_eq_of_lt (by omega)
  have hv' : ¬ 9223372036854775808 / unit < decimalValue (c0 :: ds') := hv
  have hd1' : ¬ 9223372036854775808 < decimalValue (c0 :: ds') * unit := hd1
  simp [hm, hv', hd1', parseTerms]


theorem ParseDuration_digits_unit (fraction : Nat → Nat → Nat → Nat)
    (ds : List Char) (u : Char) (unit : Nat)
    (hne : ds ≠ []) (hd : ∀ c ∈ ds, isDigit c = true)
    (hu : isDigit u = false) (hdot : u ≠ '.')
    (hunit : unitMap.lookup [u] = some unit) (h10 : 10 ≤ unit)
    (hbound : decimalValue ds * unit ≤ 2 ^ 63 - 1) :
    ParseDuration fraction (String.mk (ds ++ [u])) =
      some (Except.ok ((decimalValue ds * unit : Nat) : Int)) := by
  have hterms := parseTerms_digits_unit fraction (String.mk (ds ++ [u])) ds u unit hne hd hu
    hdot hunit h10 hbound ds.length
  obtain ⟨c0, ds', rfl⟩ := List.exists_cons_of_ne_nil hne
  have hc0 : isDigit c0 = true := hd c0 (List.mem_cons_self _ _)
  have hminus : c0 ≠ '-' := ne_of_isDigit c0 '-' hc0 (by decide)
  have hplus : c0 ≠ '+' := ne_of_isDigit c0 '+' hc0 (by decide)
  have h63 : (2 : Nat) ^ 63 = 9223372036854775808 := by norm_num
  rw [h63] at hbound
  have hlen : (c0 :: ds' ++ [u]).length = (c0 :: ds').length + 1 := by simp
  have hd' : ¬ decimalValue (c0 :: ds') * unit > 9223372036854775807 := by omega
  unfold ParseDuration
  simp only [String.toList, List.cons_append, hminus, hplus, if_false]
  have hzero : ¬ (c0 :: (ds' ++ [u]) = ['0']) := by
    intro h
    have := congrArg List.length h
    simp at this
  simp only [hzero, if_false, List.cons_ne_nil]
  rw [List.cons_append] at hterms hlen
  rw [hlen, hterms]
  simp [durationOfUint64, hd']
  omega

end time

namespace time

theorem digitChar_value : ∀ k : Nat, k < 10 →
    (Nat.digitChar k).toNat - 48 = k ∧ isDigit (Nat.digitChar k) = true := by
  decide

theorem toDigitsCore_value (fuel : Nat) : ∀ (n : Nat) (ds : List Char),
    n < fuel →
    (Nat.toDigitsCore 10 fuel n ds).foldl (fun acc c => acc * 10 + (c.toNat - 48)) 0 =
      ds.foldl (fun acc c => acc * 10 + (c.toNat - 48)) n := by
  induction fuel with
  | zero => intro n ds h; exact absurd h (Nat.not_lt_zero _)
  | succ fuel ih =>
    intro n ds h
    have hk := (digitChar_value (n % 10) (Nat.mod_lt _ (by decide))).1
    simp only [Nat.toDigitsCore]
    by_cases h0 : n / 10 = 0
    · simp only [h0, if_true, List.foldl_cons, hk]
      have : n % 10 = n := by omega
      rw [this]
      simp
    · simp only [h0, if_false]
      rw [ih (n / 10) _ (by omega)]
      simp only [List.foldl_cons, hk]
      have : n / 10 * 10 + n % 10 = n := by omega
      rw [this]

theorem toDigitsCore_digits (fuel : Nat) : ∀ (n : Nat) (ds : List Char),
    (∀ c ∈ ds, isDigit c = true) →
    ∀ c ∈ Nat.toDigitsCore 10 fuel n ds, isDigit c = true := by
  induction fuel with
  | zero => intro n ds h; simpa [Nat.toDigitsCore] using h
  | succ fuel ih =>
    intro n ds h
    have hk := (digitChar_value (n % 10) (Nat.mod_lt _ (by decide))).2
    have hcons : ∀ c ∈ Nat.digitChar (n % 10) :: ds, isDigit c = true := by
      intro c hc
      rcases List.mem_cons.1 hc with rfl | hc
      · exact hk
      · exact h c hc
    simp only [Nat.toDigitsCore]
    by_cases h0 : n / 10 = 0
    · simpa only [h0, if_true] using hcons
    · simp only [h0, if_false]
      exact ih _ _ hcons

theorem toDigitsCore_ne_nil (fuel n : Nat) (ds : List Char) (h : ds ≠ []) :
    Nat.toDigitsCore 10 fuel n ds ≠ [] := by
  induction fuel generalizing n ds with
  | zero => simpa [Nat.toDigitsCore] using h
  | succ fuel ih =>
    simp only [Nat.toDigitsCore]
    by_cases h0 : n / 10 = 0
    · simp [h0]
    · simp only [h0, if_false]
      exact ih _ _ (List.cons_ne_nil _ _)

theorem toDigits_decimal (n : Nat) :
    Nat.toDigits 10 n ≠ [] ∧ (∀ c ∈ Nat.toDigits 10 n, isDigit c = true) ∧
    decimalValue (Nat.toDigits 10 n) = n := by
  refine ⟨?_, ?_, ?_⟩
  · unfold Nat.toDigits
    simp only [Nat.toDigitsCore]
    by_cases h0 : n / 10 = 0
    · simp [h0]
    · simp only [h0, if_false]
      exact toDigitsCore_ne_nil _ _ _ (List.cons_ne_nil _ _)
  · exact toDigitsCore_digits _ _ _ (fun c hc => absurd hc (List.not_mem_nil c))
  · unfold decimalValue Nat.toDigits
    rw [toDigitsCore_value (n + 1) n [] (Nat.lt_succ_self n)]
    rfl

theorem toString_append_unit (n : Nat) (u : Char) :
    toString n ++ String.mk [u] = String.mk (Nat.toDigits 10 n ++ [u]) := rfl

end time

/-! ## Package ec2: timeouts -/

/-- Whole numbers of seconds, minutes and hours, for any non-empty string of
digits, leading zeros included. -/
theorem ParseTimeout_digit_string (fraction : Nat → Nat → Nat → Nat) (ds : List Char)
    (hne : ds ≠ []) (hd : ∀ c ∈ ds, time.isDigit c = true) :
    (time.decimalValue ds * 1000000000 ≤ 2 ^ 63 - 1 →
      ec2.ParseTimeout fraction (String.mk (ds ++ ['s'])) =
        some (Except.ok ((time.decimalValue ds : Int) * time.Second))) ∧
    (time.decimalValue ds * 60000000000 ≤ 2 ^ 63 - 1 →
      ec2.ParseTimeout fraction (String.mk (ds ++ ['m'])) =
        some (Except.ok ((time.decimalValue ds : Int) * time.Minute))) ∧
    (time.decimalValue ds * 3600000000000 ≤ 2 ^ 63 - 1 →
      ec2.ParseTimeout fraction (String.mk (ds ++ ['h'])) =
        some (Except.ok ((time.decimalValue ds : Int) * time.Hour))) := by
  have hs : time.Second = 1000000000 := by decide
  have hm : time.Minute = 60000000000 := by decide
  have hh : time.Hour = 3600000000000 := by decide
  refine ⟨?_, ?_, ?_⟩
  · intro hb
    unfold ec2.ParseTimeout
    rw [time.ParseDuration_digits_unit fraction ds 's' 1000000000 hne hd (by decide)
      (by decide) (by decide) (by decide) hb, hs]
    simp
  · intro hb
    unfold ec2.ParseTimeout
    rw [time.ParseDuration_digits_unit fraction ds 'm' 60000000000 hne hd (by decide)
      (by decide) (by decide) (by decide) hb, hm]
    simp
  · intro hb
    unfold ec2.ParseTimeout
    rw [time.ParseDuration_digits_unit fraction ds 'h' 3600000000000 hne hd (by decide)
      (by decide) (by decide) (by decide) hb, hh]
    simp

/-- C17: for every natural number `n` written in decimal, `ParseTimeout` returns
no error and a duration of exactly `n` seconds for `n` followed by "s", `n`
minutes for `n` followed by "m" and `n` hours for `n` followed by "h", whenever
that duration is representable as a signed 64-bit count of nanoseconds. -/
theorem ParseTimeout_whole_units (fraction : Nat → Nat → Nat → Nat) (n : Nat) :
    (n * 1000000000 ≤ 2 ^ 63 - 1 →
      ec2.ParseTimeout fraction (toString n ++ "s") =
        some (Except.ok ((n : Int) * time.Second))) ∧
    (n * 60000000000 ≤ 2 ^ 63 - 1 →
      ec2.ParseTimeout fraction (toString n ++ "m") =
        some (Except.ok ((n : Int) * time.Minute))) ∧
    (n * 3600000000000 ≤ 2 ^ 63 - 1 →
      ec2.ParseTimeout fraction (toString n ++ "h") =
        some (Except.ok ((n : Int) * time.Hour))) := by
  obtain ⟨hne, hd, hval⟩ := time.toDigits_decimal n
  have h := ParseTimeout_digit_string fraction (Nat.toDigits 10 n) hne hd
  rw [hval] at h
  refine ⟨?_, ?_, ?_⟩
  · intro hb
    exact (time.toString_append_unit n 's').symm ▸ h.1 hb
  · intro hb
    exact (time.toString_append_unit n 'm').symm ▸ h.2.1 hb
  · intro hb
    exact (time.toString_append_unit n 'h').symm ▸ h.2.2 hb

/-- The instances of C17 named in the claim: "30s", "10m" and "1h" parse to 30
seconds, 10 minutes and 1 hour. -/
theorem ParseTimeout_whole_units_witness :
    (30 * 1000000000 ≤ 2 ^ 63 - 1 ∧
      ec2.ParseTimeout (fun f unit scale => f * unit / scale) "30s" =
        some (Except.ok (30 * time.Second))) ∧
    (10 * 60000000000 ≤ 2 ^ 63 - 1 ∧
      ec2.ParseTimeout (fun f unit scale => f * unit / scale) "10m" =
        some (Except.ok (10 * time.Minute))) ∧
    (1 * 3600000000000 ≤ 2 ^ 63 - 1 ∧
      ec2.ParseTimeout (fun f unit scale => f * unit / scale) "1h" =
        some (Except.ok (1 * time.Hour))) :=
  ⟨⟨by decide, (ParseTimeout_whole_units (fun f unit scale => f * unit / scale) 30).1
      (by decide)⟩,
   ⟨by decide, (ParseTimeout_whole_units (fun f unit scale => f * unit / scale) 10).2.1
      (by decide)⟩,
   ⟨by decide, (ParseTimeout_whole_units (fun f unit scale => f * unit / scale) 1).2.2
      (by decide)⟩⟩

namespace time

theorem leadingIntLoop_split : ∀ (s : List Char) (x v : Nat) (s1 : List Char),
    leadingIntLoop x s = some (v, s1) →
    ∃ ds, s = ds ++ s1 ∧ ∀ c ∈ ds, isDigit c = true := by
  intro s
  induction s with
  | nil =>
    intro x v s1 h
    simp only [leadingIntLoop, Option.some.injEq, Prod.mk.injEq] at h
    exact ⟨[], by simp [h.2], fun c hc => absurd hc (List.not_mem_nil c)⟩
  | cons c rest ih =>
    intro x v s1 h
    by_cases hc : isDigit c = true
    · simp only [leadingIntLoop, hc, Bool.not_true, Bool.false_eq_true, if_false] at h
      split at h
      · exact absurd h (by simp)
      · split at h
        · exact absurd h (by simp)
        · obtain ⟨ds, hds, hd⟩ := ih _ _ _ h
          refine ⟨c :: ds, by simp [hds], ?_⟩
          intro d hd'
          rcases List.mem_cons.1 hd' with rfl | hd'
          · exact hc
          · exact hd d hd'
    · have hc' : isDigit c = false := by simpa using hc
      simp only [leadingIntLoop, hc', Bool.not_false, if_true, Option.some.injEq,
        Prod.mk.injEq] at h
      exact ⟨[], by simp [h.2], fun c hc => absurd hc (List.not_mem_nil c)⟩

theorem leadingFractionLoop_split : ∀ (s : List Char) (x scale : Nat) (overflow : Bool),
    ∃ fs, s = fs ++ (leadingFractionLoop x scale overflow s).2.2 ∧
      ∀ c ∈ fs, isDigit c = true := by
  intro s
  induction s with
  | nil =>
    intro x scale overflow
    exact ⟨[], by simp [leadingFractionLoop], fun c hc => absurd hc (List.not_mem_nil c)⟩
  | cons c rest ih =>
    intro x scale overflow
    by_cases hc : isDigit c = true
    · have hstep : ∃ x' scale' overflow',
          leadingFractionLoop x scale overflow (c :: rest) =
            leadingFractionLoop x' scale' overflow' rest := by
        simp only [leadingFractionLoop, hc, Bool.not_true, Bool.false_eq_true, if_false]
        split
        · exact ⟨_, _, _, rfl⟩
        · split
          · exact ⟨_, _, _, rfl⟩
          · split
            · exact ⟨_, _, _, rfl⟩
            · exact ⟨_, _, _, rfl⟩
      obtain ⟨x', scale', overflow', hst⟩ := hstep
      obtain ⟨fs, hfs, hd⟩ := ih x' scale' overflow'
      rw [hst]
      refine ⟨c :: fs, by rw [List.cons_append, ← hfs], ?_⟩
      intro d hd'
      rcases List.mem_cons.1 hd' with rfl | hd'
      · exact hc
      · exact hd d hd'
    · have hc' : isDigit c = false := by simpa using hc
      exact ⟨[], by simp [leadingFractionLoop, hc'],
        fun c hc => absurd hc (List.not_mem_nil c)⟩

theorem splitUnit_split : ∀ s : List Char, s = (splitUnit s).1 ++ (splitUnit s).2 := by
  intro s
  induction s with
  | nil => simp [splitUnit]
  | cons c rest ih =>
    unfold splitUnit
    split
    · simp
    · simp only [List.cons_append]
      rw [← ih]

end time

namespace time

theorem fractionPart_split (s1 : List Char) :
    ∃ m, s1 = m ++ (fractionPart s1).2.2.1 ∧
      ((m = [] ∧ (fractionPart s1).2.2.2 = false) ∨
       ∃ fs, m = '.' :: fs ∧ (∀ c ∈ fs, isDigit c = true) ∧
         ((fractionPart s1).2.2.2 = true → fs ≠ [])) := by
  cases s1 with
  | nil => exact ⟨[], by simp [fractionPart], Or.inl ⟨rfl, by simp [fractionPart]⟩⟩
  | cons c1 s1' =>
    by_cases hc : c1 = '.'
    · subst hc
      obtain ⟨fs, hfs, hd⟩ := leadingFractionLoop_split s1' 0 1 false
      refine ⟨'.' :: fs, ?_, Or.inr ⟨fs, rfl, hd, ?_⟩⟩
      · simp only [fractionPart, if_true, List.cons_append]
        exact congrArg _ hfs
      · simp only [fractionPart, if_true]
        intro hpost hnil
        subst hnil
        have hlen : s1'.length = (leadingFraction s1').2.2.length := by
          have := congrArg List.length hfs
          simpa [leadingFraction] using this
        simp [hlen] at hpost
    · exact ⟨[], by simp [fractionPart, hc], Or.inl ⟨rfl, by simp [fractionPart, hc]⟩⟩

theorem parseTerms_spec (fraction : Nat → Nat → Nat → Nat) (orig : String) :
    ∀ (fuel : Nat) (s : List Char) (d : Nat), s.length ≤ fuel →
    ∃ r, parseTerms fraction orig fuel s d = some r ∧
      (∀ d', r = Except.ok d' → durationTerms s) := by
  intro fuel
  induction fuel with
  | zero =>
    intro s d h
    cases s with
    | nil => exact ⟨Except.ok d, by simp [parseTerms], fun _ _ => durationTerms.nil⟩
    | cons c rest => simp at h
  | succ fuel ih =>
    intro s d h
    cases s with
    | nil => exact ⟨Except.ok d, by simp [parseTerms], fun _ _ => durationTerms.nil⟩
    | cons c rest =>
      have herr : ∀ e : ParseError, ∃ r, some (Except.error e : Except ParseError Nat) = some r ∧
          (∀ d', r = Except.ok d' → durationTerms (c :: rest)) :=
        fun e => ⟨_, rfl, fun d' h => by cases h⟩
      rw [parseTerms]
      split
      · exact herr _
      · split
        · exact herr _
        · rename_i v s1 hli
          obtain ⟨ds, hds, hdig⟩ := leadingIntLoop_split _ _ _ _ hli
          obtain ⟨m, hm, hmcase⟩ := fractionPart_split s1
          generalize fractionPart s1 = frac at hm hmcase ⊢
          obtain ⟨f, scale, s2, post⟩ := frac
          simp only [] at hm hmcase ⊢
          have hu := splitUnit_split s2
          generalize splitUnit s2 = us at hu ⊢
          obtain ⟨u, s3⟩ := us
          simp only [] at hu ⊢
          split
          · exact herr _
          · rename_i hprepost
            split
            · exact herr _
            · rename_i hune
              split
              · exact herr _
              · rename_i unit hunit
                split
                · exact herr _
                · generalize (if f > 0 then (v * unit + fraction f unit scale) % 2 ^ 64
                    else v * unit) = v2
                  split
                  · exact herr _
                  · split
                    · exact herr _
                    · have hwhole : c :: rest = (ds ++ m) ++ u ++ s3 := by
                        rw [hds, hm, hu]; simp
                      have hlen : s3.length ≤ fuel := by
                        have h1 := congrArg List.length hwhole
                        have h2 : 0 < u.length := List.length_pos.2 hune
                        simp only [List.length_append, List.length_cons] at h1 h
                        omega
                      obtain ⟨r, hr, hok⟩ := ih s3 _ hlen
                      refine ⟨r, hr, ?_⟩
                      intro d' hd'
                      rw [hwhole]
                      refine durationTerms.cons (ds ++ m) u s3 ?_ (by rw [hunit]; rfl) (hok d' hd')
                      have hpre : ds = [] → (c :: rest).length = s1.length := by
                        intro hnil
                        rw [hds, hnil]; simp
                      rcases hmcase with ⟨hmnil, hpost⟩ | ⟨fs, hmfs, hfd, hpost⟩
                      · refine ⟨ds, [], hdig, fun c hc => absurd hc (List.not_mem_nil c),
                          Or.inl ⟨by simp [hmnil], ?_⟩⟩
                        intro hnil
                        simp [hpre hnil, hpost] at hprepost
                      · refine ⟨ds, fs, hdig, hfd, Or.inr ⟨by rw [hmfs], ?_⟩⟩
                        by_cases hnil : ds = []
                        · right
                          apply hpost
                          simpa [hpre hnil] using hprepost
                        · exact Or.inl hnil

end time

namespace time

theorem ParseDuration_spec (fraction : Nat → Nat → Nat → Nat) (s : String) :
    ∃ r, ParseDuration fraction s = some r ∧
      (∀ d, r = Except.ok d → validDurationString s) := by
  have hsign : ∃ sg : List Char,
      s.toList = sg ++
        (match s.toList with
          | [] => ((false, []) : Bool × List Char)
          | c :: rest =>
            if c = '-' then (true, rest)
            else if c = '+' then (false, rest)
            else (false, c :: rest)).2 ∧
      (sg = [] ∨ sg = ['+'] ∨ sg = ['-']) := by
    cases s.toList with
    | nil => exact ⟨[], rfl, Or.inl rfl⟩
    | cons c rest =>
      by_cases hm : c = '-'
      · exact ⟨['-'], by simp [hm], Or.inr (Or.inr rfl)⟩
      · by_cases hp : c = '+'
        · exact ⟨['+'], by simp [hp], Or.inr (Or.inl rfl)⟩
        · exact ⟨[], by simp [hm, hp], Or.inl rfl⟩
  unfold ParseDuration
  generalize (match s.toList with
    | [] => ((false, []) : Bool × List Char)
    | c :: rest =>
      if c = '-' then (true, rest)
      else if c = '+' then (false, rest)
      else (false, c :: rest)) = sign at hsign ⊢
  obtain ⟨neg, body⟩ := sign
  obtain ⟨sg, hsg, hsgcase⟩ := hsign
  simp only [] at hsg ⊢
  by_cases hzero : body = ['0']
  · refine ⟨Except.ok 0, by simp [hzero], fun _ _ => ⟨sg, body, hsg, hsgcase, Or.inl hzero⟩⟩
  · by_cases hnil : body = []
    · exact ⟨Except.error (ParseError.invalidDuration s), by simp [hnil],
        fun d hd => by cases hd⟩
    · simp only [hzero, hnil, if_false]
      obtain ⟨r, hr, hok⟩ := parseTerms_spec fraction s body.length body 0 (le_refl _)
      rw [hr]
      cases r with
      | error e => exact ⟨_, rfl, fun d hd => by cases hd⟩
      | ok d =>
        have hvalid : validDurationString s :=
          ⟨sg, body, hsg, hsgcase, Or.inr ⟨hnil, hok d rfl⟩⟩
        simp only []
        split
        · exact ⟨_, rfl, fun _ _ => hvalid⟩
        · split
          · exact ⟨_, rfl, fun d hd => by cases hd⟩
          · exact ⟨_, rfl, fun _ _ => hvalid⟩

theorem isDecimalNumber_has_digit (n : List Char) (h : isDecimalNumber n) :
    ∃ c ∈ n, isDigit c = true := by
  obtain ⟨i, f, hi, hf, hcase⟩ := h
  rcases hcase with ⟨rfl, hne⟩ | ⟨rfl, hne | hne⟩
  · obtain ⟨c, hc⟩ := List.exists_mem_of_ne_nil _ hne
    exact ⟨c, hc, hi c hc⟩
  · obtain ⟨c, hc⟩ := List.exists_mem_of_ne_nil _ hne
    exact ⟨c, List.mem_append_left _ hc, hi c hc⟩
  · obtain ⟨c, hc⟩ := List.exists_mem_of_ne_nil _ hne
    exact ⟨c, List.mem_append_right _ (List.mem_cons_of_mem _ hc), hf c hc⟩

theorem validDurationString_has_digit (s : String) (h : validDurationString s) :
    ∃ c ∈ s.toList, isDigit c = true := by
  obtain ⟨sg, body, hs, _, hbody⟩ := h
  rw [hs]
  rcases hbody with rfl | ⟨hne, hterms⟩
  · exact ⟨'0', by simp, by decide⟩
  · cases hterms with
    | nil => exact absurd rfl hne
    | cons n u rest hn _ _ =>
      obtain ⟨c, hc, hd⟩ := isDecimalNumber_has_digit n hn
      exact ⟨c, by simp [hc], hd⟩

end time

/-- C18: `ParseTimeout` rejects a bad input: for every string that is not a valid
duration string, and so for every string that contains no digit, it returns a
non-nil error. -/
theorem ParseTimeout_rejects_invalid (fraction : Nat → Nat → Nat → Nat) (s : String)
    (h : ¬ time.validDurationString s ∨ ∀ c ∈ s.toList, time.isDigit c = false) :
    ∃ e, ec2.ParseTimeout fraction s = some (Except.error e) := by
  have hinvalid : ¬ time.validDurationString s := by
    rcases h with h | h
    · exact h
    · intro hv
      obtain ⟨c, hc, hd⟩ := time.validDurationString_has_digit s hv
      rw [h c hc] at hd
      exact Bool.noConfusion hd
  obtain ⟨r, hr, hok⟩ := time.ParseDuration_spec fraction s
  cases r with
  | error e => exact ⟨e, hr⟩
  | ok d => exact absurd (hok d rfl) hinvalid

/-- The instance of C18 named in the claim: "invalid" contains no digit and is
rejected. -/
theorem ParseTimeout_rejects_invalid_witness :
    (∀ c ∈ "invalid".toList, time.isDigit c = false) ∧
    ∃ e, ec2.ParseTimeout (fun f unit scale => f * unit / scale) "invalid" =
      some (Except.error e) :=
  ⟨by decide,
   ParseTimeout_rejects_invalid (fun f unit scale => f * unit / scale) "invalid"
     (Or.inr (by decide))⟩

/-! ## Package ec2: reading the state, no-op updates, validated timeouts -/

/-- C21: when the instance state is found, `resourceInstanceStateRead` leaves the
attributes `force`, `instance_start_timeout` and `instance_stop_timeout` at the
values they hold, sets `instance_id` to the resource ID and `state` to the name
of the observed state, leaves the ID unchanged and returns no diagnostics. -/
theorem resourceInstanceStateRead_found {σ Err : Type} (api : ec2.InstanceStateAPI σ Err)
    (d : ec2.ResourceData) (s s1 : σ) (observed : ec2.InstanceState)
    (hfound : api.findInstanceStateByID d.id s = (Except.ok observed, s1)) :
    (ec2.resourceInstanceStateRead api d s).1.1.force = d.force ∧
    (ec2.resourceInstanceStateRead api d s).1.1.instance_start_timeout
      = d.instance_start_timeout ∧
    (ec2.resourceInstanceStateRead api d s).1.1.instance_stop_timeout
      = d.instance_stop_timeout ∧
    (ec2.resourceInstanceStateRead api d s).1.1.instance_id = d.id ∧
    (ec2.resourceInstanceStateRead api d s).1.1.state = observed.Name ∧
    (ec2.resourceInstanceStateRead api d s).1.1.id = d.id ∧
    (ec2.resourceInstanceStateRead api d s).1.2 = [] ∧
    ec2.resourceInstanceStateRead api d s =
      (({ d with instance_id := d.id, state := observed.Name }, []), s1) := by
  have h : ec2.resourceInstanceStateRead api d s =
      (({ d with instance_id := d.id, state := observed.Name }, []), s1) := by
    unfold ec2.resourceInstanceStateRead
    rw [hfound]
  rw [h]
  exact ⟨rfl, rfl, rfl, rfl, rfl, rfl, rfl, rfl⟩

/-- An instance of C21: with timeouts "15m" and a stopped instance, the read keeps
"15m" and sets `instance_id` and `state`. -/
theorem resourceInstanceStateRead_found_witness :
    ec2.recordingAPI.findInstanceStateByID "i-0abc"
        [ec2.InstanceCall.stop "i-0abc" false (15 * time.Minute)]
      = (Except.ok { Name := "stopped" },
         [ec2.InstanceCall.stop "i-0abc" false (15 * time.Minute)]) ∧
    ec2.resourceInstanceStateRead ec2.recordingAPI
        { id := "i-0abc", isNewResource := true, force := false, instance_id := "",
          instance_start_timeout := "15m", instance_stop_timeout := "15m", state := "",
          timeoutCreate := 10 * time.Minute }
        [ec2.InstanceCall.stop "i-0abc" false (15 * time.Minute)] =
      (({ id := "i-0abc", isNewResource := true, force := false, instance_id := "i-0abc",
          instance_start_timeout := "15m", instance_stop_timeout := "15m",
          state := "stopped", timeoutCreate := 10 * time.Minute }, []),
       [ec2.InstanceCall.stop "i-0abc" false (15 * time.Minute)]) :=
  ⟨rfl,
   (resourceInstanceStateRead_found ec2.recordingAPI
     { id := "i-0abc", isNewResource := true, force := false, instance_id := "",
       instance_start_timeout := "15m", instance_stop_timeout := "15m", state := "",
       timeoutCreate := 10 * time.Minute }
     [ec2.InstanceCall.stop "i-0abc" false (15 * time.Minute)]
     [ec2.InstanceCall.stop "i-0abc" false (15 * time.Minute)]
     { Name := "stopped" } rfl).2.2.2.2.2.2.2⟩

/-- C27: `updateInstanceState` makes no stop or start call and returns nil
whenever `currentState` equals `configuredState`, and also whenever
`configuredState` is neither "stopped" nor "running": the error is nil and the
state of the world is the one before the call; with the recording calls, the
log is unchanged. -/
theorem updateInstanceState_no_call {σ Err : Type} (calls : ec2.InstanceCalls σ Err)
    (id currentState configuredState : String) (force : Bool)
    (stopTimeout startTimeout : time.Duration) (s : σ)
    (h : currentState = configuredState ∨
      (configuredState ≠ "stopped" ∧ configuredState ≠ "running")) :
    ec2.updateInstanceState calls id currentState configuredState force stopTimeout
        startTimeout s = (none, s) ∧
    ∀ (stopErr startErr : Option Err) (log : List ec2.InstanceCall),
      ec2.updateInstanceState (ec2.recordingCalls stopErr startErr) id currentState
          configuredState force stopTimeout startTimeout log = (none, log) := by
  have hgen : ∀ {τ : Type} (c : ec2.InstanceCalls τ Err) (w : τ),
      ec2.updateInstanceState c id currentState configuredState force stopTimeout
        startTimeout w = (none, w) := by
    intro τ c w
    unfold ec2.updateInstanceState
    rcases h with h | ⟨h1, h2⟩
    · simp [h]
    · by_cases heq : currentState = configuredState
      · simp [heq]
      · simp [heq, h1, h2]
  exact ⟨hgen calls s, fun stopErr startErr log => hgen _ log⟩

/-- Instances of C27: a stopped instance configured as "stopped", and a running
instance configured as "terminated", get no call, even with calls that would
fail. -/
theorem updateInstanceState_no_call_witness :
    ((("stopped" : String) = "stopped" ∨
        (("stopped" : String) ≠ "stopped" ∧ ("stopped" : String) ≠ "running")) ∧
      ec2.updateInstanceState (ec2.recordingCalls (some "boom") (some "boom"))
        "i-0abc" "stopped" "stopped" true (15 * time.Minute) (10 * time.Minute) [] =
        (none, [])) ∧
    ((("running" : String) = "terminated" ∨
        (("terminated" : String) ≠ "stopped" ∧ ("terminated" : String) ≠ "running")) ∧
      ec2.updateInstanceState (ec2.recordingCalls (some "boom") (some "boom"))
        "i-0abc" "running" "terminated" true (15 * time.Minute) (10 * time.Minute) [] =
        (none, [])) :=
  ⟨⟨Or.inl rfl,
    (updateInstanceState_no_call (ec2.recordingCalls (some "boom") (some "boom"))
      "i-0abc" "stopped" "stopped" true (15 * time.Minute) (10 * time.Minute) []
      (Or.inl rfl)).1⟩,
   ⟨Or.inr (by decide),
    (updateInstanceState_no_call (ec2.recordingCalls (some "boom") (some "boom"))
      "i-0abc" "running" "terminated" true (15 * time.Minute) (10 * time.Minute) []
      (Or.inr (by decide))).1⟩⟩

namespace time

theorem leadingIntLoop_value (ds rest : List Char)
    (hd : ∀ c ∈ ds, isDigit c = true)
    (hrest : ∀ c r, rest = c :: r → isDigit c = false) :
    ∀ (x v : Nat) (s1 : List Char), leadingIntLoop x (ds ++ rest) = some (v, s1) →
      v = ds.foldl (fun acc c => acc * 10 + (c.toNat - 48)) x ∧ s1 = rest := by
  induction ds with
  | nil =>
    intro x v s1 h
    cases rest with
    | nil =>
      simp only [List.nil_append, leadingIntLoop, Option.some.injEq, Prod.mk.injEq] at h
      exact ⟨h.1.symm, h.2.symm⟩
    | cons c r =>
      simp only [List.nil_append, leadingIntLoop, hrest c r rfl, Bool.not_false, if_true,
        Option.some.injEq, Prod.mk.injEq] at h
      exact ⟨h.1.symm, h.2.symm⟩
  | cons c ds ih =>
    intro x v s1 h
    have hc : isDigit c = true := hd c (List.mem_cons_self _ _)
    have hds : ∀ c ∈ ds, isDigit c = true := fun d hd' => hd d (List.mem_cons_of_mem _ hd')
    simp only [List.cons_append, leadingIntLoop, hc, Bool.not_true, Bool.false_eq_true,
      if_false] at h
    split at h
    · exact absurd h (by simp)
    · split at h
      · exact absurd h (by simp)
      · exact ih hds _ _ _ h

theorem parseTerms_digits_unit_cases (fraction : Nat → Nat → Nat → Nat) (orig : String)
    (ds : List Char) (u : Char) (unit : Nat)
    (hne : ds ≠ []) (hd : ∀ c ∈ ds, isDigit c = true)
    (hu : isDigit u = false) (hdot : u ≠ '.')
    (hunit : unitMap.lookup [u] = some unit) (hpos : 0 < unit) (fuel : Nat) :
    parseTerms fraction orig (fuel + 1) (ds ++ [u]) 0 =
        some (Except.error (ParseError.invalidDuration orig)) ∨
    parseTerms fraction orig (fuel + 1) (ds ++ [u]) 0 =
        some (Except.ok (decimalValue ds * unit)) := by
  obtain ⟨c0, ds', rfl⟩ := List.exists_cons_of_ne_nil hne
  have hc0 : isDigit c0 = true := hd c0 (List.mem_cons_self _ _)
  rw [List.cons_append, parseTerms]
  simp only [hc0, Bool.or_true, Bool.not_true, Bool.false_eq_true, if_false]
  cases hli : leadingInt (c0 :: (ds' ++ [u])) with
  | none => exact Or.inl rfl
  | some p =>
    obtain ⟨v, s1⟩ := p
    obtain ⟨hv, hs1⟩ := leadingIntLoop_value (c0 :: ds') [u] hd
      (fun c r h => by cases h; exact hu) 0 v s1 hli
    subst hs1
    have hvN : v = decimalValue (c0 :: ds') := hv
    simp only [fractionPart, hdot, if_false, splitUnit_single u hu hdot, hunit]
    by_cases hover : v > 2 ^ 63 / unit
    · left
      rw [if_pos hover]
      simp
    · right
      have hle : v * unit ≤ 2 ^ 63 := by
        have : v ≤ 2 ^ 63 / unit := by omega
        exact (Nat.le_div_iff_mul_le hpos).1 this
      have h63 : (2 : Nat) ^ 63 = 9223372036854775808 := by norm_num
      rw [h63] at hle hover
      have hm : v * unit % 18446744073709551616 = v * unit := Nat.mod_eq_of_lt (by omega)
      have hover' : ¬ 9223372036854775808 / unit < v := hover
      have hd1 : ¬ 9223372036854775808 < v * unit := by omega
      rw [hvN] at hm hover' hd1
      simp [hm, hover', hd1, parseTerms, hvN]

theorem ParseDuration_digits_unit_overflow (fraction : Nat → Nat → Nat → Nat)
    (ds : List Char) (u : Char) (unit : Nat)
    (hne : ds ≠ []) (hd : ∀ c ∈ ds, isDigit c = true)
    (hu : isDigit u = false) (hdot : u ≠ '.')
    (hunit : unitMap.lookup [u] = some unit) (hpos : 0 < unit)
    (hover : decimalValue ds * unit > 2 ^ 63 - 1) :
    ParseDuration fraction (String.mk (ds ++ [u])) =
      some (Except.error (ParseError.invalidDuration (String.mk (ds ++ [u])))) := by
  have hterms := parseTerms_digits_unit_cases fraction (String.mk (ds ++ [u])) ds u unit hne hd
    hu hdot hunit hpos ds.length
  obtain ⟨c0, ds', rfl⟩ := List.exists_cons_of_ne_nil hne
  have hc0 : isDigit c0 = true := hd c0 (List.mem_cons_self _ _)
  have hminus : c0 ≠ '-' := ne_of_isDigit c0 '-' hc0 (by decide)
  have hplus : c0 ≠ '+' := ne_of_isDigit c0 '+' hc0 (by decide)
  have h63 : (2 : Nat) ^ 63 = 9223372036854775808 := by norm_num
  rw [h63] at hover
  have hlen : (c0 :: ds' ++ [u]).length = (c0 :: ds').length + 1 := by simp
  have hd' : decimalValue (c0 :: ds') * unit > 9223372036854775807 := by omega
  unfold ParseDuration
  simp only [String.toList, List.cons_append, hminus, hplus, if_false]
  have hzero : ¬ (c0 :: (ds' ++ [u]) = ['0']) := by
    intro h
    have := congrArg List.length h
    simp at this
  simp only [hzero, if_false, List.cons_ne_nil]
  rw [List.cons_append] at hterms hlen
  rw [hlen]
  rcases hterms with h | h
  · rw [h]
  · rw [h]
    simp [hd']

end time

theorem matchesTimeoutPattern_iff (ds : List Char) (u : Char) :
    ec2.matchesTimeoutPattern (String.mk (ds ++ [u])) = true ↔
      (u = 's' ∨ u = 'm' ∨ u = 'h') ∧ ds ≠ [] ∧ ∀ c ∈ ds, time.isDigit c = true := by
  unfold ec2.matchesTimeoutPattern
  simp only [String.toList, List.reverse_append, List.reverse_cons, List.reverse_nil,
    List.nil_append, List.singleton_append]
  simp [List.isEmpty_iff]
  tauto

/-- C24, as the code has it: a string accepted by the schema validator of the
timeouts is a non-empty run of digits `ds` followed by a unit `u` out of `s`,
`m`, `h`. `parseTimeout` parses it without error exactly when the number times
the unit fits a signed 64-bit count of nanoseconds; for a larger number it
returns the error "invalid duration". With such a string as
`instance_stop_timeout`, `resourceInstanceStateCreate`, once the instance is
ready, and `resourceInstanceStateUpdate`, once the instance is ready and the
state has changed, return the diagnostic "invalid instance_stop_timeout"; with
it as `instance_start_timeout`, beside a stop timeout that parses, they return
the diagnostic "invalid instance_start_timeout"; in each case the resource data
is unchanged and EC2 is not called again. When the state has not changed,
`resourceInstanceStateUpdate` parses no timeout and goes on to read. -/
theorem parseTimeout_of_validated (fraction : Nat → Nat → Nat → Nat) (ds : List Char)
    (u : Char) (hm : ec2.matchesTimeoutPattern (String.mk (ds ++ [u])) = true) :
    ∃ unit : Nat, time.unitMap.lookup [u] = some unit ∧
      (time.decimalValue ds * unit ≤ 2 ^ 63 - 1 →
        ec2.parseTimeout fraction (String.mk (ds ++ [u])) =
          some (Except.ok ((time.decimalValue ds * unit : Nat) : Int))) ∧
      (time.decimalValue ds * unit > 2 ^ 63 - 1 →
        ec2.parseTimeout fraction (String.mk (ds ++ [u])) =
          some (Except.error (time.ParseError.invalidDuration (String.mk (ds ++ [u])))) ∧
        (∀ {σ Err : Type} (api : ec2.InstanceStateAPI σ Err) (d : ec2.ResourceData)
          (s s1 : σ) (inst : ec2.Instance),
          api.waitInstanceReady d.instance_id d.timeoutCreate s = (Except.ok inst, s1) →
          d.instance_stop_timeout = String.mk (ds ++ [u]) →
          ec2.resourceInstanceStateCreate fraction api d s =
            some ((d, [ec2.Diagnostic.invalidStopTimeout
              (time.ParseError.invalidDuration (String.mk (ds ++ [u])))]), s1)) ∧
        (∀ {σ Err : Type} (api : ec2.InstanceStateAPI σ Err) (d : ec2.ResourceData)
          (s s1 : σ) (inst : ec2.Instance) (stopTimeout : time.Duration),
          api.waitInstanceReady d.instance_id d.timeoutCreate s = (Except.ok inst, s1) →
          ec2.parseTimeout fraction d.instance_stop_timeout = some (Except.ok stopTimeout) →
          d.instance_start_timeout = String.mk (ds ++ [u]) →
          ec2.resourceInstanceStateCreate fraction api d s =
            some ((d, [ec2.Diagnostic.invalidStartTimeout
              (time.ParseError.invalidDuration (String.mk (ds ++ [u])))]), s1)) ∧
        (∀ {σ Err : Type} (api : ec2.InstanceStateAPI σ Err) (d : ec2.ResourceData)
          (oldState : String) (timeoutUpdate : time.Duration)
          (s s1 : σ) (inst : ec2.Instance),
          api.waitInstanceReady d.id timeoutUpdate s = (Except.ok inst, s1) →
          oldState ≠ d.state →
          d.instance_stop_timeout = String.mk (ds ++ [u]) →
          ec2.resourceInstanceStateUpdate fraction api d oldState timeoutUpdate s =
            some ((d, [ec2.Diagnostic.invalidStopTimeout
              (time.ParseError.invalidDuration (String.mk (ds ++ [u])))]), s1)) ∧
        (∀ {σ Err : Type} (api : ec2.InstanceStateAPI σ Err) (d : ec2.ResourceData)
          (oldState : String) (timeoutUpdate : time.Duration)
          (s s1 : σ) (inst : ec2.Instance) (stopTimeout : time.Duration),
          api.waitInstanceReady d.id timeoutUpdate s = (Except.ok inst, s1) →
          oldState ≠ d.state →
          ec2.parseTimeout fraction d.instance_stop_timeout = some (Except.ok stopTimeout) →
          d.instance_start_timeout = String.mk (ds ++ [u]) →
          ec2.resourceInstanceStateUpdate fraction api d oldState timeoutUpdate s =
            some ((d, [ec2.Diagnostic.invalidStartTimeout
              (time.ParseError.invalidDuration (String.mk (ds ++ [u])))]), s1))) ∧
      (∀ {σ Err : Type} (api : ec2.InstanceStateAPI σ Err) (d : ec2.ResourceData)
        (timeoutUpdate : time.Duration) (s s1 : σ) (inst : ec2.Instance),
        api.waitInstanceReady d.id timeoutUpdate s = (Except.ok inst, s1) →
        ec2.resourceInstanceStateUpdate fraction api d d.state timeoutUpdate s =
          some (ec2.resourceInstanceStateRead api d s1)) := by
  obtain ⟨hu, hne, hd⟩ := (matchesTimeoutPattern_iff ds u).1 hm
  have hsame : ∀ {σ Err : Type} (api : ec2.InstanceStateAPI σ Err) (d : ec2.ResourceData)
      (timeoutUpdate : time.Duration) (s s1 : σ) (inst : ec2.Instance),
      api.waitInstanceReady d.id timeoutUpdate s = (Except.ok inst, s1) →
      ec2.resourceInstanceStateUpdate fraction api d d.state timeoutUpdate s =
        some (ec2.resourceInstanceStateRead api d s1) := by
    intro σ Err api d timeoutUpdate s s1 inst hwait
    unfold ec2.resourceInstanceStateUpdate
    simp only [hwait, ne_eq, not_true_eq_false, if_false, List.nil_append]
  have key : ∀ unit : Nat, time.isDigit u = false → u ≠ '.' →
      time.unitMap.lookup [u] = some unit → 10 ≤ unit →
      (time.decimalValue ds * unit ≤ 2 ^ 63 - 1 →
        ec2.parseTimeout fraction (String.mk (ds ++ [u])) =
          some (Except.ok ((time.decimalValue ds * unit : Nat) : Int))) ∧
      (time.decimalValue ds * unit > 2 ^ 63 - 1 →
        ec2.parseTimeout fraction (String.mk (ds ++ [u])) =
          some (Except.error (time.ParseError.invalidDuration (String.mk (ds ++ [u])))) ∧
        (∀ {σ Err : Type} (api : ec2.InstanceStateAPI σ Err) (d : ec2.ResourceData)
          (s s1 : σ) (inst : ec2.Instance),
          api.waitInstanceReady d.instance_id d.timeoutCreate s = (Except.ok inst, s1) →
          d.instance_stop_timeout = String.mk (ds ++ [u]) →
          ec2.resourceInstanceStateCreate fraction api d s =
            some ((d, [ec2.Diagnostic.invalidStopTimeout
              (time.ParseError.invalidDuration (String.mk (ds ++ [u])))]), s1)) ∧
        (∀ {σ Err : Type} (api : ec2.InstanceStateAPI σ Err) (d : ec2.ResourceData)
          (s s1 : σ) (inst : ec2.Instance) (stopTimeout : time.Duration),
          api.waitInstanceReady d.instance_id d.timeoutCreate s = (Except.ok inst, s1) →
          ec2.parseTimeout fraction d.instance_stop_timeout = some (Except.ok stopTimeout) →
          d.instance_start_timeout = String.mk (ds ++ [u]) →
          ec2.resourceInstanceStateCreate fraction api d s =
            some ((d, [ec2.Diagnostic.invalidStartTimeout
              (time.ParseError.invalidDuration (String.mk (ds ++ [u])))]), s1)) ∧
        (∀ {σ Err : Type} (api : ec2.InstanceStateAPI σ Err) (d : ec2.ResourceData)
          (oldState : String) (timeoutUpdate : time.Duration)
          (s s1 : σ) (inst : ec2.Instance),
          api.waitInstanceReady d.id timeoutUpdate s = (Except.ok inst, s1) →
          oldState ≠ d.state →
          d.instance_stop_timeout = String.mk (ds ++ [u]) →
          ec2.resourceInstanceStateUpdate fraction api d oldState timeoutUpdate s =
            some ((d, [ec2.Diagnostic.invalidStopTimeout
              (time.ParseError.invalidDuration (String.mk (ds ++ [u])))]), s1)) ∧
        (∀ {σ Err : Type} (api : ec2.InstanceStateAPI σ Err) (d : ec2.ResourceData)
          (oldState : String) (timeoutUpdate : time.Duration)
          (s s1 : σ) (inst : ec2.Instance) (stopTimeout : time.Duration),
          api.waitInstanceReady d.id timeoutUpdate s = (Except.ok inst, s1) →
          oldState ≠ d.state →
          ec2.parseTimeout fraction d.instance_stop_timeout = some (Except.ok stopTimeout) →
          d.instance_start_timeout = String.mk (ds ++ [u]) →
          ec2.resourceInstanceStateUpdate fraction api d oldState timeoutUpdate s =
            some ((d, [ec2.Diagnostic.invalidStartTimeout
              (time.ParseError.invalidDuration (String.mk (ds ++ [u])))]), s1))) := by
    intro unit hdig hdot hunit h10
    have hover : time.decimalValue ds * unit > 2 ^ 63 - 1 →
        ec2.parseTimeout fraction (String.mk (ds ++ [u])) =
          some (Except.error (time.ParseError.invalidDuration (String.mk (ds ++ [u])))) := by
      intro hb
      unfold ec2.parseTimeout ec2.ParseTimeout
      exact time.ParseDuration_digits_unit_overflow fraction ds u unit hne hd hdig hdot hunit
        (by omega) hb
    refine ⟨?_, ?_⟩
    · intro hb
      unfold ec2.parseTimeout ec2.ParseTimeout
      exact time.ParseDuration_digits_unit fraction ds u unit hne hd hdig hdot hunit h10 hb
    · intro hb
      refine ⟨hover hb, ?_, ?_, ?_, ?_⟩
      · intro σ Err api d s s1 inst hwait hstop
        unfold ec2.resourceInstanceStateCreate
        simp only [hwait, hstop, hover hb, List.nil_append]
      · intro σ Err api d s s1 inst stopTimeout hwait hstop hstart
        unfold ec2.resourceInstanceStateCreate
        simp only [hwait, hstop, hstart, hover hb, List.nil_append]
      · intro σ Err api d oldState timeoutUpdate s s1 inst hwait hchange hstop
        unfold ec2.resourceInstanceStateUpdate
        simp only [hwait, ne_eq, hchange, not_false_eq_true, if_true, hstop, hover hb,
          List.nil_append]
      · intro σ Err api d oldState timeoutUpdate s s1 inst stopTimeout hwait hchange hstop hstart
        unfold ec2.resourceInstanceStateUpdate
        simp only [hwait, ne_eq, hchange, not_false_eq_true, if_true, hstop, hstart,
          hover hb, List.nil_append]
  rcases hu with rfl | rfl | rfl
  · exact ⟨1000000000, by decide,
      (key _ (by decide) (by decide) (by decide) (by decide)).1,
      (key _ (by decide) (by decide) (by decide) (by decide)).2, hsame⟩
  · exact ⟨60000000000, by decide,
      (key _ (by decide) (by decide) (by decide) (by decide)).1,
      (key _ (by decide) (by decide) (by decide) (by decide)).2, hsame⟩
  · exact ⟨3600000000000, by decide,
      (key _ (by decide) (by decide) (by decide) (by decide)).1,
      (key _ (by decide) (by decide) (by decide) (by decide)).2, hsame⟩

/-- An instance of the amended C24: "15m" is accepted by the validator and parses
to 15 minutes. -/
theorem parseTimeout_of_validated_witness :
    ec2.matchesTimeoutPattern "15m" = true ∧
    ∃ unit : Nat, time.unitMap.lookup ['m'] = some unit ∧
      (time.decimalValue ['1', '5'] * unit ≤ 2 ^ 63 - 1 →
        ec2.parseTimeout (fun f unit scale => f * unit / scale) "15m" =
          some (Except.ok ((time.decimalValue ['1', '5'] * unit : Nat) : Int))) :=
  ⟨by decide,
   (parseTimeout_of_validated (fun f unit scale => f * unit / scale) ['1', '5'] 'm'
     (by decide)).imp (fun _ h => ⟨h.1, h.2.1⟩)⟩

/-- C24 as stated fails: "99999999999999999999s" is accepted by the schema
validator, `parseTimeout` rejects it (the number overflows), and both handlers
take the branches the claim calls unreachable: creating the resource with it as
`instance_stop_timeout` gives "invalid instance_stop_timeout", creating it with
it as `instance_start_timeout` beside the stop timeout "10m" gives "invalid
instance_start_timeout", and so does updating the resource from "stopped" to
"running" with the one or the other. -/
theorem validated_timeout_can_fail_to_parse :
    ec2.matchesTimeoutPattern "99999999999999999999s" = true ∧
    ec2.matchesTimeoutPattern "10m" = true ∧
    ec2.parseTimeout (fun f unit scale => f * unit / scale) "99999999999999999999s" =
      some (Except.error (time.ParseError.invalidDuration "99999999999999999999s")) ∧
    ec2.resourceInstanceStateCreate (fun f unit scale => f * unit / scale) ec2.recordingAPI
        { id := "", isNewResource := true, force := false, instance_id := "i-0abc",
          instance_start_timeout := "10m",
          instance_stop_timeout := "99999999999999999999s", state := "stopped",
          timeoutCreate := 10 * time.Minute } [] =
      some (({ id := "", isNewResource := true, force := false, instance_id := "i-0abc",
               instance_start_timeout := "10m",
               instance_stop_timeout := "99999999999999999999s", state := "stopped",
               timeoutCreate := 10 * time.Minute },
             [ec2.Diagnostic.invalidStopTimeout
               (time.ParseError.invalidDuration "99999999999999999999s")]), []) ∧
    ec2.resourceInstanceStateCreate (fun f unit scale => f * unit / scale) ec2.recordingAPI
        { id := "", isNewResource := true, force := false, instance_id := "i-0abc",
          instance_start_timeout := "99999999999999999999s",
          instance_stop_timeout := "10m", state := "stopped",
          timeoutCreate := 10 * time.Minute } [] =
      some (({ id := "", isNewResource := true, force := false, instance_id := "i-0abc",
               instance_start_timeout := "99999999999999999999s",
               instance_stop_timeout := "10m", state := "stopped",
               timeoutCreate := 10 * time.Minute },
             [ec2.Diagnostic.invalidStartTimeout
               (time.ParseError.invalidDuration "99999999999999999999s")]), []) ∧
    ec2.resourceInstanceStateUpdate (fun f unit scale => f * unit / scale) ec2.recordingAPI
        { id := "i-0abc", isNewResource := false, force := false, instance_id := "i-0abc",
          instance_start_timeout := "10m",
          instance_stop_timeout := "99999999999999999999s", state := "running",
          timeoutCreate := 10 * time.Minute } "stopped" (10 * time.Minute) [] =
      some (({ id := "i-0abc", isNewResource := false, force := false,
               instance_id := "i-0abc", instance_start_timeout := "10m",
               instance_stop_timeout := "99999999999999999999s", state := "running",
               timeoutCreate := 10 * time.Minute },
             [ec2.Diagnostic.invalidStopTimeout
               (time.ParseError.invalidDuration "99999999999999999999s")]), []) ∧
    ec2.resourceInstanceStateUpdate (fun f unit scale => f * unit / scale) ec2.recordingAPI
        { id := "i-0abc", isNewResource := false, force := false, instance_id := "i-0abc",
          instance_start_timeout := "99999999999999999999s",
          instance_stop_timeout := "10m", state := "running",
          timeoutCreate := 10 * time.Minute } "stopped" (10 * time.Minute) [] =
      some (({ id := "i-0abc", isNewResource := false, force := false,
               instance_id := "i-0abc",
               instance_start_timeout := "99999999999999999999s",
               instance_stop_timeout := "10m", state := "running",
               timeoutCreate := 10 * time.Minute },
             [ec2.Diagnostic.invalidStartTimeout
               (time.ParseError.invalidDuration "99999999999999999999s")]), []) := by
  refine ⟨by decide, by decide, rfl, rfl, rfl, rfl, rfl⟩

/-! ## Package elasticbeanstalk: runs of the pagers -/

namespace elasticbeanstalk

theorem pages_scripted_stop {Inp Out Err : Type} (nextToken : Out → Option String)
    (setNextToken : Inp → Option String → Inp)
    (hset : ∀ i a b, setNextToken (setNextToken i a) b = setNextToken i b)
    (fallback : Except Err Out) (final : Out) (vfinal : Bool)
    (rest : List (Except Err Out)) (vrest : List Bool)
    (hfinal : aws.ToString (nextToken final) = "" ∨ vfinal = false) :
    ∀ (init : List Out), (∀ o ∈ init, aws.ToString (nextToken o) ≠ "") →
    ∀ (fuel : Nat) (input : Inp) (R : List Inp) (C : List (Out × Bool)),
      init.length < fuel →
      pages nextToken setNextToken (scriptedCall fallback) scriptedFn fuel input
        { responses := init.map Except.ok ++ Except.ok final :: rest,
          verdicts := List.replicate init.length true ++ vfinal :: vrest,
          requests := R, calls := C } =
      some (none,
        init.foldl (fun i o => setNextToken i (nextToken o)) input,
        { responses := rest, verdicts := vrest,
          requests := R ++ input :: init.map (fun o => setNextToken input (nextToken o)),
          calls := C ++ (init ++ [final]).map
            (fun o => (o, decide (aws.ToString (nextToken o) = ""))) }) := by
  intro init
  induction init with
  | nil =>
    intro _ fuel input R C hfuel
    obtain ⟨fuel', rfl⟩ : ∃ k, fuel = k + 1 := ⟨fuel - 1, by simp at hfuel; omega⟩
    have hcond : (!vfinal || decide (aws.ToString (nextToken final) = "")) = true := by
      rcases hfinal with h | h
      · simp [h]
      · simp [h]
    simp [pages, scriptedCall, scriptedFn, hcond]
  | cons o init ih =>
    intro hinit fuel input R C hfuel
    obtain ⟨fuel', rfl⟩ : ∃ k, fuel = k + 1 := ⟨fuel - 1, by simp at hfuel; omega⟩
    have ho : aws.ToString (nextToken o) ≠ "" := hinit o (List.mem_cons_self _ _)
    have hinit' : ∀ x ∈ init, aws.ToString (nextToken x) ≠ "" :=
      fun x hx => hinit x (List.mem_cons_of_mem _ hx)
    have hfuel' : init.length < fuel' := by simp at hfuel; omega
    have hstep := ih hinit' fuel' (setNextToken input (nextToken o)) (R ++ [input])
      (C ++ [(o, false)]) hfuel'
    simp only [hset] at hstep
    simp only [pages, scriptedCall, scriptedFn, List.map_cons, List.cons_append,
      List.length_cons, List.replicate_succ, ho, decide_False, Bool.not_true, Bool.or_false,
      Bool.false_eq_true, if_false]
    rw [hstep]
    simp [ho]

theorem pages_scripted_error {Inp Out Err : Type} (nextToken : Out → Option String)
    (setNextToken : Inp → Option String → Inp)
    (hset : ∀ i a b, setNextToken (setNextToken i a) b = setNextToken i b)
    (fallback : Except Err Out) (err : Err)
    (rest : List (Except Err Out)) (vrest : List Bool) :
    ∀ (init : List Out), (∀ o ∈ init, aws.ToString (nextToken o) ≠ "") →
    ∀ (fuel : Nat) (input : Inp) (R : List Inp) (C : List (Out × Bool)),
      init.length < fuel →
      pages nextToken setNextToken (scriptedCall fallback) scriptedFn fuel input
        { responses := init.map Except.ok ++ Except.error err :: rest,
          verdicts := List.replicate init.length true ++ vrest,
          requests := R, calls := C } =
      some (some err,
        init.foldl (fun i o => setNextToken i (nextToken o)) input,
        { responses := rest, verdicts := vrest,
          requests := R ++ input :: init.map (fun o => setNextToken input (nextToken o)),
          calls := C ++ init.map (fun o => (o, false)) }) := by
  intro init
  induction init with
  | nil =>
    intro _ fuel input R C hfuel
    obtain ⟨fuel', rfl⟩ : ∃ k, fuel = k + 1 := ⟨fuel - 1, by simp at hfuel; omega⟩
    simp [pages, scriptedCall]
  | cons o init ih =>
    intro hinit fuel input R C hfuel
    obtain ⟨fuel', rfl⟩ : ∃ k, fuel = k + 1 := ⟨fuel - 1, by simp at hfuel; omega⟩
    have ho : aws.ToString (nextToken o) ≠ "" := hinit o (List.mem_cons_self _ _)
    have hinit' : ∀ x ∈ init, aws.ToString (nextToken x) ≠ "" :=
      fun x hx => hinit x (List.mem_cons_of_mem _ hx)
    have hfuel' : init.length < fuel' := by simp at hfuel; omega
    have hstep := ih hinit' fuel' (setNextToken input (nextToken o)) (R ++ [input])
      (C ++ [(o, false)]) hfuel'
    simp only [hset] at hstep
    simp only [pages, scriptedCall, scriptedFn, List.map_cons, List.cons_append,
      List.length_cons, List.replicate_succ, ho, decide_False, Bool.not_true, Bool.or_false,
      Bool.false_eq_true, if_false]
    rw [hstep]
    simp

end elasticbeanstalk

/-- C25: `describeApplicationVersionsPages` and, identically,
`describeEnvironmentsPages`, run against an API that answers with the pages
`init` and then `final`, where every page of `init` has a non-empty next token
and the callback answers `true` on it, and `final` has no next token or the
callback answers `false` on it: the callback is called exactly once for each
of these pages, in the order fetched, with `lastPage` true exactly when the
token of the page is nil or empty; the pager stops after `final` and returns
nil, with no further request; the first request is the input and every later
request is the input with the token of the previous page. -/
theorem pagers_stop_after_final_page {Req Page Err : Type} :
    (∀ (fallback : Except Err (elasticbeanstalk.DescribeApplicationVersionsOutput Page))
      (init : List (elasticbeanstalk.DescribeApplicationVersionsOutput Page))
      (final : elasticbeanstalk.DescribeApplicationVersionsOutput Page) (vfinal : Bool)
      (rest : List (Except Err (elasticbeanstalk.DescribeApplicationVersionsOutput Page)))
      (vrest : List Bool) (input : elasticbeanstalk.DescribeApplicationVersionsInput Req)
      (fuel : Nat),
      (∀ o ∈ init, aws.ToString o.NextToken ≠ "") →
      (aws.ToString final.NextToken = "" ∨ vfinal = false) →
      init.length < fuel →
      elasticbeanstalk.describeApplicationVersionsPages
        (elasticbeanstalk.scriptedCall fallback) elasticbeanstalk.scriptedFn fuel input
        { responses := init.map Except.ok ++ Except.ok final :: rest,
          verdicts := List.replicate init.length true ++ vfinal :: vrest,
          requests := [], calls := [] } =
      some (none,
        init.foldl (fun i o => { i with NextToken := o.NextToken }) input,
        { responses := rest, verdicts := vrest,
          requests := input :: init.map (fun o => { input with NextToken := o.NextToken }),
          calls := (init ++ [final]).map
            (fun o => (o, decide (aws.ToString o.NextToken = ""))) })) ∧
    (∀ (fallback : Except Err (elasticbeanstalk.DescribeEnvironmentsOutput Page))
      (init : List (elasticbeanstalk.DescribeEnvironmentsOutput Page))
      (final : elasticbeanstalk.DescribeEnvironmentsOutput Page) (vfinal : Bool)
      (rest : List (Except Err (elasticbeanstalk.DescribeEnvironmentsOutput Page)))
      (vrest : List Bool) (input : elasticbeanstalk.DescribeEnvironmentsInput Req)
      (fuel : Nat),
      (∀ o ∈ init, aws.ToString o.NextToken ≠ "") →
      (aws.ToString final.NextToken = "" ∨ vfinal = false) →
      init.length < fuel →
      elasticbeanstalk.describeEnvironmentsPages
        (elasticbeanstalk.scriptedCall fallback) elasticbeanstalk.scriptedFn fuel input
        { responses := init.map Except.ok ++ Except.ok final :: rest,
          verdicts := List.replicate init.length true ++ vfinal :: vrest,
          requests := [], calls := [] } =
      some (none,
        init.foldl (fun i o => { i with NextToken := o.NextToken }) input,
        { responses := rest, verdicts := vrest,
          requests := input :: init.map (fun o => { input with NextToken := o.NextToken }),
          calls := (init ++ [final]).map
            (fun o => (o, decide (aws.ToString o.NextToken = ""))) })) := by
  constructor
  · intro fallback init final vfinal rest vrest input fuel hinit hfinal hfuel
    unfold elasticbeanstalk.describeApplicationVersionsPages
    have h := elasticbeanstalk.pages_scripted_stop
      (fun output : elasticbeanstalk.DescribeApplicationVersionsOutput Page => output.NextToken)
      (fun (inp : elasticbeanstalk.DescribeApplicationVersionsInput Req) token => { inp with NextToken := token })
      (fun _ _ _ => rfl) fallback final vfinal rest
      vrest hfinal init hinit fuel input [] [] hfuel
    simpa using h
  · intro fallback init final vfinal rest vrest input fuel hinit hfinal hfuel
    unfold elasticbeanstalk.describeEnvironmentsPages
    have h := elasticbeanstalk.pages_scripted_stop
      (fun output : elasticbeanstalk.DescribeEnvironmentsOutput Page => output.NextToken)
      (fun (inp : elasticbeanstalk.DescribeEnvironmentsInput Req) token => { inp with NextToken := token })
      (fun _ _ _ => rfl) fallback final vfinal rest
      vrest hfinal init hinit fuel input [] [] hfuel
    simpa using h

/-- An instance of C25: two pages of application versions, the first with the
token "t1", the second without a token; the callback sees both, the second as
the last page, and the second request carries "t1". -/
theorem pagers_stop_after_final_page_witness :
    ((∀ o ∈ [({ NextToken := some "t1", ApplicationVersions := ["v1"] } :
          elasticbeanstalk.DescribeApplicationVersionsOutput (List String))],
        aws.ToString o.NextToken ≠ "") ∧
      (aws.ToString ({ NextToken := none, ApplicationVersions := ["v2"] } :
          elasticbeanstalk.DescribeApplicationVersionsOutput (List String)).NextToken = "" ∨
        true = false) ∧
      [({ NextToken := some "t1", ApplicationVersions := ["v1"] } :
          elasticbeanstalk.DescribeApplicationVersionsOutput (List String))].length < 5) ∧
    elasticbeanstalk.describeApplicationVersionsPages
      (elasticbeanstalk.scriptedCall
        (Except.error "no more answers" :
          Except String (elasticbeanstalk.DescribeApplicationVersionsOutput (List String))))
      elasticbeanstalk.scriptedFn 5
      ({ NextToken := none, request := "app" } :
        elasticbeanstalk.DescribeApplicationVersionsInput String)
      { responses := [Except.ok { NextToken := some "t1", ApplicationVersions := ["v1"] },
                      Except.ok { NextToken := none, ApplicationVersions := ["v2"] }],
        verdicts := [true, true], requests := [], calls := [] } =
    some (none, { NextToken := some "t1", request := "app" },
      { responses := [], verdicts := [],
        requests := [{ NextToken := none, request := "app" },
                     { NextToken := some "t1", request := "app" }],
        calls := [({ NextToken := some "t1", ApplicationVersions := ["v1"] }, false),
                  ({ NextToken := none, ApplicationVersions := ["v2"] }, true)] }) :=
  ⟨⟨by decide, Or.inl rfl, by decide⟩,
   (pagers_stop_after_final_page.1
     (Except.error "no more answers")
     [{ NextToken := some "t1", ApplicationVersions := ["v1"] }]
     { NextToken := none, ApplicationVersions := ["v2"] } true [] []
     { NextToken := none, request := "app" } 5 (by decide) (Or.inl rfl) (by decide))⟩

/-- C26: if the k-th API call of `describeApplicationVersionsPages` or
`describeEnvironmentsPages` fails, the k - 1 pages `init` before it having a
non-empty next token and the callback answering `true` on them, the pager
returns that error unchanged, makes no further API call (k requests in all), and
the callback has been called exactly k - 1 times, once for each page of `init`
and never for the failed call. -/
theorem pagers_return_api_error {Req Page Err : Type} :
    (∀ (fallback : Except Err (elasticbeanstalk.DescribeApplicationVersionsOutput Page))
      (init : List (elasticbeanstalk.DescribeApplicationVersionsOutput Page)) (err : Err)
      (rest : List (Except Err (elasticbeanstalk.DescribeApplicationVersionsOutput Page)))
      (vrest : List Bool) (input : elasticbeanstalk.DescribeApplicationVersionsInput Req)
      (fuel : Nat),
      (∀ o ∈ init, aws.ToString o.NextToken ≠ "") →
      init.length < fuel →
      elasticbeanstalk.describeApplicationVersionsPages
        (elasticbeanstalk.scriptedCall fallback) elasticbeanstalk.scriptedFn fuel input
        { responses := init.map Except.ok ++ Except.error err :: rest,
          verdicts := List.replicate init.length true ++ vrest,
          requests := [], calls := [] } =
      some (some err,
        init.foldl (fun i o => { i with NextToken := o.NextToken }) input,
        { responses := rest, verdicts := vrest,
          requests := input :: init.map (fun o => { input with NextToken := o.NextToken }),
          calls := init.map (fun o => (o, false)) })) ∧
    (∀ (fallback : Except Err (elasticbeanstalk.DescribeEnvironmentsOutput Page))
      (init : List (elasticbeanstalk.DescribeEnvironmentsOutput Page)) (err : Err)
      (rest : List (Except Err (elasticbeanstalk.DescribeEnvironmentsOutput Page)))
      (vrest : List Bool) (input : elasticbeanstalk.DescribeEnvironmentsInput Req)
      (fuel : Nat),
      (∀ o ∈ init, aws.ToString o.NextToken ≠ "") →
      init.length < fuel →
      elasticbeanstalk.describeEnvironmentsPages
        (elasticbeanstalk.scriptedCall fallback) elasticbeanstalk.scriptedFn fuel input
        { responses := init.map Except.ok ++ Except.error err :: rest,
          verdicts := List.replicate init.length true ++ vrest,
          requests := [], calls := [] } =
      some (some err,
        init.foldl (fun i o => { i with NextToken := o.NextToken }) input,
        { responses := rest, verdicts := vrest,
          requests := input :: init.map (fun o => { input with NextToken := o.NextToken }),
          calls := init.map (fun o => (o, false)) })) := by
  constructor
  · intro fallback init err rest vrest input fuel hinit hfuel
    unfold elasticbeanstalk.describeApplicationVersionsPages
    have h := elasticbeanstalk.pages_scripted_error
      (fun output : elasticbeanstalk.DescribeApplicationVersionsOutput Page => output.NextToken)
      (fun (inp : elasticbeanstalk.DescribeApplicationVersionsInput Req) token => { inp with NextToken := token })
      (fun _ _ _ => rfl) fallback err rest vrest
      init hinit fuel input [] [] hfuel
    simpa using h
  · intro fallback init err rest vrest input fuel hinit hfuel
    unfold elasticbeanstalk.describeEnvironmentsPages
    have h := elasticbeanstalk.pages_scripted_error
      (fun output : elasticbeanstalk.DescribeEnvironmentsOutput Page => output.NextToken)
      (fun (inp : elasticbeanstalk.DescribeEnvironmentsInput Req) token => { inp with NextToken := token })
      (fun _ _ _ => rfl) fallback err rest vrest
      init hinit fuel input [] [] hfuel
    simpa using h

/-- An instance of C26: the second call for environments fails with "throttled";
the error is returned, the callback has seen the first page only, and the
third scripted answer is never asked for. -/
theorem pagers_return_api_error_witness :
    ((∀ o ∈ [({ NextToken := some "t1", Environments := ["e1"] } :
          elasticbeanstalk.DescribeEnvironmentsOutput (List String))],
        aws.ToString o.NextToken ≠ "") ∧
      [({ NextToken := some "t1", Environments := ["e1"] } :
          elasticbeanstalk.DescribeEnvironmentsOutput (List String))].length < 5) ∧
    elasticbeanstalk.describeEnvironmentsPages
      (elasticbeanstalk.scriptedCall
        (Except.error "no more answers" :
          Except String (elasticbeanstalk.DescribeEnvironmentsOutput (List String))))
      elasticbeanstalk.scriptedFn 5
      ({ NextToken := none, request := "app" } :
        elasticbeanstalk.DescribeEnvironmentsInput String)
      { responses := [Except.ok { NextToken := some "t1", Environments := ["e1"] },
                      Except.error "throttled",
                      Except.ok { NextToken := none, Environments := ["e2"] }],
        verdicts := [true, true], requests := [], calls := [] } =
    some (some "throttled", { NextToken := some "t1", request := "app" },
      { responses := [Except.ok { NextToken := none, Environments := ["e2"] }],
        verdicts := [true],
        requests := [{ NextToken := none, request := "app" },
                     { NextToken := some "t1", request := "app" }],
        calls := [({ NextToken := some "t1", Environments := ["e1"] }, false)] }) :=
  ⟨⟨by decide, by decide⟩,
   (pagers_return_api_error.2
     (Except.error "no more answers")
     [{ NextToken := some "t1", Environments := ["e1"] }] "throttled"
     [Except.ok { NextToken := none, Environments := ["e2"] }] [true]
     { NextToken := none, request := "app" } 5 (by decide) (by decide))⟩

/-! ## Package ssmincidents: lemmas and claims -/

namespace ssmincidents

/-- A key that no entry of a map carries is looked up in vain. -/
theorem lookup_eq_none_of_not_mem {α : Type} (key : String) :
    ∀ m : List (String × α), key ∉ m.map Prod.fst → m.lookup key = none
  | [], _ => rfl
  | (k, v) :: rest, h => by
    have hk : key ≠ k := fun e => h (by simp [e])
    have hrest : key ∉ rest.map Prod.fst := fun e => h (by simp at e ⊢; exact Or.inr e)
    have hbeq : (key == k) = false := by simpa using hk
    simp only [List.lookup, hbeq]
    exact lookup_eq_none_of_not_mem key rest hrest

/-- Assigning under a fresh key appends the entry. -/
theorem mapSet_fresh {α : Type} (m : List (String × α)) (key : String) (value : α)
    (h : key ∉ m.map Prod.fst) : mapSet m key value = m ++ [(key, value)] := by
  unfold mapSet
  rw [lookup_eq_none_of_not_mem key m h]
  rfl

/-- Looking a key up in a map whose values were all transformed. -/
theorem lookup_map_values {α β : Type} (f : α → β) (key : String) :
    ∀ m : List (String × α),
      (m.map (fun p => (p.1, f p.2))).lookup key = (m.lookup key).map f
  | [] => rfl
  | (k, v) :: rest => by
    simp only [List.map, List.lookup]
    cases hk : (key == k)
    · exact lookup_map_values f key rest
    · rfl

/-- The expansion loop over a map of strings with fresh, distinct keys appends
one Variable member per entry. -/
theorem expandDynamicParametersLoop_strings :
    ∀ (m : List (String × String)) (result : List (String × DynamicSsmParameterValue)),
      (m.map Prod.fst).Nodup →
      (∀ key ∈ m.map Prod.fst, key ∉ result.map Prod.fst) →
      expandDynamicParametersLoop (m.map (fun p => (p.1, Any.string p.2))) result =
        Except.ok (result ++ m.map (fun p => (p.1, DynamicSsmParameterValue.Variable p.2)))
  | [], result, _, _ => by simp [expandDynamicParametersLoop]
  | (k, v) :: rest, result, hnd, hfresh => by
    have hk : k ∉ result.map Prod.fst := hfresh k (by simp)
    have hnd' : (rest.map Prod.fst).Nodup := by
      simp only [List.map, List.nodup_cons] at hnd
      exact hnd.2
    have hkrest : k ∉ rest.map Prod.fst := by
      simp only [List.map, List.nodup_cons] at hnd
      exact hnd.1
    simp only [List.map, expandDynamicParametersLoop]
    rw [mapSet_fresh result k _ hk]
    rw [expandDynamicParametersLoop_strings rest _ hnd' (by
      intro key hkey hmem
      simp only [List.map_append, List.map, List.mem_append, List.mem_singleton] at hmem
      rcases hmem with hmem | hmem
      · exact hfresh key (by simp only [List.map, List.mem_cons]; exact Or.inr hkey) hmem
      · exact hkrest (hmem ▸ hkey))]
    simp

/-- The flattening loop over a map of Variable members with fresh, distinct keys
appends one variable-type value per entry. -/
theorem flattenDynamicParametersLoop_variables :
    ∀ (m : List (String × String)) (result : List (String × Any)),
      (m.map Prod.fst).Nodup →
      (∀ key ∈ m.map Prod.fst, key ∉ result.map Prod.fst) →
      flattenDynamicParametersLoop
          (m.map (fun p => (p.1, DynamicSsmParameterValue.Variable p.2))) result =
        Except.ok (result ++ m.map (fun p => (p.1, Any.variableType p.2)))
  | [], result, _, _ => by simp [flattenDynamicParametersLoop]
  | (k, v) :: rest, result, hnd, hfresh => by
    have hk : k ∉ result.map Prod.fst := hfresh k (by simp)
    have hnd' : (rest.map Prod.fst).Nodup := by
      simp only [List.map, List.nodup_cons] at hnd
      exact hnd.2
    have hkrest : k ∉ rest.map Prod.fst := by
      simp only [List.map, List.nodup_cons] at hnd
      exact hnd.1
    simp only [List.map, flattenDynamicParametersLoop]
    rw [mapSet_fresh result k _ hk]
    rw [flattenDynamicParametersLoop_variables rest _ hnd' (by
      intro key hkey hmem
      simp only [List.map_append, List.map, List.mem_append, List.mem_singleton] at hmem
      rcases hmem with hmem | hmem
      · exact hfresh key (by simp only [List.map, List.mem_cons]; exact Or.inr hkey) hmem
      · exact hkrest (hmem ▸ hkey))]
    simp

end ssmincidents

/-- C30: dynamic parameters round-trip. For every map `m` from string keys to
string values (its keys distinct, as in every Go map), `expandDynamicParameters`
returns the map with the same keys that holds, under each key, the Variable
member wrapping the value of `m`; `flattenDynamicParameters` does not panic on
that output and returns the map with exactly the keys of `m` that holds, under
each key, the value of `m` as a variable type. -/
theorem dynamicParameters_roundtrip (m : List (String × String))
    (hkeys : (m.map Prod.fst).Nodup) :
    ssmincidents.expandDynamicParameters
        (m.map (fun p => (p.1, ssmincidents.Any.string p.2))) =
      Except.ok (m.map (fun p => (p.1, ssmincidents.DynamicSsmParameterValue.Variable p.2))) ∧
    ssmincidents.flattenDynamicParameters
        (m.map (fun p => (p.1, ssmincidents.DynamicSsmParameterValue.Variable p.2))) =
      Except.ok (m.map (fun p => (p.1, ssmincidents.Any.variableType p.2))) ∧
    (m.map (fun p => (p.1, ssmincidents.Any.variableType p.2))).map Prod.fst =
      m.map Prod.fst ∧
    ∀ key : String,
      (m.map (fun p => (p.1, ssmincidents.Any.variableType p.2))).lookup key =
        (m.lookup key).map ssmincidents.Any.variableType := by
  refine ⟨?_, ?_, ?_, ?_⟩
  · have h := ssmincidents.expandDynamicParametersLoop_strings m [] hkeys (by simp)
    simpa [ssmincidents.expandDynamicParameters] using h
  · have h := ssmincidents.flattenDynamicParametersLoop_variables m [] hkeys (by simp)
    simpa [ssmincidents.flattenDynamicParameters] using h
  · simp [List.map_map, Function.comp_def]
  · intro key
    exact ssmincidents.lookup_map_values ssmincidents.Any.variableType key m

/-- An instance of C30: a map of two parameters is expanded to two Variable
members and flattened back to the two values as variable types. -/
theorem dynamicParameters_roundtrip_witness :
    ([("region", "INCIDENT_RECORD_ARN"), ("service", "INVOLVED_RESOURCES")].map
        Prod.fst).Nodup ∧
    ssmincidents.flattenDynamicParameters
        ([("region", "INCIDENT_RECORD_ARN"), ("service", "INVOLVED_RESOURCES")].map
          (fun p => (p.1, ssmincidents.DynamicSsmParameterValue.Variable p.2))) =
      Except.ok ([("region", "INCIDENT_RECORD_ARN"), ("service", "INVOLVED_RESOURCES")].map
        (fun p => (p.1, ssmincidents.Any.variableType p.2))) :=
  ⟨by decide,
   (dynamicParameters_roundtrip
     [("region", "INCIDENT_RECORD_ARN"), ("service", "INVOLVED_RESOURCES")]
     (by decide)).2.1⟩

namespace ssmincidents

/-- The expansion loop on targets that each hold a string under `sns_topic_arn`
returns one SNS member per target, in order. -/
theorem expandNotificationTargetsLoop_strings :
    ∀ ts : List Any,
      (∀ t ∈ ts, ∃ m arn, t = Any.map m ∧
        m.lookup names.AttrSNSTopicARN = some (Any.string arn)) →
      expandNotificationTargetsLoop ts =
        Except.ok (ts.map (fun t => NotificationTargetItem.SnsTopicArn (snsTopicARNOf t)))
  | [], _ => rfl
  | t :: rest, h => by
    obtain ⟨m, arn, ht, harn⟩ := h t (by simp)
    have hrest := expandNotificationTargetsLoop_strings rest
      (fun t' ht' => h t' (by simp [ht']))
    subst ht
    simp only [expandNotificationTargetsLoop, harn, hrest, List.map, snsTopicARNOf]

/-- The flattening loop on SNS members returns one map per member, in order. -/
theorem flattenNotificationTargetsLoop_sns :
    ∀ arns : List String,
      flattenNotificationTargetsLoop (arns.map NotificationTargetItem.SnsTopicArn) =
        Except.ok (arns.map (fun arn => [(names.AttrSNSTopicARN, Any.string arn)]))
  | [] => rfl
  | arn :: rest => by
    simp only [List.map, flattenNotificationTargetsLoop, flattenNotificationTargetsLoop_sns rest]

end ssmincidents

/-- C28: notification targets round-trip. For every non-empty list `ts` of maps
that each hold a string under `sns_topic_arn`, `expandNotificationTargets`
returns a slice on which `flattenNotificationTargets` returns as many maps as
`ts` has, in the same order, each holding under `sns_topic_arn` the ARN of the
map of `ts` at its position; when the maps of `ts` hold nothing else, the result
is `ts` itself. Both functions return nil for an empty list. -/
theorem notificationTargets_roundtrip :
    (∀ ts : List ssmincidents.Any, ts ≠ [] →
      (∀ t ∈ ts, ∃ m arn, t = ssmincidents.Any.map m ∧
        m.lookup names.AttrSNSTopicARN = some (ssmincidents.Any.string arn)) →
      ∃ items, ssmincidents.expandNotificationTargets ts = Except.ok (some items) ∧
        ssmincidents.flattenNotificationTargets (some items) =
          Except.ok (some (ts.map (fun t =>
            [(names.AttrSNSTopicARN,
              ssmincidents.Any.string (ssmincidents.snsTopicARNOf t))])))) ∧
    (∀ arns : List String, arns ≠ [] →
      ∃ items maps,
        ssmincidents.expandNotificationTargets
            (arns.map (fun arn => ssmincidents.Any.map
              [(names.AttrSNSTopicARN, ssmincidents.Any.string arn)])) =
          Except.ok (some items) ∧
        ssmincidents.flattenNotificationTargets (some items) = Except.ok (some maps) ∧
        maps.map ssmincidents.Any.map =
          arns.map (fun arn => ssmincidents.Any.map
            [(names.AttrSNSTopicARN, ssmincidents.Any.string arn)])) ∧
    ssmincidents.expandNotificationTargets [] = Except.ok none ∧
    ssmincidents.flattenNotificationTargets none = Except.ok none ∧
    ssmincidents.flattenNotificationTargets (some []) = Except.ok none := by
  have key : ∀ ts : List ssmincidents.Any, ts ≠ [] →
      (∀ t ∈ ts, ∃ m arn, t = ssmincidents.Any.map m ∧
        m.lookup names.AttrSNSTopicARN = some (ssmincidents.Any.string arn)) →
      ∃ items, ssmincidents.expandNotificationTargets ts = Except.ok (some items) ∧
        ssmincidents.flattenNotificationTargets (some items) =
          Except.ok (some (ts.map (fun t =>
            [(names.AttrSNSTopicARN,
              ssmincidents.Any.string (ssmincidents.snsTopicARNOf t))]))) := by
    intro ts hne h
    have hlen : ts.length ≠ 0 := fun e => hne (List.length_eq_zero.mp e)
    refine ⟨ts.map (fun t =>
      ssmincidents.NotificationTargetItem.SnsTopicArn (ssmincidents.snsTopicARNOf t)), ?_, ?_⟩
    · simp only [ssmincidents.expandNotificationTargets, if_neg hlen,
        ssmincidents.expandNotificationTargetsLoop_strings ts h]
    · have hflat := ssmincidents.flattenNotificationTargetsLoop_sns
        (ts.map ssmincidents.snsTopicARNOf)
      simp only [List.map_map] at hflat
      simp only [ssmincidents.flattenNotificationTargets, List.length_map, if_neg hlen]
      have e1 : (fun t => ssmincidents.NotificationTargetItem.SnsTopicArn
          (ssmincidents.snsTopicARNOf t)) =
          ssmincidents.NotificationTargetItem.SnsTopicArn ∘ ssmincidents.snsTopicARNOf := rfl
      rw [e1, hflat]
      rfl
  refine ⟨key, ?_, rfl, rfl, rfl⟩
  intro arns hne
  obtain ⟨items, hexp, hflat⟩ := key
    (arns.map (fun arn => ssmincidents.Any.map
      [(names.AttrSNSTopicARN, ssmincidents.Any.string arn)]))
    (by simpa using hne)
    (by
      intro t ht
      obtain ⟨arn, _, rfl⟩ := List.mem_map.mp ht
      exact ⟨_, arn, rfl, by simp [List.lookup]⟩)
  refine ⟨items, _, hexp, hflat, ?_⟩
  simp only [List.map_map]
  apply List.map_congr_left
  intro arn _
  simp [ssmincidents.snsTopicARNOf, List.lookup]

/-- An instance of C28: two targets, the first of which holds a further key, are
expanded and flattened to two maps holding the two ARNs in order. -/
theorem notificationTargets_roundtrip_witness :
    ∃ items,
      ssmincidents.expandNotificationTargets
          [ssmincidents.Any.map [("label", ssmincidents.Any.string "ops"),
              ("sns_topic_arn", ssmincidents.Any.string "arn:aws:sns:us-east-1:1:a")],
           ssmincidents.Any.map
             [("sns_topic_arn", ssmincidents.Any.string "arn:aws:sns:us-east-1:1:b")]] =
        Except.ok (some items) ∧
      ssmincidents.flattenNotificationTargets (some items) =
        Except.ok (some
          [[("sns_topic_arn", ssmincidents.Any.string "arn:aws:sns:us-east-1:1:a")],
           [("sns_topic_arn", ssmincidents.Any.string "arn:aws:sns:us-east-1:1:b")]]) :=
  notificationTargets_roundtrip.1
    [ssmincidents.Any.map [("label", ssmincidents.Any.string "ops"),
        ("sns_topic_arn", ssmincidents.Any.string "arn:aws:sns:us-east-1:1:a")],
     ssmincidents.Any.map
       [("sns_topic_arn", ssmincidents.Any.string "arn:aws:sns:us-east-1:1:b")]]
    (by simp)
    (by
      intro t ht
      simp only [List.mem_cons, List.mem_singleton, List.not_mem_nil, or_false] at ht
      rcases ht with rfl | rfl
      · exact ⟨_, "arn:aws:sns:us-east-1:1:a", rfl, rfl⟩
      · exact ⟨_, "arn:aws:sns:us-east-1:1:b", rfl, rfl⟩)

namespace ssmincidents

/-- The expanded list of a set holds exactly the non-empty strings of the set. -/
theorem mem_ExpandStringValueSet (a : String) :
    ∀ items : List Any,
      a ∈ ExpandStringValueSet items ↔ (Any.string a ∈ items ∧ a ≠ "")
  | [] => by simp [ExpandStringValueSet]
  | Any.string s :: rest => by
    have ih := mem_ExpandStringValueSet a rest
    by_cases hs : s = ""
    · subst hs
      simp only [ExpandStringValueSet, ne_eq, not_true_eq_false, if_false, ih,
        List.mem_cons, Any.string.injEq]
      constructor
      · rintro ⟨h, hne⟩
        exact ⟨Or.inr h, hne⟩
      · rintro ⟨h | h, hne⟩
        · exact absurd h hne
        · exact ⟨h, hne⟩
    · simp only [ExpandStringValueSet, ne_eq, hs, not_false_eq_true, if_true,
        List.mem_cons, ih, Any.string.injEq]
      constructor
      · rintro (h | ⟨h, hne⟩)
        · exact ⟨Or.inl h, h ▸ hs⟩
        · exact ⟨Or.inr h, hne⟩
      · rintro ⟨h | h, hne⟩
        · exact Or.inl h
        · exact Or.inr ⟨h, hne⟩
  | Any.nil :: rest => by
    simp [ExpandStringValueSet, mem_ExpandStringValueSet a rest]
  | Any.int _ :: rest => by
    simp [ExpandStringValueSet, mem_ExpandStringValueSet a rest]
  | Any.bool _ :: rest => by
    simp [ExpandStringValueSet, mem_ExpandStringValueSet a rest]
  | Any.stringPtr _ :: rest => by
    simp [ExpandStringValueSet, mem_ExpandStringValueSet a rest]
  | Any.variableType _ :: rest => by
    simp [ExpandStringValueSet, mem_ExpandStringValueSet a rest]
  | Any.list _ :: rest => by
    simp [ExpandStringValueSet, mem_ExpandStringValueSet a rest]
  | Any.map _ :: rest => by
    simp [ExpandStringValueSet, mem_ExpandStringValueSet a rest]
  | Any.set _ :: rest => by
    simp [ExpandStringValueSet, mem_ExpandStringValueSet a rest]

/-- The members of the set made of a list of strings are the strings of the
list. -/
theorem mem_FlattenStringValueSet (x : Any) (list : List String) :
    x ∈ FlattenStringValueSet list ↔ ∃ a ∈ list, Any.string a = x := by
  simp [FlattenStringValueSet]

end ssmincidents

/-- C29: `expandChatChannel` returns the Empty variant exactly when the expanded
string list of the input set is empty, and otherwise the ChatbotSns variant
holding that list; `flattenChatChannel` maps the Empty variant to an empty set,
the ChatbotSns variant to the set of its values and any other variant to nil;
and for every set `s` of non-empty strings `flattenChatChannel (expandChatChannel
s)` is a set with the same members as `s`. -/
theorem chatChannel_roundtrip :
    (∀ s : List ssmincidents.Any,
      (ssmincidents.expandChatChannel s = ssmincidents.ChatChannel.Empty ↔
        ssmincidents.ExpandStringValueSet s = []) ∧
      (ssmincidents.ExpandStringValueSet s ≠ [] →
        ssmincidents.expandChatChannel s =
          ssmincidents.ChatChannel.ChatbotSns (ssmincidents.ExpandStringValueSet s))) ∧
    ssmincidents.flattenChatChannel ssmincidents.ChatChannel.Empty = some [] ∧
    (∀ value : List String,
      ssmincidents.flattenChatChannel (ssmincidents.ChatChannel.ChatbotSns value) =
        some (ssmincidents.FlattenStringValueSet value)) ∧
    (∀ tag : String,
      ssmincidents.flattenChatChannel (ssmincidents.ChatChannel.UnknownUnionMember tag) =
        none) ∧
    (∀ s : List ssmincidents.Any,
      (∀ x ∈ s, ∃ v, x = ssmincidents.Any.string v ∧ v ≠ "") →
      ∃ out, ssmincidents.flattenChatChannel (ssmincidents.expandChatChannel s) = some out ∧
        ∀ x, x ∈ out ↔ x ∈ s) := by
  refine ⟨?_, rfl, fun _ => rfl, fun _ => rfl, ?_⟩
  · intro s
    constructor
    · unfold ssmincidents.expandChatChannel
      by_cases h : (ssmincidents.ExpandStringValueSet s).length = 0
      · simp [h, List.length_eq_zero.mp h]
      · have hne : ssmincidents.ExpandStringValueSet s ≠ [] :=
          fun e => h (by rw [e]; rfl)
        simp [h, hne]
    · intro hne
      have h : (ssmincidents.ExpandStringValueSet s).length ≠ 0 :=
        fun e => hne (List.length_eq_zero.mp e)
      simp [ssmincidents.expandChatChannel, h]
  · intro s hs
    have hmem : ∀ x, (∃ a ∈ ssmincidents.ExpandStringValueSet s,
        ssmincidents.Any.string a = x) ↔ x ∈ s := by
      intro x
      constructor
      · rintro ⟨a, ha, rfl⟩
        exact ((ssmincidents.mem_ExpandStringValueSet a s).mp ha).1
      · intro hx
        obtain ⟨v, rfl, hv⟩ := hs x hx
        exact ⟨v, (ssmincidents.mem_ExpandStringValueSet v s).mpr ⟨hx, hv⟩, rfl⟩
    by_cases h : (ssmincidents.ExpandStringValueSet s).length = 0
    · refine ⟨[], by simp [ssmincidents.expandChatChannel, h, ssmincidents.flattenChatChannel], ?_⟩
      intro x
      rw [← hmem x, List.length_eq_zero.mp h]
      simp
    · refine ⟨ssmincidents.FlattenStringValueSet (ssmincidents.ExpandStringValueSet s),
        by simp [ssmincidents.expandChatChannel, h, ssmincidents.flattenChatChannel], ?_⟩
      intro x
      rw [ssmincidents.mem_FlattenStringValueSet, hmem x]

/-- An instance of C29: a set of two topic ARNs is expanded to the ChatbotSns
variant and flattened to a set with the same two members. -/
theorem chatChannel_roundtrip_witness :
    ∃ out,
      ssmincidents.flattenChatChannel
          (ssmincidents.expandChatChannel
            [ssmincidents.Any.string "arn:a", ssmincidents.Any.string "arn:b"]) =
        some out ∧
      ∀ x, x ∈ out ↔
        x ∈ [ssmincidents.Any.string "arn:a", ssmincidents.Any.string "arn:b"] :=
  chatChannel_roundtrip.2.2.2.2
    [ssmincidents.Any.string "arn:a", ssmincidents.Any.string "arn:b"]
    (by
      intro x hx
      simp only [List.mem_cons, List.mem_singleton, List.not_mem_nil, or_false] at hx
      rcases hx with rfl | rfl
      · exact ⟨"arn:a", rfl, by decide⟩
      · exact ⟨"arn:b", rfl, by decide⟩)

namespace ssmincidents

/-- On a map whose values are all strings `flex.ExpandStringValueMap` returns. -/
theorem ExpandStringValueMap_strings :
    ∀ v : List (String × Any), (∀ p ∈ v, ∃ s, p.2 = Any.string s) →
      ∃ m, ExpandStringValueMap v = Except.ok m
  | [], _ => ⟨[], rfl⟩
  | (key, value) :: rest, h => by
    obtain ⟨s, hs⟩ := h (key, value) (by simp)
    obtain ⟨m, hm⟩ := ExpandStringValueMap_strings rest (fun p hp => h p (by simp [hp]))
    simp only at hs
    subst hs
    exact ⟨(key, s) :: m, by simp only [ExpandStringValueMap, hm]⟩

end ssmincidents

/-- C22: on a configuration whose first item is the map `templateConfig`, every
template that `expandIncidentTemplate` returns has `DedupeString` and `Summary`
set to a pointer to the configured string whenever the map holds a string for
them, the empty string included, and nil otherwise; has `Title` set exactly when
the map holds a non-empty string for it; and has `Impact` set exactly when the
map holds a non-zero integer for it. The function returns a template whenever
the incident tags, if configured, are all strings and the notification targets,
if configured, each hold a string under `sns_topic_arn`. -/
theorem expandIncidentTemplate_scalar_fields
    (templateConfig : List (String × ssmincidents.Any)) (rest : List ssmincidents.Any) :
    (∀ template,
      ssmincidents.expandIncidentTemplate (ssmincidents.Any.map templateConfig :: rest) =
        Except.ok template →
      (∀ v, templateConfig.lookup "dedupe_string" = some (ssmincidents.Any.string v) →
        template.DedupeString = some v) ∧
      ((∀ v, templateConfig.lookup "dedupe_string" ≠ some (ssmincidents.Any.string v)) →
        template.DedupeString = none) ∧
      (∀ v, templateConfig.lookup "summary" = some (ssmincidents.Any.string v) →
        template.Summary = some v) ∧
      ((∀ v, templateConfig.lookup "summary" ≠ some (ssmincidents.Any.string v)) →
        template.Summary = none) ∧
      (∀ v, template.Title = some v ↔
        (templateConfig.lookup "title" = some (ssmincidents.Any.string v) ∧ v ≠ "")) ∧
      (∀ i, template.Impact = some i ↔
        ∃ v, templateConfig.lookup "impact" = some (ssmincidents.Any.int v) ∧ v ≠ 0 ∧
          i = ssmincidents.toInt32 v)) ∧
    ((∀ v, templateConfig.lookup "incident_tags" = some (ssmincidents.Any.map v) →
        ∀ p ∈ v, ∃ s, p.2 = ssmincidents.Any.string s) →
     (∀ items, templateConfig.lookup "notification_target" = some (ssmincidents.Any.set items) →
        ∀ t ∈ items, ∃ m arn, t = ssmincidents.Any.map m ∧
          m.lookup names.AttrSNSTopicARN = some (ssmincidents.Any.string arn)) →
     ∃ template,
       ssmincidents.expandIncidentTemplate (ssmincidents.Any.map templateConfig :: rest) =
         Except.ok template) := by
  constructor
  · intro template h
    simp only [ssmincidents.expandIncidentTemplate] at h
    split at h
    · exact absurd h (by simp)
    · rename_i tags htags
      split at h
      · exact absurd h (by simp)
      · rename_i targets htargets
        simp only [Except.ok.injEq] at h
        subst h
        refine ⟨?_, ?_, ?_, ?_, ?_, ?_⟩
        · intro v hv
          simp only [hv]
        · intro hv
          simp only
        · intro v hv
          simp only [hv]
        · intro hv
          simp only
        · intro v
          simp only
          split
          · rename_i w hlook
            rw [hlook]
            constructor
            · intro e
              by_cases hw : w = ""
              · simp [hw] at e
              · simp only [ne_eq, hw, not_false_eq_true, if_true, Option.some.injEq] at e
                subst e
                exact ⟨rfl, hw⟩
            · rintro ⟨e, hv⟩
              simp only [Option.some.injEq, ssmincidents.Any.string.injEq] at e
              subst e
              simp [hv]
          · rename_i hno
            constructor
            · intro e
              cases e
            · rintro ⟨e, _⟩
              exact absurd e (hno v)
        · intro i
          simp only
          split
          · rename_i w hlook
            rw [hlook]
            constructor
            · intro e
              by_cases hw : w = 0
              · simp [hw] at e
              · simp only [ne_eq, hw, not_false_eq_true, if_true, Option.some.injEq] at e
                exact ⟨w, rfl, hw, e.symm⟩
            · rintro ⟨v, e, hv, hi⟩
              simp only [Option.some.injEq, ssmincidents.Any.int.injEq] at e
              subst e
              simp [hv, hi]
          · rename_i hno
            constructor
            · intro e
              cases e
            · rintro ⟨v, e, _, _⟩
              exact absurd e (hno v)
  · intro htags htargets
    have h1 : ∃ tags,
        (match templateConfig.lookup "incident_tags" with
          | some (ssmincidents.Any.map v) =>
            if v.length > 0 then
              match ssmincidents.ExpandStringValueMap v with
              | Except.ok m => Except.ok (some m)
              | Except.error p => Except.error p
            else Except.ok none
          | _ => (Except.ok none :
              Except ssmincidents.Panic (Option (List (String × String))))) =
          Except.ok tags := by
      split
      · rename_i v hlook
        obtain ⟨m, hm⟩ := ssmincidents.ExpandStringValueMap_strings v (htags v hlook)
        by_cases hlen : v.length > 0
        · exact ⟨some m, by simp only [hlen, if_true, hm]⟩
        · exact ⟨none, by simp only [hlen, if_false]⟩
      · exact ⟨none, rfl⟩
    have h2 : ∃ targets,
        (match templateConfig.lookup "notification_target" with
          | some (ssmincidents.Any.set items) =>
            if items.length > 0 then ssmincidents.expandNotificationTargets items
            else Except.ok none
          | _ => (Except.ok none :
              Except ssmincidents.Panic (Option (List ssmincidents.NotificationTargetItem)))) =
          Except.ok targets := by
      split
      · rename_i items hlook
        by_cases hlen : items.length > 0
        · have hne : items.length ≠ 0 := Nat.pos_iff_ne_zero.mp hlen
          refine ⟨some (items.map (fun t => ssmincidents.NotificationTargetItem.SnsTopicArn
            (ssmincidents.snsTopicARNOf t))), ?_⟩
          simp only [hlen, if_true, ssmincidents.expandNotificationTargets, if_neg hne,
            ssmincidents.expandNotificationTargetsLoop_strings items (htargets items hlook)]
        · exact ⟨none, by simp only [hlen, if_false]⟩
      · exact ⟨none, rfl⟩
    obtain ⟨tags, htagsEq⟩ := h1
    obtain ⟨targets, htargetsEq⟩ := h2
    simp only [ssmincidents.expandIncidentTemplate, htagsEq, htargetsEq]
    exact ⟨_, rfl⟩

/-- An instance of C22: a configuration holding the empty string for title,
dedupe string and summary and zero for the impact is expanded to a template
whose `DedupeString` and `Summary` point to the empty string while `Title` and
`Impact` stay nil. -/
theorem expandIncidentTemplate_scalar_fields_witness :
    (∃ template,
      ssmincidents.expandIncidentTemplate
          [ssmincidents.Any.map
            [("title", ssmincidents.Any.string ""), ("impact", ssmincidents.Any.int 0),
             ("dedupe_string", ssmincidents.Any.string ""),
             ("summary", ssmincidents.Any.string "")]] =
        Except.ok template) ∧
    ssmincidents.expandIncidentTemplate
        [ssmincidents.Any.map
          [("title", ssmincidents.Any.string ""), ("impact", ssmincidents.Any.int 0),
           ("dedupe_string", ssmincidents.Any.string ""),
           ("summary", ssmincidents.Any.string "")]] =
      Except.ok { Title := none, Impact := none, DedupeString := some "",
                  IncidentTags := none, Summary := some "", NotificationTargets := none } :=
  ⟨(expandIncidentTemplate_scalar_fields
      [("title", ssmincidents.Any.string ""), ("impact", ssmincidents.Any.int 0),
       ("dedupe_string", ssmincidents.Any.string ""),
       ("summary", ssmincidents.Any.string "")] []).2
      (by intro v hv; simp [List.lookup] at hv)
      (by intro items hitems; simp [List.lookup] at hitems),
   rfl⟩

/-- C23 fails in the code: `expandPagerDutyIntegration` leaves the pointer to the
incident configuration nil for an entry whose `service_id` is absent or the
empty string, and `flattenPagerDutyIntegration` reads `ServiceId` through that
pointer, so flattening the expansion of such an entry panics with a nil-pointer
dereference instead of returning a map; with a non-empty `service_id` in every
non-nil entry one map per such entry is returned. -/
theorem flattenPagerDutyIntegration_nil_dereference :
    (ssmincidents.expandPagerDutyIntegration
        [ssmincidents.Any.map
          [("name", ssmincidents.Any.string "pd"),
           ("secret_id", ssmincidents.Any.string "secret")]] >>=
      ssmincidents.flattenPagerDutyIntegration) =
      Except.error ssmincidents.Panic.nilDereference ∧
    (ssmincidents.expandPagerDutyIntegration
        [ssmincidents.Any.map
          [("name", ssmincidents.Any.string "pd"),
           ("service_id", ssmincidents.Any.string ""),
           ("secret_id", ssmincidents.Any.string "secret")]] >>=
      ssmincidents.flattenPagerDutyIntegration) =
      Except.error ssmincidents.Panic.nilDereference ∧
    (ssmincidents.expandPagerDutyIntegration
        [ssmincidents.Any.nil,
         ssmincidents.Any.map
          [("name", ssmincidents.Any.string "pd"),
           ("service_id", ssmincidents.Any.string "P1"),
           ("secret_id", ssmincidents.Any.string "secret")]] >>=
      ssmincidents.flattenPagerDutyIntegration) =
      Except.ok
        [ssmincidents.Any.map
          [("name", ssmincidents.Any.stringPtr "pd"),
           ("service_id", ssmincidents.Any.stringPtr "P1"),
           ("secret_id", ssmincidents.Any.stringPtr "secret")]] :=
  ⟨rfl, rfl, rfl⟩
